import Mathlib

/-! Conditional-request evaluation of `eighty/serve`.

A shallow embedding of `serve/fasthttp.go` (the RFC 7232 precondition
evaluator), of `serve/static_fasthttp.go` (the static file handler and its cache
policy), of the handled errors of `status_resp.go`, of the CSRF token of
`middleware/csrf_fasthttp.go`, of the cache policy of
`middleware/cache_control.go`, of the panic handler of
`middleware/accesslog_fasthttp.go`, of the reverse router and `ApplyMiddlware` of
`routing`, and of the cookie domain check of `cookie_fasthttp.go`, with proofs
of the properties their specification states.

Conventions of the embedding:

* a Go `[]byte` is a `List Nat`, one number per byte; a nil slice and an empty
  slice are both `[]` (the code only ever looks at `len`);
* a `time.Time` is an `Int`, the instant in nanoseconds since the Unix epoch;
* a function that may index outside a slice returns a `Run`, whose `panic`
  constructor is Go's run-time panic; loops are unrolled by a fuel argument
  and `outOfFuel` marks an unrolling that was too short;
* library functions (`textproto.TrimBytes`, `bytes.HasPrefix`,
  `bytes.TrimPrefix`, `subtle.ConstantTimeCompare`, the fasthttp header
  store with its default content type, `strconv.ParseInt`,
  `strconv.FormatInt`, `path.Clean`) are modelled by their documented
  behaviour; `http.ParseTime` is a parameter of every
  function that calls it, and the collaborators of the static handler (file
  provider, error classifier, date format, MIME table, content sniffer) are
  the fields of `Env`.
-/

namespace Eighty

/-- Byte strings (`[]byte`). -/
abbrev Bytes := List Nat

/-- The bytes of an ASCII string literal. -/
def ascii (s : String) : Bytes := s.toList.map Char.toNat

/-- Outcome of running code that may panic; `outOfFuel` is an artefact of
unrolling loops a bounded number of times. -/
inductive Run (α : Type) where
  | ret (a : α)
  | panic
  | outOfFuel
  deriving DecidableEq, Repr

/-! ## Library functions -/

/-- Model of `subtle.ConstantTimeCompare`: 1 when the two slices have equal
contents, 0 otherwise. -/
def ConstantTimeCompare (x y : Bytes) : Nat := if x = y then 1 else 0

/-- Model of `bytes.HasPrefix`. -/
def HasPrefix (s pre : Bytes) : Bool := pre.isPrefixOf s

/-- Model of `bytes.TrimPrefix`. -/
def TrimPrefix (s pre : Bytes) : Bytes :=
  if HasPrefix s pre then s.drop pre.length else s

/-- Model of `textproto.isASCIISpace`: space, tab, line feed, carriage return. -/
def isASCIISpace (b : Nat) : Bool := b == 32 || b == 9 || b == 10 || b == 13

/-- Model of `textproto.TrimBytes`: leading, then trailing ASCII space removed. -/
def TrimBytes (b : Bytes) : Bytes :=
  ((b.dropWhile isASCIISpace).reverse.dropWhile isASCIISpace).reverse

/-! ## Header store, request and response -/

/-- Model of a fasthttp header store: key/value pairs under canonical keys. -/
abbrev Header := List (String × Bytes)

/-- Model of `Header.Peek`: the value stored under the key, empty if there is none. -/
def Header.Peek (h : Header) (key : String) : Bytes :=
  match h.find? (fun kv => kv.1 == key) with
  | some kv => kv.2
  | none => []

/-- Model of `Header.Del`: every entry under the key is removed. -/
def Header.Del (h : Header) (key : String) : Header :=
  h.filter (fun kv => !(kv.1 == key))

/-- The part of `fasthttp.Request` the evaluator reads; `method` is what
`r.Header.Method()` returns. -/
structure Request where
  method : Bytes
  header : Header
  deriving DecidableEq, Repr

/-- The part of `fasthttp.Response` the evaluator reads and writes. -/
structure Response where
  header : Header
  statusCode : Nat
  SkipBody : Bool
  deriving DecidableEq, Repr

/-- Model of `Response.SetStatusCode`. -/
def Response.SetStatusCode (w : Response) (code : Nat) : Response :=
  { w with statusCode := code }

def StatusNotModified : Nat := 304
def StatusPreconditionFailed : Nat := 412

/-- The constant `eighty.MethodHEAD` of `encodings.go`. -/
def MethodHEAD : Bytes := ascii "HEAD"
/-- The constant `eighty.MethodGET` of `encodings.go`. -/
def MethodGET : Bytes := ascii "GET"

/-! ## `serve/fasthttp.go` -/

def etagPrefix : Bytes := ascii "W/"

/-- The instant `time.Unix(0, 0)`. -/
def unixEpochTime : Int := 0

/-- The instant of Go's zero `time.Time`, January 1 of year 1, 00:00:00 UTC. -/
def zeroTime : Int := -62135596800 * 1000000000

/-- The duration `time.Second` in nanoseconds. -/
def Second : Int := 1000000000

inductive condResult where
  | condNone
  | condTrue
  | condFalse
  deriving DecidableEq, Repr

open condResult

def isZeroTime (t : Int) : Bool := t == zeroTime || t == unixEpochTime

def etagStrongMatch (a b : Bytes) : Bool :=
  ConstantTimeCompare a b == 1 && decide (a.length > 0) && a.head? == some 34

def etagWeakMatch (a b : Bytes) : Bool :=
  ConstantTimeCompare (TrimPrefix a etagPrefix) (TrimPrefix b etagPrefix) == 1

/-- The `for` loop of `scanETag`: `cs` is `s[i:]`. -/
def scanETagLoop (s : Bytes) : Nat → Bytes → Bytes × Bytes
  | _, [] => ([], [])
  | i, c :: cs =>
    if c == 0x21 || (c ≥ 0x23 && c ≤ 0x7E) || c ≥ 0x80 then scanETagLoop s (i + 1) cs
    else if c == 34 then (s.take (i + 1), s.drop (i + 1))
    else ([], [])

def scanETag (s : Bytes) : Bytes × Bytes :=
  let s := TrimBytes s
  let start := if HasPrefix s etagPrefix then 2 else 0
  if (s.drop start).length < 2 || s.get? start != some 34 then ([], [])
  else scanETagLoop s (start + 1) (s.drop (start + 1))

/-- The `for` loop of `checkIfMatch`, unrolled at most `fuel` times;
`current` is `w.Header.Peek("Etag")`. -/
def checkIfMatchLoop (current : Bytes) : Nat → Bytes → Run condResult
  | 0, _ => Run.outOfFuel
  | fuel + 1, im =>
    let im := TrimBytes im
    if im.length = 0 then Run.ret condFalse
    else if im.head? = some 44 then checkIfMatchLoop current fuel (im.drop 1)
    else if im.head? = some 42 then Run.ret condTrue
    else
      let sc := scanETag im
      if sc.1.length = 0 then Run.ret condFalse
      else if etagStrongMatch sc.1 current then Run.ret condTrue
      else checkIfMatchLoop current fuel sc.2

def checkIfMatch (r : Request) (w : Response) : Run condResult :=
  let im := r.header.Peek "If-Match"
  if im.length = 0 then Run.ret condNone
  else checkIfMatchLoop (w.header.Peek "Etag") (im.length + 1) im

/-- The `for` loop of `checkIfNoneMatch`, unrolled at most `fuel` times. After
a leading comma is dropped the loop goes on in the same iteration, and
`buf[0]` panics when nothing is left. -/
def checkIfNoneMatchLoop (providedEtag : Bytes) : Nat → Bytes → Run condResult
  | 0, _ => Run.outOfFuel
  | fuel + 1, buf =>
    let buf := TrimBytes buf
    if buf.length = 0 then Run.ret condTrue
    else
      let buf := if buf.head? = some 44 then buf.drop 1 else buf
      match buf.head? with
      | none => Run.panic
      | some c =>
        if c = 42 then Run.ret condFalse
        else
          let sc := scanETag buf
          if sc.1.length = 0 then Run.ret condTrue
          else if etagWeakMatch sc.1 providedEtag then Run.ret condFalse
          else checkIfNoneMatchLoop providedEtag fuel sc.2

def checkIfNoneMatch (providedEtag : Bytes) (r : Request) (_w : Response) : Run condResult :=
  let inm := r.header.Peek "If-None-Match"
  if inm.length = 0 then Run.ret condNone
  else checkIfNoneMatchLoop providedEtag (inm.length + 1) inm

def checkIfModifiedSince (parseTime : Bytes → Option Int) (r : Request) (modtime : Int) :
    condResult :=
  if ConstantTimeCompare r.method MethodGET != 1 && ConstantTimeCompare r.method MethodHEAD != 1 then
    condNone
  else
    let ims := r.header.Peek "If-Modified-Since"
    if ims.length = 0 || isZeroTime modtime then condNone
    else
      match parseTime ims with
      | none => condNone
      | some t => if modtime < t + 1 * Second then condFalse else condTrue

def checkIfUnmodifiedSince (parseTime : Bytes → Option Int) (r : Request) (modtime : Int) :
    condResult :=
  let ius := r.header.Peek "If-Unmodified-Since"
  if ius.length = 0 || isZeroTime modtime then condNone
  else
    match parseTime ius with
    | some t => if modtime < t + 1 * Second then condTrue else condFalse
    | none => condNone

def writeNotModified (w : Response) : Response :=
  let h := (w.header.Del "Content-Type").Del "Content-Length"
  let h := if (h.Peek "Etag").length > 0 then h.Del "Last-Modified" else h
  { header := h, statusCode := StatusNotModified, SkipBody := true }

/-- The function `checkPreconditions`: the pair is `done` and the response as
the function leaves it. -/
def checkPreconditions (parseTime : Bytes → Option Int) (r : Request) (w : Response)
    (modtime : Int) (etag : Bytes) : Run (Bool × Response) :=
  match checkIfMatch r w with
  | Run.panic => Run.panic
  | Run.outOfFuel => Run.outOfFuel
  | Run.ret ch0 =>
    let ch := if ch0 = condNone then checkIfUnmodifiedSince parseTime r modtime else ch0
    if ch = condFalse then Run.ret (true, w.SetStatusCode StatusPreconditionFailed)
    else
      match checkIfNoneMatch etag r w with
      | Run.panic => Run.panic
      | Run.outOfFuel => Run.outOfFuel
      | Run.ret condFalse =>
        if ConstantTimeCompare r.method MethodGET == 1 || ConstantTimeCompare r.method MethodHEAD == 1 then
          Run.ret (true, writeNotModified w)
        else Run.ret (true, w.SetStatusCode StatusPreconditionFailed)
      | Run.ret condNone =>
        if checkIfModifiedSince parseTime r modtime = condFalse then
          Run.ret (true, writeNotModified w)
        else Run.ret (false, w)
      | Run.ret condTrue => Run.ret (false, w)

/-! ## A sample `http.ParseTime` -/

def monthIndex (m : Bytes) : Option Nat :=
  (["Jan", "Feb", "Mar", "Apr", "May", "Jun", "Jul", "Aug", "Sep", "Oct", "Nov", "Dec"].map
    ascii).indexOf? m |>.map (· + 1)

def isWeekday (d : Bytes) : Bool :=
  (["Mon", "Tue", "Wed", "Thu", "Fri", "Sat", "Sun"].map ascii).contains d

/-- Decimal value of a run of ASCII digits, `none` if one of them is not a digit. -/
def digits : Bytes → Option Nat
  | [] => some 0
  | ds => ds.foldl (fun acc c => acc.bind fun n =>
      if 48 ≤ c ∧ c ≤ 57 then some (n * 10 + (c - 48)) else none) (some 0)

def daysIn (y m : Nat) : Nat :=
  if m = 2 then (if y % 4 = 0 ∧ (y % 100 ≠ 0 ∨ y % 400 = 0) then 29 else 28)
  else if m = 4 ∨ m = 6 ∨ m = 9 ∨ m = 11 then 30 else 31

/-- Days from 1970-01-01 to the given proleptic Gregorian date. -/
def daysFromCivil (y m d : Nat) : Int :=
  let y1 : Int := if m ≤ 2 then (y : Int) - 1 else y
  let era : Int := y1 / 400
  let yoe : Int := y1 - era * 400
  let mp : Int := ((m + 9) % 12 : Nat)
  let doy : Int := (153 * mp + 2) / 5 + d - 1
  let doe : Int := yoe * 365 + yoe / 4 - yoe / 100 + doy
  era * 146097 + doe - 719468

/-- A parser for the layout `Mon, 02 Jan 2006 15:04:05 GMT`, the first of the
layouts `http.ParseTime` tries. It stands for `http.ParseTime` where a concrete
header value is evaluated: the result is the instant in nanoseconds since the
Unix epoch, `none` when the value does not have this layout. -/
def parseIMFFixdate (b : Bytes) : Option Int :=
  if b.length ≠ 29 then none
  else if ¬ isWeekday (b.take 3) then none
  else if (b.drop 3).take 2 ≠ ascii ", " ∨ b.get? 7 ≠ some 32 ∨ b.get? 11 ≠ some 32
      ∨ b.get? 16 ≠ some 32 ∨ b.get? 19 ≠ some 58 ∨ b.get? 22 ≠ some 58
      ∨ b.drop 25 ≠ ascii " GMT" then none
  else
    match digits ((b.drop 5).take 2), monthIndex ((b.drop 8).take 3),
        digits ((b.drop 12).take 4), digits ((b.drop 17).take 2),
        digits ((b.drop 20).take 2), digits ((b.drop 23).take 2) with
    | some d, some m, some y, some hh, some mm, some ss =>
      if d = 0 ∨ d > daysIn y m ∨ hh ≥ 24 ∨ mm ≥ 60 ∨ ss ≥ 60 then none
      else some ((daysFromCivil y m d * 86400 + hh * 3600 + mm * 60 + ss) * 1000000000)
    | _, _, _, _, _, _ => none

/-! ## Header values that list entity tags -/

/-- The bytes `scanETag` allows between the quotes of an entity tag. -/
def etagChar (c : Nat) : Bool := c == 0x21 || (c ≥ 0x23 && c ≤ 0x7E) || c ≥ 0x80

/-- One element of a comma-separated list of entity tags: the tag, `"body"` or
`W/"body"`, and the white space before and after it. -/
structure ListedTag where
  weak : Bool
  body : Bytes
  pre : Bytes
  post : Bytes
  deriving DecidableEq, Repr

/-- The entity tag itself. -/
def ListedTag.tag (t : ListedTag) : Bytes :=
  (if t.weak then etagPrefix else []) ++ 34 :: (t.body ++ [34])

/-- The tag is well formed and what surrounds it is white space. -/
def ListedTag.wf (t : ListedTag) : Bool :=
  t.body.all etagChar && t.pre.all isASCIISpace && t.post.all isASCIISpace

/-- The elements after the first, each preceded by its comma. -/
def renderTail : List ListedTag → Bytes
  | [] => []
  | t :: ts => 44 :: (t.pre ++ (t.tag ++ (t.post ++ renderTail ts)))

/-- The header value listing the given tags, separated by commas. -/
def renderList : List ListedTag → Bytes
  | [] => []
  | t :: ts => t.pre ++ (t.tag ++ (t.post ++ renderTail ts))

/-- The entity tag without its closing quote. -/
def ListedTag.tagInit (t : ListedTag) : Bytes :=
  (if t.weak then etagPrefix else []) ++ 34 :: t.body

/-- The elements after the first as `TrimBytes` leaves them: the white space
after the last tag is gone. `post` is the white space after the tag before. -/
def trimmedTail (post : Bytes) : List ListedTag → Bytes
  | [] => []
  | t :: ts => post ++ 44 :: (t.pre ++ (t.tag ++ trimmedTail t.post ts))

/-- The payload of a tag as the specification words it: one optional leading
`W/` removed. -/
def stripWeak : Bytes → Bytes
  | 87 :: 47 :: rest => rest
  | a => a

/-- The header store has an entry under the key. -/
def Header.Has (h : Header) (key : String) : Bool := h.any (fun kv => kv.1 == key)

/-- The bytes the specification allows between the quotes of an entity tag:
0x21, 0x23..0x7E and 0x80..0xFF. -/
def etagByte (c : Nat) : Bool := c == 0x21 || (0x23 ≤ c && c ≤ 0x7E) || (0x80 ≤ c && c ≤ 0xFF)

/-! ## `serve/static_fasthttp.go`: the cache policy -/

/-- Model of `strconv.ParseInt(s, 10, 64)`: an optional sign and at least one
decimal digit, `none` for a syntax error or a value outside the 64-bit range. -/
def ParseInt (s : Bytes) : Option Int :=
  match s with
  | [] => none
  | c :: rest =>
    let neg := c == 45
    let ds := if c == 43 || c == 45 then rest else s
    if ds.isEmpty || !(ds.all fun d => decide (48 ≤ d) && decide (d ≤ 57)) then none
    else
      let un : Nat := ds.foldl (fun n d => n * 10 + (d - 48)) 0
      if !neg && decide (un ≥ 2 ^ 63) then none
      else if neg && decide (un > 2 ^ 63) then none
      else some (if neg then -(un : Int) else (un : Int))

/-- Model of `strconv.FormatInt(n, 10)`. -/
def FormatInt (n : Int) : Bytes :=
  if n < 0 then 45 :: (Nat.toDigits 10 n.natAbs).map Char.toNat
  else (Nat.toDigits 10 n.toNat).map Char.toNat

/-- Model of `Header.Set`: the value replaces whatever is stored under the key. -/
def Header.Set (h : Header) (key : String) (value : Bytes) : Header :=
  (key, value) :: h.Del key

def cacheControlPrefix : Bytes := ascii "public, max-age="

/-- The closure `h.cacheFiller` that `NewStaticFileHandler` builds for the
given `debug` flag and `baseVersion`; the result is the header store as the
closure leaves it. -/
def cacheFiller (debug : Bool) (baseVersion : Int) (header : Header)
    (versionPrefix discretePrefix : Bytes) : Header :=
  if debug then header
  else
    match ParseInt versionPrefix with
    | none => header
    | some receivedVersion =>
      if decide (receivedVersion > 0) && decide (receivedVersion < baseVersion) then header
      else
        let cacheDuration : Int :=
          match ParseInt discretePrefix with
          | some pushedDuration =>
            if decide (pushedDuration > 0) && decide (pushedDuration > 2592000) then pushedDuration
            else 2592000
          | none => 2592000
        let header := header.Set "Cache-Control" (cacheControlPrefix ++ FormatInt cacheDuration)
        header.Set "Expires" (FormatInt cacheDuration)

/-- The cache lifetime as the specification words it: the duration token when
it parses to an integer greater than 2,592,000, and 2,592,000 otherwise. -/
def specDuration (d : Bytes) : Int :=
  match ParseInt d with
  | some pd => if pd > 2592000 then pd else 2592000
  | none => 2592000

/-! ## `status_resp.go`: handled errors -/

def HandledErrorBadRequest : Int := 400
def HandledErrorUnauthorized : Int := 401
def HandledErrorForbidden : Int := 403
def HandledErrorNotFound : Int := 404
def HandledErrorMethodNotAllowed : Int := 405
def HandledErrorNotAcceptable : Int := 406
def HandledErrorRequestTimeout : Int := 408
def HandledErrorGone : Int := 410
def HandledErrorTooManyRequests : Int := 429
def HandledErrorInternalServerError : Int := 500
def HandledErrorNotImplemented : Int := 501
def HandledErrorBadGateway : Int := 502
def HandledErrorServiceUnavailable : Int := 503
def HandledErrorGatewayTimeout : Int := 504

/-- The function `HandledErrorCodeOf`; a `HandledError` is its integer value. -/
def HandledErrorCodeOf (value : Int) : Int × Bool :=
  if value = HandledErrorBadRequest then (HandledErrorBadRequest, true)
  else if value = HandledErrorUnauthorized then (HandledErrorUnauthorized, true)
  else if value = HandledErrorForbidden then (HandledErrorForbidden, true)
  else if value = HandledErrorNotFound then (HandledErrorNotFound, true)
  else if value = HandledErrorMethodNotAllowed then (HandledErrorMethodNotAllowed, true)
  else if value = HandledErrorNotAcceptable then (HandledErrorNotAcceptable, true)
  else if value = HandledErrorGone then (HandledErrorGone, true)
  else if value = HandledErrorNotImplemented then (HandledErrorNotImplemented, true)
  else if value = HandledErrorBadGateway then (HandledErrorBadGateway, true)
  else if value = HandledErrorServiceUnavailable then (HandledErrorServiceUnavailable, true)
  else if value = HandledErrorGatewayTimeout then (HandledErrorGatewayTimeout, true)
  else if value = HandledErrorInternalServerError then (HandledErrorInternalServerError, true)
  else (HandledErrorInternalServerError, false)

/-- The values the code panics with. -/
inductive PanicObj where
  /-- a `HandledError`, which is an `error` -/
  | handledError (h : Int)
  /-- a plain `int` such as `http.StatusInternalServerError` -/
  | intValue (v : Int)
  /-- a Go run-time error such as an index out of range -/
  | runtimeError
  /-- any other `error` value, identified by a number -/
  | otherError (e : Nat)
  /-- a `string`, which is not an `error` -/
  | stringValue (s : String)
  deriving DecidableEq, Repr

/-- Outcome of a handler step: a result, a panic with its value, or an
unrolling of a loop that was too short. -/
inductive Outcome (α : Type) where
  | ok (a : α)
  | raised (p : PanicObj)
  | outOfFuel
  deriving DecidableEq, Repr

/-! ## `serve/static_fasthttp.go`: resolving the file -/

/-- The elements of a path between its slashes. -/
def splitSlash : Bytes → List Bytes
  | [] => [[]]
  | c :: cs =>
    match splitSlash cs with
    | [] => [[c]]
    | seg :: segs => if c = 47 then [] :: seg :: segs else (c :: seg) :: segs

/-- One element of a path in `path.Clean`; `out` holds the elements kept so
far, the last one first. An empty element and `.` are dropped, `..` removes the
element before it, stays in front of a relative path and is dropped at the
root. -/
def cleanStep (rooted : Bool) (out : List Bytes) (seg : Bytes) : List Bytes :=
  if seg = [] ∨ seg = ascii "." then out
  else if seg = ascii ".." then
    match out with
    | top :: rest => if top = ascii ".." then seg :: out else rest
    | [] => if rooted then [] else [seg]
  else seg :: out

def joinSlash : List Bytes → Bytes
  | [] => []
  | [s] => s
  | s :: ss => s ++ 47 :: joinSlash ss

/-- Model of `path.Clean`. -/
def Clean (path : Bytes) : Bytes :=
  if path = [] then ascii "."
  else
    let rooted := path.head? == some 47
    let out := ((splitSlash path).foldl (cleanStep rooted) []).reverse
    if rooted then 47 :: joinSlash out
    else if out = [] then ascii "." else joinSlash out

/-- What `os.FileInfo` tells the handler. -/
structure FileInfo where
  size : Int
  modTime : Int
  isDir : Bool
  deriving DecidableEq, Repr

/-- Result of `File.Stat`; an error is identified by a number. -/
inductive StatResult where
  | ok (info : FileInfo)
  | err (e : Nat)
  deriving DecidableEq, Repr

/-- The interface `File` of `iface.go`, as the handler uses it: `readBytes` is
what the first `Read` into the sniff buffer delivers and `seekFails` tells
whether `Seek(0, io.SeekStart)` returns an error. -/
structure File where
  name : Bytes
  stat : StatResult
  hash : Bytes
  readBytes : Bytes
  seekFails : Bool
  deriving DecidableEq, Repr

/-- The collaborators of the static handler: the `FileProvider` (its result is
the pair of the file, `none` for nil, and the error, `none` for nil),
`net/http.toHTTPError` (the status code it gives for an error),
`http.ParseTime`, the HTTP date `SetLastModified` writes,
`mime.TypeByExtension` of `filepath.Ext` of a name, and
`http.DetectContentType`; and the flag `noDefaultContentType` of the response
header, which fasthttp copies from the server option `NoDefaultContentType`
(off unless the server is configured otherwise). -/
structure Env where
  fileProvider : Bytes → Option File × Option Nat
  toHTTPError : Nat → Int
  parseTime : Bytes → Option Int
  formatHTTPDate : Int → Bytes
  typeByExtension : Bytes → Bytes
  detectContentType : Bytes → Bytes
  noDefaultContentType : Bool

/-- The fields of `staticFileHandler`; `debug` selects the `cacheFiller`. -/
structure staticFileHandler where
  pathPrefix : Bytes
  baseVersion : Int
  debug : Bool
  deriving DecidableEq, Repr

/-- The path `resolvFile` hands to the file provider. -/
def strippedPath (h : staticFileHandler) (pathData : Bytes) : Bytes :=
  let requestPath := TrimPrefix pathData h.pathPrefix
  Clean requestPath

def resolvFile (env : Env) (h : staticFileHandler) (pathData : Bytes) :
    Outcome (File × FileInfo) :=
  match env.fileProvider (strippedPath h pathData) with
  | (some f, none) =>
    match f.stat with
    | StatResult.err e =>
      let code := env.toHTTPError e
      Outcome.raised (PanicObj.handledError (HandledErrorCodeOf code).1)
    | StatResult.ok stat =>
      if stat.isDir then Outcome.raised (PanicObj.handledError HandledErrorNotFound)
      else Outcome.ok (f, stat)
  | _ => Outcome.raised (PanicObj.handledError HandledErrorNotFound)

/-! ## `serve/static_fasthttp.go`: the handler -/

def StatusOK : Nat := 200
def StatusNoContent : Nat := 204

/-- The part of `fasthttp.RequestCtx` the handler reads: the request, its
path, the query arguments `v` and `d`, and the response as the handler finds
it. -/
structure RequestCtx where
  request : Request
  path : Bytes
  argV : Bytes
  argD : Bytes
  response : Response
  deriving DecidableEq, Repr

/-- What the handler leaves behind: the response and, when `SetBodyStream` was
called, the size of the body stream. -/
structure Served where
  response : Response
  bodyStream : Option Int
  deriving DecidableEq, Repr

/-- The constant `defaultContentType` of fasthttp. -/
def defaultContentType : Bytes := ascii "text/plain; charset=utf-8"

/-- Model of `ResponseHeader.ContentType`: the stored Content-Type, and
fasthttp's default when nothing is stored and the flag `noDefaultContentType`
of the header is off. -/
def Header.ContentType (h : Header) (noDefaultContentType : Bool) : Bytes :=
  let contentType := h.Peek "Content-Type"
  if !noDefaultContentType && contentType.length == 0 then defaultContentType
  else contentType

/-- The method `resolvContentType`; the result is the header store as it
leaves it. -/
def resolvContentType (env : Env) (name : Bytes) (header : Header) (file : File) :
    Outcome Header :=
  if (header.ContentType env.noDefaultContentType).length > 0 then Outcome.ok header
  else
    let ctype := env.typeByExtension name
    if ctype.length > 0 then Outcome.ok (header.Set "Content-Type" ctype)
    else
      let n := file.readBytes.length
      if n > 0 then
        if file.seekFails then Outcome.raised (PanicObj.intValue 500)
        else Outcome.ok (header.Set "Content-Type" (env.detectContentType file.readBytes))
      else Outcome.ok (header.Set "Content-Type" (ascii "application/octet-stream"))

/-- Steps 3 and 4 of `Handle` up to the call of `checkPreconditions`: the
response with the cache headers, Vary, Last-Modified and Etag set. -/
def prepareResponse (env : Env) (h : staticFileHandler) (ctx : RequestCtx) (f : File)
    (stat : FileInfo) : Response :=
  let modTime := stat.modTime
  let respHdr := cacheFiller h.debug h.baseVersion ctx.response.header ctx.argV ctx.argD
  let respHdr := respHdr.Set "Vary" (ascii "User-Agent")
  let respHdr :=
    if !isZeroTime modTime then respHdr.Set "Last-Modified" (env.formatHTTPDate modTime)
    else respHdr
  let etag := f.hash
  let respHdr := if etag.length > 0 then respHdr.Set "Etag" etag else respHdr
  { ctx.response with header := respHdr }

/-- Step 5 of `Handle` and the branches on the size and the method that follow
it; `w` is the response after `checkPreconditions`. -/
def serveBody (env : Env) (ctx : RequestCtx) (f : File) (stat : FileInfo) (w : Response) :
    Outcome Served :=
  match resolvContentType env f.name w.header f with
  | Outcome.raised p => Outcome.raised p
  | Outcome.outOfFuel => Outcome.outOfFuel
  | Outcome.ok hdr =>
    if stat.size ≤ 0 then
      Outcome.ok ⟨{ header := hdr, statusCode := StatusNoContent, SkipBody := true }, none⟩
    else if ConstantTimeCompare ctx.request.method MethodHEAD == 1 then
      Outcome.ok ⟨{ header := hdr, statusCode := StatusOK, SkipBody := true }, none⟩
    else
      Outcome.ok ⟨{ header := hdr, statusCode := StatusOK, SkipBody := w.SkipBody },
        some stat.size⟩

/-- The method `Handle`. -/
def Handle (env : Env) (h : staticFileHandler) (ctx : RequestCtx) : Outcome Served :=
  match resolvFile env h ctx.path with
  | Outcome.raised p => Outcome.raised p
  | Outcome.outOfFuel => Outcome.outOfFuel
  | Outcome.ok (f, stat) =>
    match checkPreconditions env.parseTime ctx.request (prepareResponse env h ctx f stat)
        stat.modTime f.hash with
    | Run.panic => Outcome.raised PanicObj.runtimeError
    | Run.outOfFuel => Outcome.outOfFuel
    | Run.ret (true, w) => Outcome.ok ⟨w, none⟩
    | Run.ret (false, w) => serveBody env ctx f stat w

/-! ## A sample HTTP date -/

def twoDigits (n : Nat) : Bytes := [48 + n / 10 % 10, 48 + n % 10]

def fourDigits (n : Nat) : Bytes := [48 + n / 1000 % 10, 48 + n / 100 % 10, 48 + n / 10 % 10, 48 + n % 10]

/-- The year as Go's layout element `2006` writes it: four digits, and all of
its digits when it has more than four. -/
def yearDigits (y : Nat) : Bytes :=
  if y < 10000 then fourDigits y else (Nat.toDigits 10 y).map Char.toNat

/-- The proleptic Gregorian date, as year, month and day, of a number of days
since 1970-01-01, from the year 0 on. -/
def civilFromDays (days : Int) : Nat × Nat × Nat :=
  let z : Int := days + 719468
  let era : Int := z / 146097
  let doe : Int := z - era * 146097
  let yoe : Int := (doe - doe / 1460 + doe / 36524 - doe / 146096) / 365
  let doy : Int := doe - (365 * yoe + yoe / 4 - yoe / 100)
  let mp : Int := (5 * doy + 2) / 153
  let d : Nat := (doy - (153 * mp + 2) / 5 + 1).toNat
  let m : Nat := (if mp < 10 then mp + 3 else mp - 9).toNat
  let y : Nat := (yoe + era * 400 + (if m ≤ 2 then 1 else 0)).toNat
  (y, m, d)

def weekdayNames : List Bytes := ["Sun", "Mon", "Tue", "Wed", "Thu", "Fri", "Sat"].map ascii

def monthNames : List Bytes :=
  ["Jan", "Feb", "Mar", "Apr", "May", "Jun", "Jul", "Aug", "Sep", "Oct", "Nov", "Dec"].map ascii

/-- The date `Mon, 02 Jan 2006 15:04:05 GMT` of an instant given in nanoseconds
since the Unix epoch, from the year 0 on. It stands for the date
`SetLastModified` writes where a concrete header value is evaluated. -/
def formatIMFFixdate (t : Int) : Bytes :=
  let secs : Int := t / 1000000000
  let days : Int := secs / 86400
  let rem : Nat := (secs % 86400).toNat
  let ymd := civilFromDays days
  let wd : Nat := ((days + 4) % 7).toNat
  weekdayNames.getD wd [] ++ ascii ", "
    ++ twoDigits ymd.2.2 ++ [32]
    ++ monthNames.getD (ymd.2.1 - 1) [] ++ [32]
    ++ yearDigits ymd.1 ++ [32] ++ twoDigits (rem / 3600) ++ [58] ++ twoDigits (rem / 60 % 60)
    ++ [58] ++ twoDigits (rem % 60) ++ ascii " GMT"

/-- A sample environment: the resolver knows the one file `f`, every stat error
is classified as 500, dates are read and written in the layout
`Mon, 02 Jan 2006 15:04:05 GMT`, no extension has a MIME type, every content
is sniffed as `application/octet-stream`, and the response header has
fasthttp's default content type. -/
def sampleEnv (f : File) : Env :=
  ⟨fun _ => (some f, none), fun _ => 500, parseIMFFixdate, formatIMFFixdate, fun _ => [],
    fun _ => ascii "application/octet-stream", false⟩

/-- The sample environment of a server that runs with `NoDefaultContentType`. -/
def sampleEnvNoDefault (f : File) : Env :=
  { sampleEnv f with noDefaultContentType := true }

/-- The status of a served response, 0 when the handler panicked. -/
def servedStatus (o : Outcome Served) : Nat :=
  match o with
  | Outcome.ok s => s.response.statusCode
  | _ => 0

/-! ## `status_resp.go`: classifying a panic value -/

/-- The value implements `error`. -/
def PanicObj.isError : PanicObj → Bool
  | PanicObj.handledError _ => true
  | PanicObj.runtimeError => true
  | PanicObj.otherError _ => true
  | PanicObj.intValue _ => false
  | PanicObj.stringValue _ => false

/-- The 14 predefined `HandledError` constants. -/
def predefinedHandledErrors : List Int :=
  [HandledErrorBadRequest, HandledErrorUnauthorized, HandledErrorForbidden,
    HandledErrorNotFound, HandledErrorMethodNotAllowed, HandledErrorNotAcceptable,
    HandledErrorRequestTimeout, HandledErrorGone, HandledErrorTooManyRequests,
    HandledErrorInternalServerError, HandledErrorNotImplemented, HandledErrorBadGateway,
    HandledErrorServiceUnavailable, HandledErrorGatewayTimeout]

/-- The function `HandledErrorOf`: only a value of type `HandledError` can equal
one of the constants of the `switch`. -/
def HandledErrorOf (value : PanicObj) : Int × Bool :=
  match value with
  | PanicObj.handledError h =>
    if h = HandledErrorBadRequest then (HandledErrorBadRequest, true)
    else if h = HandledErrorUnauthorized then (HandledErrorUnauthorized, true)
    else if h = HandledErrorForbidden then (HandledErrorForbidden, true)
    else if h = HandledErrorNotFound then (HandledErrorNotFound, true)
    else if h = HandledErrorMethodNotAllowed then (HandledErrorMethodNotAllowed, true)
    else if h = HandledErrorNotAcceptable then (HandledErrorNotAcceptable, true)
    else if h = HandledErrorRequestTimeout then (HandledErrorRequestTimeout, true)
    else if h = HandledErrorGone then (HandledErrorGone, true)
    else if h = HandledErrorTooManyRequests then (HandledErrorTooManyRequests, true)
    else if h = HandledErrorNotImplemented then (HandledErrorNotImplemented, true)
    else if h = HandledErrorBadGateway then (HandledErrorBadGateway, true)
    else if h = HandledErrorServiceUnavailable then (HandledErrorServiceUnavailable, true)
    else if h = HandledErrorGatewayTimeout then (HandledErrorGatewayTimeout, true)
    else if h = HandledErrorInternalServerError then (HandledErrorInternalServerError, true)
    else (HandledErrorInternalServerError, false)
  | _ => (HandledErrorInternalServerError, false)

/-- The method `HandledError.StatusCode`. -/
def StatusCode (handler : Int) : Int := handler

/-- The function `WrapHandledError`: the handler and the error it returns,
`none` for a nil error. -/
def WrapHandledError (panicObj : PanicObj) : Int × Option PanicObj :=
  if panicObj.isError then
    let r := HandledErrorOf panicObj
    if r.2 then (r.1, none) else (r.1, some panicObj)
  else (HandledErrorInternalServerError, none)

/-! ## `routing/helper.go` -/

/-- The loop of `ApplyMiddlware`, which counts `i` down from
`len(middlewares) - 1` to 0: the first argument is `i + 1`. -/
def applyMiddlewareLoop {α : Type} (middlewares : List (α → α)) : Nat → α → α
  | 0, handler => handler
  | i + 1, handler =>
    match middlewares.get? i with
    | some m => applyMiddlewareLoop middlewares i (m handler)
    | none => applyMiddlewareLoop middlewares i handler

/-- The function `ApplyMiddlware`; `α` is the type `Router`. -/
def ApplyMiddlware {α : Type} (source : α) (middlewares : List (α → α)) : α :=
  applyMiddlewareLoop middlewares middlewares.length source

/-! ## `middleware/csrf_fasthttp.go` -/

def csrfTokenLength : Nat := 32

/-- The method `csrfOneTimePad`; the result is `data` as the call leaves it. -/
def csrfOneTimePad (data key : Bytes) : Run Bytes :=
  if data.length ≠ key.length then Run.panic
  else Run.ret (List.zipWith (fun d k => d ^^^ k) data key)

def b64Alphabet : Bytes :=
  ascii "ABCDEFGHIJKLMNOPQRSTUVWXYZabcdefghijklmnopqrstuvwxyz0123456789+/"

def b64Char (n : Nat) : Nat := b64Alphabet.getD n 0

/-- Model of `base64.StdEncoding.EncodeToString`. -/
def EncodeToString : Bytes → Bytes
  | a :: b :: c :: rest =>
    b64Char (a / 4) :: b64Char (a % 4 * 16 + b / 16) :: b64Char (b % 16 * 4 + c / 64)
      :: b64Char (c % 64) :: EncodeToString rest
  | [a, b] => [b64Char (a / 4), b64Char (a % 4 * 16 + b / 16), b64Char (b % 16 * 4), 61]
  | [a] => [b64Char (a / 4), b64Char (a % 4 * 16), 61, 61]
  | [] => []

/-- Model of `base64.StdEncoding.DecodedLen`. -/
def DecodedLen (n : Nat) : Nat := n / 4 * 3

def b64Index (c : Nat) : Option Nat := b64Alphabet.indexOf? c

/-- The groups of four characters of a padded base64 text. -/
def decodeQuads : Bytes → Option Bytes
  | [] => some []
  | [a, b, 61, 61] =>
    match b64Index a, b64Index b with
    | some x, some y => some [x * 4 + y / 16]
    | _, _ => none
  | [a, b, c, 61] =>
    match b64Index a, b64Index b, b64Index c with
    | some x, some y, some z => some [x * 4 + y / 16, y % 16 * 16 + z / 4]
    | _, _, _ => none
  | a :: b :: c :: d :: rest =>
    match b64Index a, b64Index b, b64Index c, b64Index d, decodeQuads rest with
    | some x, some y, some z, some u, some out =>
      some ((x * 4 + y / 16) :: (y % 16 * 16 + z / 4) :: (z % 4 * 64 + u) :: out)
    | _, _, _, _, _ => none
  | _ => none

/-- Model of `base64.StdEncoding.Decode`: the decoded bytes, `none` for an
error; carriage returns and line feeds are skipped. -/
def Decode (src : Bytes) : Option Bytes :=
  decodeQuads (src.filter fun c => !(c == 13 || c == 10))

/-- The method `tokenSerializer`; `pad` is what `io.ReadFull(fastrand.Reader,
key)` writes into the 32 bytes of `key`. -/
def tokenSerializer (pad : Bytes) (data : Bytes) (mask : Bool) : Run Bytes :=
  if !mask || data.length ≠ csrfTokenLength then Run.ret []
  else
    match csrfOneTimePad data pad with
    | Run.ret token => Run.ret (EncodeToString (pad ++ token))
    | Run.panic => Run.panic
    | Run.outOfFuel => Run.outOfFuel

def tokenDeserializer (data : Bytes) (unmask : Bool) : Run Bytes :=
  let payloadSize := DecodedLen data.length
  if payloadSize ≠ csrfTokenLength * 2 then Run.ret []
  else
    match Decode data with
    | none => Run.ret []
    | some decoded =>
      if decoded.length < payloadSize then Run.ret []
      else if unmask then
        csrfOneTimePad (decoded.drop csrfTokenLength) (decoded.take csrfTokenLength)
      else Run.ret decoded

def verifyToken (realToken sentToken : Bytes) : Bool :=
  if realToken.length = csrfTokenLength ∧ sentToken.length = csrfTokenLength then
    ConstantTimeCompare realToken sentToken == 1
  else false

/-! ## `routing/reverse_route.go` -/

structure routerFragment where
  url : Bytes
  params : List Bytes
  deriving DecidableEq, Repr

/-- The map `reverseRouter`: its entries, at most one for a key. -/
abbrev reverseRouter := List (Bytes × routerFragment)

/-- The entry of the map under a key, as `v, ok := us[key]` reads it. -/
def reverseRouter.lookup (us : reverseRouter) (key : Bytes) : Option routerFragment :=
  match us.find? (fun kv => kv.1 == key) with
  | some kv => some kv.2
  | none => none

/-- The value `us[key]`: the zero `routerFragment` when the key is missing. -/
def reverseRouter.at (us : reverseRouter) (key : Bytes) : routerFragment :=
  (us.lookup key).getD ⟨[], []⟩

/-- The assignment `us[key] = value`. -/
def reverseRouter.store (us : reverseRouter) (key : Bytes) (value : routerFragment) :
    reverseRouter :=
  (key, value) :: us.filter (fun kv => !(kv.1 == key))

/-- Model of `strings.Join`. -/
def joinWith (sep : Bytes) : List Bytes → Bytes
  | [] => []
  | [s] => s
  | s :: ss => s ++ sep ++ joinWith sep ss

/-- Model of `path.Join`. -/
def pathJoin (elem : List Bytes) : Bytes :=
  if (elem.map List.length).sum = 0 then []
  else
    Clean (elem.foldl (fun buf e =>
      if buf.length > 0 ∨ e ≠ [] then (if buf.length > 0 then buf ++ [47] else buf) ++ e
      else buf) [])

/-- Model of `strings.Replace(s, old, new, 1)`. -/
def replaceFirst (s old new : Bytes) : Bytes :=
  if old = [] then new ++ s
  else
    match s with
    | [] => []
    | c :: cs =>
      if old.isPrefixOf (c :: cs) then new ++ (c :: cs).drop old.length
      else c :: replaceFirst cs old new

/-- The method `addInternal`: the map as the call leaves it, the address and
the error it returns (`none` for nil). -/
def addInternal (us : reverseRouter) (urlName urlAddr : Bytes)
    (groupNames groupAddrs params : List Bytes) : reverseRouter × Bytes × Option Bytes :=
  if (us.lookup urlName).isSome then
    (us, [], some (ascii "Url already exists. Try to use .Get() method."))
  else
    let routeName := joinWith (ascii ".") (groupNames ++ [urlName])
    let addr := pathJoin (groupAddrs ++ [urlAddr])
    (us.store routeName ⟨addr, params⟩, addr, none)

def Add (us : reverseRouter) (urlName urlAddr : Bytes) (params : List Bytes) :
    reverseRouter × Bytes × Option Bytes :=
  addInternal us urlName urlAddr [] [] params

def AddGr (us : reverseRouter) (urlName urlAddr : Bytes) (groupNames groupAddrs : List Bytes)
    (params : List Bytes) : reverseRouter × Bytes × Option Bytes :=
  addInternal us urlName urlAddr groupNames groupAddrs params

/-- The method `ReverseWithParams`: the URL and the error (`none` for nil). -/
def ReverseWithParams (us : reverseRouter) (urlName : Bytes) (params : List Bytes) :
    Bytes × Option Bytes :=
  if params.length ≠ (us.at urlName).params.length then
    ([], some (ascii "Bad Url Reverse: mismatch params for URL: " ++ urlName))
  else
    (((us.at urlName).params.zip params).foldl (fun res pv => replaceFirst res pv.1 pv.2)
      (us.at urlName).url, none)

def Reverse (us : reverseRouter) (urlName : Bytes) (params : List Bytes) : Bytes × Option Bytes :=
  ReverseWithParams us urlName params

/-- The method `Get`, which panics with the error of `ReverseWithParams`. -/
def Get (us : reverseRouter) (urlName : Bytes) (params : List Bytes) : Run Bytes :=
  match ReverseWithParams us urlName params with
  | (_, some _) => Run.panic
  | (url, none) => Run.ret url

def MustReverse (us : reverseRouter) (urlName : Bytes) (params : List Bytes) : Run Bytes :=
  match ReverseWithParams us urlName params with
  | (_, some _) => Run.panic
  | (res, none) => Run.ret res

def MustReverseWithParams (us : reverseRouter) (urlName : Bytes) (params : List Bytes) :
    Run Bytes :=
  match ReverseWithParams us urlName params with
  | (_, some _) => Run.panic
  | (res, none) => Run.ret res

/-! ## `serve/static_fasthttp.go`: what the handler does with the file -/

/-- The calls the handler can make on a `File`; `bodyStream` is handing the
file to the response with `SetBodyStream`. -/
inductive FileOp where
  | stat
  | name
  | hash
  | read
  | seek
  | close
  | bodyStream
  deriving DecidableEq, Repr

/-- The method `resolvFile` together with the calls it makes on the file. -/
def resolvFileT (env : Env) (h : staticFileHandler) (pathData : Bytes) :
    Outcome (File × FileInfo) × List FileOp :=
  match env.fileProvider (strippedPath h pathData) with
  | (some f, none) =>
    match f.stat with
    | StatResult.err e =>
      let code := env.toHTTPError e
      (Outcome.raised (PanicObj.handledError (HandledErrorCodeOf code).1), [FileOp.stat])
    | StatResult.ok stat =>
      if stat.isDir then
        (Outcome.raised (PanicObj.handledError HandledErrorNotFound), [FileOp.stat])
      else (Outcome.ok (f, stat), [FileOp.stat])
  | _ => (Outcome.raised (PanicObj.handledError HandledErrorNotFound), [])

/-- The method `resolvContentType` together with the calls it makes on the
file. -/
def resolvContentTypeT (env : Env) (name : Bytes) (header : Header) (file : File) :
    Outcome Header × List FileOp :=
  if (header.ContentType env.noDefaultContentType).length > 0 then (Outcome.ok header, [])
  else
    let ctype := env.typeByExtension name
    if ctype.length > 0 then (Outcome.ok (header.Set "Content-Type" ctype), [])
    else
      let n := file.readBytes.length
      if n > 0 then
        if file.seekFails then
          (Outcome.raised (PanicObj.intValue 500), [FileOp.read, FileOp.seek])
        else
          (Outcome.ok (header.Set "Content-Type" (env.detectContentType file.readBytes)),
            [FileOp.read, FileOp.seek])
      else
        (Outcome.ok (header.Set "Content-Type" (ascii "application/octet-stream")),
          [FileOp.read])

/-- The method `Handle` together with the calls it makes on the file, in the
order it makes them. -/
def HandleT (env : Env) (h : staticFileHandler) (ctx : RequestCtx) :
    Outcome Served × List FileOp :=
  match resolvFileT env h ctx.path with
  | (Outcome.raised p, ops) => (Outcome.raised p, ops)
  | (Outcome.outOfFuel, ops) => (Outcome.outOfFuel, ops)
  | (Outcome.ok (f, stat), ops) =>
    let ops := ops ++ [FileOp.name, FileOp.hash]
    match checkPreconditions env.parseTime ctx.request (prepareResponse env h ctx f stat)
        stat.modTime f.hash with
    | Run.panic => (Outcome.raised PanicObj.runtimeError, ops)
    | Run.outOfFuel => (Outcome.outOfFuel, ops)
    | Run.ret (true, w) => (Outcome.ok ⟨w, none⟩, ops)
    | Run.ret (false, w) =>
      match resolvContentTypeT env f.name w.header f with
      | (Outcome.raised p, ops2) => (Outcome.raised p, ops ++ ops2)
      | (Outcome.outOfFuel, ops2) => (Outcome.outOfFuel, ops ++ ops2)
      | (Outcome.ok hdr, ops2) =>
        if stat.size ≤ 0 then
          (Outcome.ok ⟨{ header := hdr, statusCode := StatusNoContent, SkipBody := true }, none⟩,
            ops ++ ops2)
        else if ConstantTimeCompare ctx.request.method MethodHEAD == 1 then
          (Outcome.ok ⟨{ header := hdr, statusCode := StatusOK, SkipBody := true }, none⟩,
            ops ++ ops2)
        else
          (Outcome.ok ⟨{ header := hdr, statusCode := StatusOK, SkipBody := w.SkipBody },
            some stat.size⟩, ops ++ ops2 ++ [FileOp.bodyStream])

/-! ## `cookie_fasthttp.go`: the cookie domain -/

/-- The bytes `'a'..'z'` and `'A'..'Z'`. -/
def isLetter (c : Nat) : Bool := (decide (97 ≤ c) && decide (c ≤ 122)) || (decide (65 ≤ c) && decide (c ≤ 90))

/-- The bytes `'0'..'9'`. -/
def isDigit (c : Nat) : Bool := decide (48 ≤ c) && decide (c ≤ 57)

/-- The `for` loop of `validateCookieDomain` over the bytes still to read, with
the variables `last`, `partlen` and `valid`; `none` is a `return false` inside
the loop. -/
def domainLoop : Bytes → Nat → Nat → Bool → Option (Nat × Nat × Bool)
  | [], last, partlen, valid => some (last, partlen, valid)
  | c :: cs, last, partlen, valid =>
    if isLetter c then domainLoop cs c (partlen + 1) true
    else if isDigit c then domainLoop cs c (partlen + 1) valid
    else if c = 45 then
      if last = 46 then none else domainLoop cs c (partlen + 1) valid
    else if c = 46 then
      if last = 46 ∨ last = 45 then none
      else if partlen > 63 ∨ partlen = 0 then none
      else domainLoop cs c 0 valid
    else none

/-- The method `validateCookieDomain`; `isValidIp` is the test on
`networking.ParseIPv4(v)` at its end. -/
def validateCookieDomain (isValidIp : Bytes → Bool) (v : Bytes) : Bool :=
  if v.length = 0 then false
  else if v.length > 255 then false
  else
    let v := if v.head? = some 46 then v.drop 1 else v
    match domainLoop v 46 0 false with
    | none => false
    | some (last, partlen, valid) =>
      if last = 45 ∨ partlen > 63 then false
      else if valid then true
      else isValidIp v

/-- The domain after one optional leading dot is dropped. -/
def domainBody (v : Bytes) : Bytes := if v.head? = some 46 then v.drop 1 else v

/-- The labels of a domain: its parts between the dots. -/
def labels : Bytes → List Bytes
  | [] => [[]]
  | c :: cs =>
    match labels cs with
    | [] => [[c]]
    | l :: ls => if c = 46 then [] :: l :: ls else (c :: l) :: ls

/-- Two neighbouring bytes the specification allows: no `-` directly after a
`.`, and no `.` directly after a `.` or a `-`. -/
def goodPair (a b : Nat) : Prop := ¬ (a = 46 ∧ b = 45) ∧ ¬ ((a = 46 ∨ a = 45) ∧ b = 46)

/-- A cookie domain name as the specification words it. -/
def specCookieDomain (v : Bytes) : Prop :=
  1 ≤ v.length ∧ v.length ≤ 255 ∧
  (∀ c ∈ domainBody v, isLetter c = true ∨ isDigit c = true ∨ c = 45 ∨ c = 46) ∧
  (domainBody v).head? ≠ some 45 ∧ (domainBody v).head? ≠ some 46 ∧
  List.Chain' goodPair (domainBody v) ∧
  (domainBody v).getLast? ≠ some 45 ∧
  ∀ l ∈ labels (domainBody v), l.length ≤ 63

/-! ## `middleware/cache_control.go` -/

/-- Model of `http.Header.Add`: the value is appended to what is stored; a
lookup returns the first value stored under the key. -/
def Header.Add (h : Header) (key : String) (value : Bytes) : Header :=
  h ++ [(key, value)]

/-- The handler function that `CacheControlFunc` wraps around `next`, up to the
deferred call of `next`: `v` and `d` are `r.URL.Query().Get("v")` and
`r.URL.Query().Get("d")`, and the result is the header store of the response as
`next` finds it. With `debug` set `next` is returned as it is. -/
def CacheControlFunc (debug : Bool) (baseVersion : Int) (header : Header) (v d : Bytes) :
    Header :=
  if debug then header
  else
    let header :=
      match ParseInt v with
      | some receivedVersion =>
        if receivedVersion ≥ baseVersion then
          let cacheDuration : Int :=
            match ParseInt d with
            | some pushedDuration =>
              if pushedDuration > 2592000 then pushedDuration else 2592000
            | none => 2592000
          let cacheDurationStr := FormatInt cacheDuration
          let header := header.Add "Cache-Control" (ascii "public, max-age=" ++ cacheDurationStr)
          header.Add "Expires" cacheDurationStr
        else header
      | none => header
    header.Add "Vary" (ascii "User-Agent")

/-! ## `middleware/accesslog_fasthttp.go`: the panic handler -/

/-- The value `JsonContentType[0]` of `encodings.go`. -/
def JsonContentType : Bytes := ascii "application/json"

/-- The value `HtmlContentUTF8Type[0]` of `encodings.go`. -/
def HtmlContentUTF8Type : Bytes := ascii "text/html; charset=utf-8"

/-- The method `RenderAPI` as far as the status and the headers go: the body
is written to the response, and the deferred function sets the content type
when `ContentType()` is empty and then the status code. -/
def RenderAPI (noDefaultContentType : Bool) (handler : Int) (w : Response) : Response :=
  let hdr :=
    if (w.header.ContentType noDefaultContentType).length = 0 then
      w.header.Set "Content-Type" JsonContentType
    else w.header
  { w with header := hdr, statusCode := (StatusCode handler).toNat }

/-- The method `RenderPage` as far as the status and the headers go;
`templateRenderer` is what the page renderer does to the response before the
deferred function runs. -/
def RenderPage (noDefaultContentType : Bool) (templateRenderer : Response → Response)
    (handler : Int) (w : Response) : Response :=
  let w := templateRenderer w
  let hdr :=
    if (w.header.ContentType noDefaultContentType).length = 0 then
      w.header.Set "Content-Type" HtmlContentUTF8Type
    else w.header
  { w with header := hdr, statusCode := (StatusCode handler).toNat }

/-- The method `handlePanic`: `panicObj` is what `recover()` returns, `none`
for nil, and `w` the response as the handler left it. -/
def handlePanic (noDefaultContentType : Bool) (apiUrlPrefix requestURI : Bytes)
    (templateRenderer : Response → Response) (panicObj : Option PanicObj) (w : Response) :
    Response :=
  match panicObj with
  | none => w
  | some p =>
    let errorType := (WrapHandledError p).1
    let isAPI := HasPrefix requestURI apiUrlPrefix
    if isAPI then RenderAPI noDefaultContentType errorType w
    else RenderPage noDefaultContentType templateRenderer errorType w

end Eighty

/-! # Properties -/

namespace Eighty

open condResult

/-! ## Entity-tag comparison -/

theorem ConstantTimeCompare_eq_one (x y : Bytes) : ConstantTimeCompare x y = 1 ↔ x = y := by
  unfold ConstantTimeCompare
  split <;> simp_all

theorem etagPrefix_eq : etagPrefix = [87, 47] := by decide

theorem HasPrefix_etagPrefix (a : Bytes) :
    HasPrefix a etagPrefix = true ↔ ∃ rest, a = 87 :: 47 :: rest := by
  rw [etagPrefix_eq]
  unfold HasPrefix
  match a with
  | [] => simp [List.isPrefixOf]
  | [x] => simp [List.isPrefixOf]
  | x :: y :: rest =>
    simp only [List.isPrefixOf, Bool.and_eq_true, beq_iff_eq, List.cons.injEq, and_true]
    constructor
    · rintro ⟨h1, h2⟩
      exact ⟨rest, h1.symm, h2.symm, rfl⟩
    · rintro ⟨r, h1, h2, _⟩
      exact ⟨h1.symm, h2.symm⟩

theorem TrimPrefix_etagPrefix (a : Bytes) : TrimPrefix a etagPrefix = stripWeak a := by
  unfold TrimPrefix
  by_cases h : HasPrefix a etagPrefix = true
  · obtain ⟨rest, rfl⟩ := (HasPrefix_etagPrefix a).mp h
    rw [if_pos h, etagPrefix_eq]
    rfl
  · rw [if_neg h]
    unfold stripWeak
    split
    · exact absurd ((HasPrefix_etagPrefix _).mpr ⟨_, rfl⟩) h
    · rfl

/-- C8: for all byte strings `a` and `b`, `etagStrongMatch a b` holds exactly
when `a` and `b` are equal byte for byte, both are non-empty, and the tag
starts with a double quote; a strongly matching pair therefore has no `W/`
prefix on either side. -/
theorem etagStrongMatch_spec (a b : Bytes) :
    (etagStrongMatch a b = true ↔ a = b ∧ a ≠ [] ∧ b ≠ [] ∧ a.head? = some 34) ∧
    (etagStrongMatch a b = true →
      b.head? = some 34 ∧ HasPrefix a etagPrefix = false ∧ HasPrefix b etagPrefix = false) := by
  have key : etagStrongMatch a b = true ↔ a = b ∧ a ≠ [] ∧ b ≠ [] ∧ a.head? = some 34 := by
    unfold etagStrongMatch
    simp only [Bool.and_eq_true, beq_iff_eq, ConstantTimeCompare_eq_one, decide_eq_true_eq]
    constructor
    · rintro ⟨⟨hab, hlen⟩, hq⟩
      have hne : a ≠ [] := List.ne_nil_of_length_pos hlen
      exact ⟨hab, hne, hab ▸ hne, hq⟩
    · rintro ⟨hab, hne, _, hq⟩
      exact ⟨⟨hab, List.length_pos.mpr hne⟩, hq⟩
  refine ⟨key, fun h => ?_⟩
  obtain ⟨hab, _, _, hq⟩ := key.mp h
  subst hab
  match a, hq with
  | x :: rest, hq =>
    simp only [List.head?_cons, Option.some.injEq] at hq
    subst hq
    simp [HasPrefix, etagPrefix, ascii, List.isPrefixOf]

/-- C8 at a concrete pair: the tag `"v1"` strongly matches itself. -/
theorem etagStrongMatch_spec_witness :
    (ascii "\"v1\"").head? = some 34 ∧ HasPrefix (ascii "\"v1\"") etagPrefix = false
      ∧ HasPrefix (ascii "\"v1\"") etagPrefix = false :=
  (etagStrongMatch_spec (ascii "\"v1\"") (ascii "\"v1\"")).2 (by decide)

/-- C9, as stated, fails: the equal tags `abc` and `abc` carry no `W/` prefix,
yet `etagStrongMatch` rejects them because they do not start with a quote. -/
theorem etagStrongMatch_unquoted_counterexample :
    ¬ (etagStrongMatch (ascii "abc") (ascii "abc") = true ↔
        (ascii "abc" = ascii "abc" ∧ HasPrefix (ascii "abc") etagPrefix = false
          ∧ HasPrefix (ascii "abc") etagPrefix = false)) := by
  decide

/-- C9, amended: for all byte strings `a` and `b`, `etagStrongMatch a b` holds
exactly when `a` and `b` are equal byte for byte, neither begins with the weak
prefix `W/`, and the tag begins with a double quote. -/
theorem etagStrongMatch_iff_not_weak (a b : Bytes) :
    etagStrongMatch a b = true ↔
      a = b ∧ HasPrefix a etagPrefix = false ∧ HasPrefix b etagPrefix = false
        ∧ a.head? = some 34 := by
  unfold etagStrongMatch
  simp only [Bool.and_eq_true, beq_iff_eq, ConstantTimeCompare_eq_one, decide_eq_true_eq]
  constructor
  · rintro ⟨⟨hab, _⟩, hq⟩
    subst hab
    match a, hq with
    | x :: rest, hq =>
      simp only [List.head?_cons, Option.some.injEq] at hq
      subst hq
      simp [HasPrefix, etagPrefix, ascii, List.isPrefixOf]
  · rintro ⟨hab, _, _, hq⟩
    refine ⟨⟨hab, ?_⟩, hq⟩
    match a, hq with
    | x :: rest, _ => simp

/-- C10: for all byte strings `a` and `b`, `etagWeakMatch a b` holds exactly
when `a` and `b` are equal byte for byte once one optional leading `W/` is
removed from each; `W/"x"` weakly matches `"x"`, and `"x"` does not weakly
match `"y"`. -/
theorem etagWeakMatch_iff (a b : Bytes) :
    (etagWeakMatch a b = true ↔ stripWeak a = stripWeak b) ∧
    etagWeakMatch (ascii "W/\"x\"") (ascii "\"x\"") = true ∧
    etagWeakMatch (ascii "\"x\"") (ascii "\"y\"") = false := by
  refine ⟨?_, by decide, by decide⟩
  unfold etagWeakMatch
  simp only [beq_iff_eq, ConstantTimeCompare_eq_one, TrimPrefix_etagPrefix]

/-! ## The header store -/

theorem find?_filter_of_imp {α : Type} (p q : α → Bool) (l : List α)
    (h : ∀ x, p x = true → q x = true) : (l.filter q).find? p = l.find? p := by
  induction l with
  | nil => rfl
  | cons a t ih =>
    by_cases hq : q a = true
    · rw [List.filter_cons_of_pos hq, List.find?_cons, List.find?_cons, ih]
    · have hp : p a = false := by
        cases hpa : p a
        · rfl
        · exact absurd (h a hpa) hq
      rw [List.filter_cons_of_neg hq, List.find?_cons, hp, ih]

theorem any_filter_of_imp {α : Type} (p q : α → Bool) (l : List α)
    (h : ∀ x, p x = true → q x = true) : (l.filter q).any p = l.any p := by
  induction l with
  | nil => rfl
  | cons a t ih =>
    by_cases hq : q a = true
    · rw [List.filter_cons_of_pos hq, List.any_cons, List.any_cons, ih]
    · have hp : p a = false := by
        cases hpa : p a
        · rfl
        · exact absurd (h a hpa) hq
      rw [List.filter_cons_of_neg hq, List.any_cons, hp, ih, Bool.false_or]

theorem Header.Has_Del_self (h : Header) (k : String) : (h.Del k).Has k = false := by
  simp [Header.Has, Header.Del]

theorem Header.Has_Del_ne (h : Header) (k k' : String) (hne : k ≠ k') :
    (h.Del k).Has k' = h.Has k' := by
  unfold Header.Has Header.Del
  apply any_filter_of_imp
  intro kv hkv
  have h1 : kv.1 = k' := by simpa using hkv
  have h2 : ¬ kv.1 = k := fun h' => hne (h'.symm.trans h1)
  simpa using h2

theorem Header.Peek_Del_ne (h : Header) (k k' : String) (hne : k ≠ k') :
    (h.Del k).Peek k' = h.Peek k' := by
  unfold Header.Peek Header.Del
  rw [find?_filter_of_imp]
  intro kv hkv
  have h1 : kv.1 = k' := by simpa using hkv
  have h2 : ¬ kv.1 = k := fun h' => hne (h'.symm.trans h1)
  simpa using h2

theorem Header.Peek_eq_nil_of_not_Has (h : Header) (k : String) (hk : h.Has k = false) :
    h.Peek k = [] := by
  unfold Header.Has at hk
  unfold Header.Peek
  have : h.find? (fun kv => kv.1 == k) = none := by
    rw [List.find?_eq_none]
    intro kv hkv
    have := (List.any_eq_false.mp hk) kv hkv
    simpa using this
  rw [this]

/-! ## `writeNotModified` -/

theorem writeNotModified_spec (w : Response) :
    (writeNotModified w).statusCode = 304 ∧
    (writeNotModified w).header.Has "Content-Type" = false ∧
    (writeNotModified w).header.Has "Content-Length" = false ∧
    (writeNotModified w).header.Peek "Etag" = w.header.Peek "Etag" ∧
    ((writeNotModified w).header.Peek "Etag" ≠ [] →
      (writeNotModified w).header.Has "Last-Modified" = false) ∧
    ((writeNotModified w).header.Peek "Etag" = [] →
      (writeNotModified w).header.Has "Last-Modified" = w.header.Has "Last-Modified" ∧
      (writeNotModified w).header.Peek "Last-Modified" = w.header.Peek "Last-Modified") ∧
    (writeNotModified w).SkipBody = true := by
  have hE : ((w.header.Del "Content-Type").Del "Content-Length").Peek "Etag"
      = w.header.Peek "Etag" := by
    rw [Header.Peek_Del_ne _ _ _ (by decide), Header.Peek_Del_ne _ _ _ (by decide)]
  have hCT : ((w.header.Del "Content-Type").Del "Content-Length").Has "Content-Type" = false := by
    rw [Header.Has_Del_ne _ _ _ (by decide), Header.Has_Del_self]
  have hCL : ((w.header.Del "Content-Type").Del "Content-Length").Has "Content-Length" = false :=
    Header.Has_Del_self _ _
  have hLMh : ((w.header.Del "Content-Type").Del "Content-Length").Has "Last-Modified"
      = w.header.Has "Last-Modified" := by
    rw [Header.Has_Del_ne _ _ _ (by decide), Header.Has_Del_ne _ _ _ (by decide)]
  have hLMp : ((w.header.Del "Content-Type").Del "Content-Length").Peek "Last-Modified"
      = w.header.Peek "Last-Modified" := by
    rw [Header.Peek_Del_ne _ _ _ (by decide), Header.Peek_Del_ne _ _ _ (by decide)]
  unfold writeNotModified
  simp only [hE]
  by_cases he : (w.header.Peek "Etag").length > 0
  · have hne : w.header.Peek "Etag" ≠ [] := List.ne_nil_of_length_pos he
    simp only [he, if_true]
    refine ⟨rfl, ?_, ?_, ?_, fun _ => Header.Has_Del_self _ _, ?_, by trivial⟩
    · rw [Header.Has_Del_ne _ _ _ (by decide), hCT]
    · rw [Header.Has_Del_ne _ _ _ (by decide), hCL]
    · rw [Header.Peek_Del_ne _ _ _ (by decide), hE]
    · intro h
      rw [Header.Peek_Del_ne _ _ _ (by decide), hE] at h
      exact absurd h hne
  · have hnil : w.header.Peek "Etag" = [] := by
      rcases hp : w.header.Peek "Etag" with _ | ⟨x, t⟩
      · rfl
      · rw [hp] at he
        simp at he
    simp only [he, if_false]
    refine ⟨rfl, hCT, hCL, hE, ?_, fun _ => ⟨hLMh, hLMp⟩, by trivial⟩
    intro h
    rw [hE] at h
    exact absurd hnil h

/-! ## `checkPreconditions` -/

/-- The outcomes `checkPreconditions` can have. -/
theorem checkPreconditions_cases (parseTime : Bytes → Option Int) (r : Request) (w : Response)
    (modtime : Int) (etag : Bytes) :
    checkPreconditions parseTime r w modtime etag = Run.panic ∨
    checkPreconditions parseTime r w modtime etag = Run.outOfFuel ∨
    checkPreconditions parseTime r w modtime etag
      = Run.ret (true, w.SetStatusCode StatusPreconditionFailed) ∨
    checkPreconditions parseTime r w modtime etag = Run.ret (true, writeNotModified w) ∨
    checkPreconditions parseTime r w modtime etag = Run.ret (false, w) := by
  unfold checkPreconditions
  cases checkIfMatch r w with
  | panic => simp
  | outOfFuel => simp
  | ret ch0 =>
    simp only []
    generalize (if ch0 = condNone then checkIfUnmodifiedSince parseTime r modtime else ch0) = ch
    by_cases hch : ch = condFalse
    · simp [hch]
    · simp only [hch, if_false]
      cases checkIfNoneMatch etag r w with
      | panic => simp
      | outOfFuel => simp
      | ret c => cases c <;> simp only [] <;> (try split) <;> simp

/-- C1: if `checkIfMatch` yields Failed, or yields Undetermined while
`checkIfUnmodifiedSince` yields Failed, then `checkPreconditions` reports done
with status 412 and changes nothing else, whatever the If-None-Match and
If-Modified-Since headers, the method and the resource ETag are; the status is
not 304. -/
theorem checkPreconditions_first_pair_failed (parseTime : Bytes → Option Int) (r : Request)
    (w : Response) (modtime : Int) (etag : Bytes)
    (h : checkIfMatch r w = Run.ret condFalse ∨
      (checkIfMatch r w = Run.ret condNone ∧
        checkIfUnmodifiedSince parseTime r modtime = condFalse)) :
    checkPreconditions parseTime r w modtime etag
        = Run.ret (true, { w with statusCode := 412 }) ∧
    ∀ d w', checkPreconditions parseTime r w modtime etag = Run.ret (d, w') →
      d = true ∧ w'.statusCode = 412 ∧ w'.statusCode ≠ 304 := by
  have key : checkPreconditions parseTime r w modtime etag
      = Run.ret (true, { w with statusCode := 412 }) := by
    unfold checkPreconditions
    rcases h with h | ⟨h1, h2⟩
    · rw [h]
      simp [Response.SetStatusCode, StatusPreconditionFailed]
    · rw [h1]
      simp [h2, Response.SetStatusCode, StatusPreconditionFailed]
  refine ⟨key, fun d w' hw => ?_⟩
  rw [key] at hw
  simp only [Run.ret.injEq, Prod.mk.injEq] at hw
  obtain ⟨hd, hw'⟩ := hw
  subst hd hw'
  simp

/-- C1 at a concrete request: `If-Match: "a"` against the response ETag `"b"`
fails, and the matching `If-None-Match` of a GET does not turn the 412 into a
304. -/
theorem checkPreconditions_first_pair_failed_witness :
    (checkIfMatch ⟨ascii "GET", [("If-Match", ascii "\"a\""), ("If-None-Match", ascii "\"b\"")]⟩
        ⟨[("Etag", ascii "\"b\"")], 200, false⟩ = Run.ret condFalse) ∧
    checkPreconditions parseIMFFixdate
        ⟨ascii "GET", [("If-Match", ascii "\"a\""), ("If-None-Match", ascii "\"b\"")]⟩
        ⟨[("Etag", ascii "\"b\"")], 200, false⟩ 1704067200000000000 (ascii "\"b\"")
      = Run.ret (true, ⟨[("Etag", ascii "\"b\"")], 412, false⟩) :=
  ⟨by decide,
   (checkPreconditions_first_pair_failed parseIMFFixdate
      ⟨ascii "GET", [("If-Match", ascii "\"a\""), ("If-None-Match", ascii "\"b\"")]⟩
      ⟨[("Etag", ascii "\"b\"")], 200, false⟩ 1704067200000000000 (ascii "\"b\"")
      (Or.inl (by decide))).1⟩

/-! ## Termination of the header scans -/

theorem TrimBytes_length_le (b : Bytes) : (TrimBytes b).length ≤ b.length := by
  unfold TrimBytes
  rw [List.length_reverse]
  calc ((b.dropWhile isASCIISpace).reverse.dropWhile isASCIISpace).length
      ≤ (b.dropWhile isASCIISpace).reverse.length := (List.dropWhile_sublist _).length_le
    _ = (b.dropWhile isASCIISpace).length := List.length_reverse _
    _ ≤ b.length := (List.dropWhile_sublist _).length_le

theorem scanETagLoop_cases (s : Bytes) (cs : Bytes) (i : Nat) :
    scanETagLoop s i cs = ([], []) ∨
    ∃ j, scanETagLoop s i cs = (s.take (j + 1), s.drop (j + 1)) := by
  induction cs generalizing i with
  | nil => exact Or.inl rfl
  | cons c cs ih =>
    unfold scanETagLoop
    split
    · exact ih (i + 1)
    · split
      · exact Or.inr ⟨i, rfl⟩
      · exact Or.inl rfl

theorem scanETag_cases (s : Bytes) :
    scanETag s = ([], []) ∨
    ∃ j, scanETag s = ((TrimBytes s).take (j + 1), (TrimBytes s).drop (j + 1)) := by
  unfold scanETag
  simp only []
  generalize (if HasPrefix (TrimBytes s) etagPrefix = true then 2 else 0) = start
  split
  · exact Or.inl rfl
  · exact scanETagLoop_cases _ _ _

theorem scanETag_remain_lt (s : Bytes) (h : (scanETag s).1.length ≠ 0) :
    (scanETag s).2.length < s.length := by
  rcases scanETag_cases s with h0 | ⟨j, hj⟩
  · rw [h0] at h
    exact absurd rfl h
  · rw [hj] at h ⊢
    have hle := TrimBytes_length_le s
    simp only [List.length_take, List.length_drop] at h ⊢
    omega

/-- The loop of `checkIfMatch` returns once it is unrolled more often than the
header value is long. -/
theorem checkIfMatchLoop_total (current : Bytes) (fuel : Nat) (im : Bytes)
    (h : im.length < fuel) : ∃ c, checkIfMatchLoop current fuel im = Run.ret c := by
  induction fuel generalizing im with
  | zero => omega
  | succ n ih =>
    have hle := TrimBytes_length_le im
    unfold checkIfMatchLoop
    simp only []
    split
    · exact ⟨_, rfl⟩
    · rename_i hlen
      split
      · apply ih
        rw [List.length_drop]
        omega
      · split
        · exact ⟨_, rfl⟩
        · split
          · exact ⟨_, rfl⟩
          · rename_i hsc
            split
            · exact ⟨_, rfl⟩
            · apply ih
              have := scanETag_remain_lt _ hsc
              omega

/-- The function `checkIfMatch` always returns. -/
theorem checkIfMatch_total (r : Request) (w : Response) :
    ∃ c, checkIfMatch r w = Run.ret c := by
  unfold checkIfMatch
  simp only []
  split
  · exact ⟨_, rfl⟩
  · exact checkIfMatchLoop_total _ _ _ (Nat.lt_succ_self _)

/-! ## The decision tree of `checkPreconditions` -/

theorem isGetOrHead_iff (m : Bytes) :
    (ConstantTimeCompare m MethodGET == 1 || ConstantTimeCompare m MethodHEAD == 1) = true ↔
      (m = MethodGET ∨ m = MethodHEAD) := by
  simp only [Bool.or_eq_true, beq_iff_eq, ConstantTimeCompare_eq_one]

/-- What `checkPreconditions` does once the first pair of preconditions has not
failed and `checkIfNoneMatch` has returned. -/
theorem checkPreconditions_second_pair (parseTime : Bytes → Option Int) (r : Request)
    (w : Response) (modtime : Int) (etag : Bytes) (c : condResult)
    (hpair : ¬ (checkIfMatch r w = Run.ret condFalse ∨
      (checkIfMatch r w = Run.ret condNone ∧
        checkIfUnmodifiedSince parseTime r modtime = condFalse)))
    (hinm : checkIfNoneMatch etag r w = Run.ret c) :
    checkPreconditions parseTime r w modtime etag =
      match c with
      | condFalse =>
        if r.method = MethodGET ∨ r.method = MethodHEAD then Run.ret (true, writeNotModified w)
        else Run.ret (true, { w with statusCode := 412 })
      | condNone =>
        if checkIfModifiedSince parseTime r modtime = condFalse then
          Run.ret (true, writeNotModified w)
        else Run.ret (false, w)
      | condTrue => Run.ret (false, w) := by
  obtain ⟨ch0, hch0⟩ := checkIfMatch_total r w
  rw [hch0] at hpair
  have hne : ¬ ((if ch0 = condNone then checkIfUnmodifiedSince parseTime r modtime else ch0)
      = condFalse) := by
    intro hc
    apply hpair
    by_cases h0 : ch0 = condNone
    · rw [if_pos h0] at hc
      exact Or.inr ⟨by rw [h0], hc⟩
    · rw [if_neg h0] at hc
      exact Or.inl (by rw [hc])
  cases c with
  | condNone =>
    unfold checkPreconditions
    rw [hch0]
    simp only []
    rw [if_neg hne, hinm]
  | condTrue =>
    unfold checkPreconditions
    rw [hch0]
    simp only []
    rw [if_neg hne, hinm]
  | condFalse =>
    unfold checkPreconditions
    rw [hch0]
    simp only []
    rw [if_neg hne, hinm]
    simp only [isGetOrHead_iff]
    rfl

/-- C3: whenever the If-Match / If-Unmodified-Since pair does not fail and
`checkIfNoneMatch` yields Failed, `checkPreconditions` responds 304 Not Modified
if the method is exactly GET or HEAD and 412 Precondition Failed for every
other method; with the resource ETag `"abc"` and `If-None-Match: "abc"` a GET
gets 304 and a POST gets 412. -/
theorem checkPreconditions_ifNoneMatch_failed (parseTime : Bytes → Option Int) (r : Request)
    (w : Response) (modtime : Int) (etag : Bytes)
    (hpair : ¬ (checkIfMatch r w = Run.ret condFalse ∨
      (checkIfMatch r w = Run.ret condNone ∧
        checkIfUnmodifiedSince parseTime r modtime = condFalse)))
    (hinm : checkIfNoneMatch etag r w = Run.ret condFalse) :
    ((r.method = MethodGET ∨ r.method = MethodHEAD) →
      checkPreconditions parseTime r w modtime etag = Run.ret (true, writeNotModified w) ∧
      (writeNotModified w).statusCode = 304) ∧
    (¬ (r.method = MethodGET ∨ r.method = MethodHEAD) →
      checkPreconditions parseTime r w modtime etag
        = Run.ret (true, { w with statusCode := 412 })) ∧
    checkPreconditions parseIMFFixdate ⟨ascii "GET", [("If-None-Match", ascii "\"abc\"")]⟩
        ⟨[("Etag", ascii "\"abc\"")], 200, false⟩ 1704067200000000000 (ascii "\"abc\"")
      = Run.ret (true, ⟨[("Etag", ascii "\"abc\"")], 304, true⟩) ∧
    checkPreconditions parseIMFFixdate ⟨ascii "POST", [("If-None-Match", ascii "\"abc\"")]⟩
        ⟨[("Etag", ascii "\"abc\"")], 200, false⟩ 1704067200000000000 (ascii "\"abc\"")
      = Run.ret (true, ⟨[("Etag", ascii "\"abc\"")], 412, false⟩) := by
  have key := checkPreconditions_second_pair parseTime r w modtime etag condFalse hpair hinm
  simp only [] at key
  refine ⟨fun hm => ?_, fun hm => ?_, by decide, by decide⟩
  · rw [key, if_pos hm]
    exact ⟨rfl, rfl⟩
  · rw [key, if_neg hm]

/-- C3 at a concrete request: a HEAD request whose `If-None-Match` lists the
resource ETag. -/
theorem checkPreconditions_ifNoneMatch_failed_witness :
    checkPreconditions parseIMFFixdate
        ⟨ascii "HEAD", [("If-None-Match", ascii "W/\"v1\", \"v2\"")]⟩
        ⟨[("Etag", ascii "\"v2\""), ("Content-Type", ascii "text/css")], 200, false⟩ 0
        (ascii "\"v2\"")
      = Run.ret (true, writeNotModified
          ⟨[("Etag", ascii "\"v2\""), ("Content-Type", ascii "text/css")], 200, false⟩) ∧
    (writeNotModified
      ⟨[("Etag", ascii "\"v2\""), ("Content-Type", ascii "text/css")], 200, false⟩).statusCode
        = 304 :=
  (checkPreconditions_ifNoneMatch_failed parseIMFFixdate
    ⟨ascii "HEAD", [("If-None-Match", ascii "W/\"v1\", \"v2\"")]⟩
    ⟨[("Etag", ascii "\"v2\""), ("Content-Type", ascii "text/css")], 200, false⟩ 0
    (ascii "\"v2\"") (by decide) (by decide)).1 (Or.inr (by decide))

/-! ## The date preconditions -/

theorem isZeroTime_eq_false_iff (t : Int) :
    isZeroTime t = false ↔ t ≠ zeroTime ∧ t ≠ unixEpochTime := by
  simp [isZeroTime]

theorem length_eq_zero_iff_nil (b : Bytes) : b.length = 0 ↔ b = [] := List.length_eq_zero

theorem checkIfModifiedSince_eq_condFalse_iff (parseTime : Bytes → Option Int) (r : Request)
    (modtime : Int) :
    checkIfModifiedSince parseTime r modtime = condFalse ↔
      (r.method = MethodGET ∨ r.method = MethodHEAD) ∧
      r.header.Peek "If-Modified-Since" ≠ [] ∧ modtime ≠ zeroTime ∧ modtime ≠ unixEpochTime ∧
      ∃ t, parseTime (r.header.Peek "If-Modified-Since") = some t ∧ modtime < t + Second := by
  unfold checkIfModifiedSince
  by_cases hm : r.method = MethodGET ∨ r.method = MethodHEAD
  · have hm' : (ConstantTimeCompare r.method MethodGET != 1 &&
        ConstantTimeCompare r.method MethodHEAD != 1) = false := by
      have := (isGetOrHead_iff r.method).mpr hm
      simp only [Bool.or_eq_true, beq_iff_eq] at this
      simp only [Bool.and_eq_false_imp, bne_iff_ne, ne_eq, bne_eq_false_iff_eq]
      tauto
    simp only [hm', Bool.false_eq_true, if_false]
    by_cases hz : ((r.header.Peek "If-Modified-Since").length = 0 || isZeroTime modtime) = true
    · rw [if_pos hz]
      simp only [Bool.or_eq_true, decide_eq_true_eq, length_eq_zero_iff_nil] at hz
      constructor
      · intro h
        cases h
      · rintro ⟨_, hp, h1, h2, _⟩
        rcases hz with hz | hz
        · exact absurd hz hp
        · have := (isZeroTime_eq_false_iff modtime).mpr ⟨h1, h2⟩
          rw [this] at hz
          cases hz
    · rw [if_neg hz]
      simp only [Bool.or_eq_true, decide_eq_true_eq, length_eq_zero_iff_nil, not_or,
        Bool.not_eq_true, isZeroTime_eq_false_iff] at hz
      obtain ⟨hp, h1, h2⟩ := hz
      cases hpt : parseTime (r.header.Peek "If-Modified-Since") with
      | none => simp
      | some t =>
        simp only [one_mul]
        by_cases hlt : modtime < t + Second
        · rw [if_pos hlt]
          simp only [true_iff]
          exact ⟨hm, hp, h1, h2, t, rfl, hlt⟩
        · rw [if_neg hlt]
          constructor
          · intro h
            cases h
          · rintro ⟨_, _, _, _, t', ht', hlt'⟩
            simp only [Option.some.injEq] at ht'
            subst ht'
            exact absurd hlt' hlt
  · have hm' : (ConstantTimeCompare r.method MethodGET != 1 &&
        ConstantTimeCompare r.method MethodHEAD != 1) = true := by
      simp only [Bool.and_eq_true, bne_iff_ne, ne_eq, ConstantTimeCompare_eq_one]
      tauto
    rw [if_pos hm']
    constructor
    · intro h
      cases h
    · rintro ⟨h, _⟩
      exact absurd h hm

theorem checkIfMatch_absent (r : Request) (w : Response) (h : r.header.Peek "If-Match" = []) :
    checkIfMatch r w = Run.ret condNone := by
  unfold checkIfMatch
  simp [h]

theorem checkIfNoneMatch_absent (etag : Bytes) (r : Request) (w : Response)
    (h : r.header.Peek "If-None-Match" = []) :
    checkIfNoneMatch etag r w = Run.ret condNone := by
  unfold checkIfNoneMatch
  simp [h]

theorem checkIfUnmodifiedSince_absent (parseTime : Bytes → Option Int) (r : Request)
    (modtime : Int) (h : r.header.Peek "If-Unmodified-Since" = []) :
    checkIfUnmodifiedSince parseTime r modtime = condNone := by
  unfold checkIfUnmodifiedSince
  simp [h]

/-- C5: with If-Match, If-Unmodified-Since and If-None-Match absent,
`checkPreconditions` responds 304 Not Modified exactly when the method is GET
or HEAD, If-Modified-Since is present and parses to a time `t`, the
modification time is neither the zero time nor the Unix epoch, and
`modtime < t + 1s`; in every other case it does not intercept and leaves the
response as it is. A GET with `If-Modified-Since: Mon, 01 Jan 2024 00:00:00 GMT`
for a resource modified at 2024-01-01T00:00:00Z gets 304. -/
theorem checkPreconditions_ifModifiedSince (parseTime : Bytes → Option Int) (r : Request)
    (w : Response) (modtime : Int) (etag : Bytes)
    (hIM : r.header.Peek "If-Match" = [])
    (hIUS : r.header.Peek "If-Unmodified-Since" = [])
    (hINM : r.header.Peek "If-None-Match" = []) :
    (checkPreconditions parseTime r w modtime etag = Run.ret (true, writeNotModified w) ↔
      (r.method = MethodGET ∨ r.method = MethodHEAD) ∧
      r.header.Peek "If-Modified-Since" ≠ [] ∧ modtime ≠ zeroTime ∧ modtime ≠ unixEpochTime ∧
      ∃ t, parseTime (r.header.Peek "If-Modified-Since") = some t ∧ modtime < t + Second) ∧
    (¬ ((r.method = MethodGET ∨ r.method = MethodHEAD) ∧
      r.header.Peek "If-Modified-Since" ≠ [] ∧ modtime ≠ zeroTime ∧ modtime ≠ unixEpochTime ∧
      ∃ t, parseTime (r.header.Peek "If-Modified-Since") = some t ∧ modtime < t + Second) →
      checkPreconditions parseTime r w modtime etag = Run.ret (false, w)) ∧
    (writeNotModified w).statusCode = 304 ∧
    checkPreconditions parseIMFFixdate
        ⟨ascii "GET", [("If-Modified-Since", ascii "Mon, 01 Jan 2024 00:00:00 GMT")]⟩
        w 1704067200000000000 etag = Run.ret (true, writeNotModified w) := by
  have general : ∀ (pt : Bytes → Option Int) (r : Request) (mt : Int),
      r.header.Peek "If-Match" = [] → r.header.Peek "If-Unmodified-Since" = [] →
      r.header.Peek "If-None-Match" = [] →
      checkPreconditions pt r w mt etag =
        if checkIfModifiedSince pt r mt = condFalse then Run.ret (true, writeNotModified w)
        else Run.ret (false, w) := by
    intro pt r mt h1 h2 h3
    have hpair : ¬ (checkIfMatch r w = Run.ret condFalse ∨
        (checkIfMatch r w = Run.ret condNone ∧ checkIfUnmodifiedSince pt r mt = condFalse)) := by
      rw [checkIfMatch_absent r w h1, checkIfUnmodifiedSince_absent pt r mt h2]
      simp
    exact checkPreconditions_second_pair pt r w mt etag condNone hpair
      (checkIfNoneMatch_absent etag r w h3)
  have key := general parseTime r modtime hIM hIUS hINM
  refine ⟨?_, ?_, rfl, ?_⟩
  · rw [key, ← checkIfModifiedSince_eq_condFalse_iff]
    by_cases h : checkIfModifiedSince parseTime r modtime = condFalse
    · simp [h]
    · simp [h]
  · intro hC
    rw [← checkIfModifiedSince_eq_condFalse_iff] at hC
    rw [key, if_neg hC]
  · rw [general parseIMFFixdate _ _ (by decide) (by decide) (by decide)]
    have : checkIfModifiedSince parseIMFFixdate
        ⟨ascii "GET", [("If-Modified-Since", ascii "Mon, 01 Jan 2024 00:00:00 GMT")]⟩
        1704067200000000000 = condFalse := by decide
    rw [if_pos this]

/-- C5 at a concrete request: a HEAD request with only `If-Modified-Since`,
for a resource modified half a second after the date in the header. -/
theorem checkPreconditions_ifModifiedSince_witness :
    checkPreconditions parseIMFFixdate
        ⟨ascii "HEAD", [("If-Modified-Since", ascii "Mon, 01 Jan 2024 00:00:00 GMT")]⟩
        ⟨[("Last-Modified", ascii "Mon, 01 Jan 2024 00:00:00 GMT")], 200, false⟩
        1704067200500000000 [] =
      Run.ret (true, writeNotModified
        ⟨[("Last-Modified", ascii "Mon, 01 Jan 2024 00:00:00 GMT")], 200, false⟩) :=
  (checkPreconditions_ifModifiedSince parseIMFFixdate
    ⟨ascii "HEAD", [("If-Modified-Since", ascii "Mon, 01 Jan 2024 00:00:00 GMT")]⟩
    ⟨[("Last-Modified", ascii "Mon, 01 Jan 2024 00:00:00 GMT")], 200, false⟩
    1704067200500000000 [] (by decide) (by decide) (by decide)).1.mpr
    ⟨Or.inr (by decide), by decide, by decide, by decide, 1704067200000000000,
      by decide, by decide⟩

/-- C6, as stated, fails: for a present `If-Unmodified-Since` that is not a
date and a resource with a reliable modification time, the header does not
parse to a time, and `checkIfUnmodifiedSince` yields Undetermined, not
Failed. -/
theorem checkIfUnmodifiedSince_unparsable_counterexample :
    Header.Peek [("If-Unmodified-Since", ascii "yesterday")] "If-Unmodified-Since" ≠ [] ∧
    isZeroTime 1704067200000000000 = false ∧
    parseIMFFixdate (ascii "yesterday") = none ∧
    checkIfUnmodifiedSince parseIMFFixdate
      ⟨ascii "GET", [("If-Unmodified-Since", ascii "yesterday")]⟩ 1704067200000000000
        = condNone ∧
    checkIfUnmodifiedSince parseIMFFixdate
      ⟨ascii "GET", [("If-Unmodified-Since", ascii "yesterday")]⟩ 1704067200000000000
        ≠ condFalse := by
  decide

/-- C6, amended: `checkIfUnmodifiedSince` returns Undetermined when the
If-Unmodified-Since header is absent or the modification time is the zero time
or the Unix epoch; when the header is present and the modification time is
reliable it returns Satisfied if the header parses to a time `t` and
`modtime < t + 1s`, Failed if it parses to a time `t` and `modtime ≥ t + 1s`,
and Undetermined if it does not parse. -/
theorem checkIfUnmodifiedSince_spec (parseTime : Bytes → Option Int) (r : Request)
    (modtime : Int) :
    ((r.header.Peek "If-Unmodified-Since" = [] ∨ modtime = zeroTime ∨ modtime = unixEpochTime) →
      checkIfUnmodifiedSince parseTime r modtime = condNone) ∧
    (r.header.Peek "If-Unmodified-Since" ≠ [] → modtime ≠ zeroTime → modtime ≠ unixEpochTime →
      (∀ t, parseTime (r.header.Peek "If-Unmodified-Since") = some t → modtime < t + Second →
        checkIfUnmodifiedSince parseTime r modtime = condTrue) ∧
      (∀ t, parseTime (r.header.Peek "If-Unmodified-Since") = some t → t + Second ≤ modtime →
        checkIfUnmodifiedSince parseTime r modtime = condFalse) ∧
      (parseTime (r.header.Peek "If-Unmodified-Since") = none →
        checkIfUnmodifiedSince parseTime r modtime = condNone)) := by
  constructor
  · intro h
    have hz : ((r.header.Peek "If-Unmodified-Since").length = 0 || isZeroTime modtime) = true := by
      simp only [Bool.or_eq_true, decide_eq_true_eq, length_eq_zero_iff_nil]
      rcases h with h | h | h
      · exact Or.inl h
      · exact Or.inr (by rw [h]; decide)
      · exact Or.inr (by rw [h]; decide)
    unfold checkIfUnmodifiedSince
    simp only []
    rw [if_pos hz]
  · intro hp h1 h2
    have hz : ¬ ((r.header.Peek "If-Unmodified-Since").length = 0 || isZeroTime modtime) = true := by
      simp only [Bool.or_eq_true, decide_eq_true_eq, length_eq_zero_iff_nil, not_or,
        Bool.not_eq_true, isZeroTime_eq_false_iff]
      exact ⟨hp, h1, h2⟩
    unfold checkIfUnmodifiedSince
    simp only []
    rw [if_neg hz]
    refine ⟨fun t ht hlt => ?_, fun t ht hge => ?_, fun hn => ?_⟩
    · rw [ht]
      simp only [one_mul]
      rw [if_pos hlt]
    · rw [ht]
      simp only [one_mul]
      rw [if_neg (not_lt.mpr hge)]
    · rw [hn]

/-- C6 at a concrete request: the resource was modified a day after the date in
`If-Unmodified-Since`, so the precondition fails. -/
theorem checkIfUnmodifiedSince_spec_witness :
    checkIfUnmodifiedSince parseIMFFixdate
      ⟨ascii "PUT", [("If-Unmodified-Since", ascii "Mon, 01 Jan 2024 00:00:00 GMT")]⟩
      1704153600000000000 = condFalse :=
  ((checkIfUnmodifiedSince_spec parseIMFFixdate
      ⟨ascii "PUT", [("If-Unmodified-Since", ascii "Mon, 01 Jan 2024 00:00:00 GMT")]⟩
      1704153600000000000).2 (by decide) (by decide) (by decide)).2.1
    1704067200000000000 (by decide) (by decide)

/-- C7: on every path where `checkPreconditions` yields 304 (it reports done
and the status is 304), the response has no Content-Type header, no
Content-Length header, no Last-Modified header if it carries an Etag (a
non-empty `Peek("Etag")`), the Last-Modified header it had if it carries no
Etag, the Etag it had, and `SkipBody` set. -/
theorem checkPreconditions_notModified_strips (parseTime : Bytes → Option Int) (r : Request)
    (w w' : Response) (modtime : Int) (etag : Bytes)
    (h : checkPreconditions parseTime r w modtime etag = Run.ret (true, w'))
    (h304 : w'.statusCode = 304) :
    w' = writeNotModified w ∧
    w'.header.Has "Content-Type" = false ∧
    w'.header.Has "Content-Length" = false ∧
    w'.header.Peek "Etag" = w.header.Peek "Etag" ∧
    (w'.header.Peek "Etag" ≠ [] → w'.header.Has "Last-Modified" = false) ∧
    (w'.header.Peek "Etag" = [] →
      w'.header.Has "Last-Modified" = w.header.Has "Last-Modified" ∧
      w'.header.Peek "Last-Modified" = w.header.Peek "Last-Modified") ∧
    w'.SkipBody = true := by
  have hw : w' = writeNotModified w := by
    rcases checkPreconditions_cases parseTime r w modtime etag with hc | hc | hc | hc | hc
    · rw [hc] at h
      cases h
    · rw [hc] at h
      cases h
    · rw [hc] at h
      simp only [Run.ret.injEq, Prod.mk.injEq, true_and] at h
      rw [← h] at h304
      simp [Response.SetStatusCode, StatusPreconditionFailed] at h304
    · rw [hc] at h
      simp only [Run.ret.injEq, Prod.mk.injEq, true_and] at h
      exact h.symm
    · rw [hc] at h
      simp at h
  subst hw
  exact ⟨rfl, (writeNotModified_spec w).2⟩

/-- C7 at a concrete request: the 304 for a matching `If-None-Match` keeps the
Etag and drops Content-Type, Content-Length and Last-Modified. -/
theorem checkPreconditions_notModified_strips_witness :
    (⟨[("Etag", ascii "\"v2\"")], 304, true⟩ : Response)
      = writeNotModified ⟨[("Etag", ascii "\"v2\""), ("Content-Type", ascii "text/css"),
          ("Content-Length", ascii "12"),
          ("Last-Modified", ascii "Mon, 01 Jan 2024 00:00:00 GMT")], 200, false⟩ :=
  (checkPreconditions_notModified_strips parseIMFFixdate
    ⟨ascii "GET", [("If-None-Match", ascii "\"v2\"")]⟩
    ⟨[("Etag", ascii "\"v2\""), ("Content-Type", ascii "text/css"),
      ("Content-Length", ascii "12"),
      ("Last-Modified", ascii "Mon, 01 Jan 2024 00:00:00 GMT")], 200, false⟩
    ⟨[("Etag", ascii "\"v2\"")], 304, true⟩ 1704067200000000000 (ascii "\"v2\"")
    (by decide) (by decide)).1

/-! ## Trimming a list of entity tags -/

theorem ListedTag.tag_eq (t : ListedTag) : t.tag = t.tagInit ++ [34] := by
  simp [ListedTag.tag, ListedTag.tagInit]

theorem ListedTag.tag_cons (t : ListedTag) :
    ∃ c rest, t.tag = c :: rest ∧ (c = 34 ∨ c = 87) := by
  unfold ListedTag.tag
  cases t.weak
  · exact ⟨34, _, rfl, Or.inl rfl⟩
  · exact ⟨87, _, rfl, Or.inr rfl⟩

theorem ListedTag.wf_iff (t : ListedTag) :
    t.wf = true ↔ t.body.all etagChar = true ∧ t.pre.all isASCIISpace = true
      ∧ t.post.all isASCIISpace = true := by
  simp only [ListedTag.wf, Bool.and_eq_true, and_assoc]

theorem TrimBytes_eq (b : Bytes) :
    TrimBytes b = List.rdropWhile isASCIISpace (b.dropWhile isASCIISpace) := rfl

theorem rdropWhile_space_append (X ws : Bytes) (h : ws.all isASCIISpace = true) :
    List.rdropWhile isASCIISpace (X ++ ws) = List.rdropWhile isASCIISpace X := by
  induction ws using List.reverseRecOn with
  | nil => simp
  | append_singleton ws c ih =>
    rw [List.all_append, Bool.and_eq_true] at h
    rw [← List.append_assoc, List.rdropWhile_concat_pos _ _ _ (by simpa using h.2)]
    exact ih h.1

theorem rdropWhile_quote (Y : Bytes) :
    List.rdropWhile isASCIISpace (Y ++ [34]) = Y ++ [34] :=
  List.rdropWhile_concat_neg _ _ _ (by decide)

theorem rtrim_renderTail (ts : List ListedTag) (post Y : Bytes)
    (hpost : post.all isASCIISpace = true) (hts : ∀ t ∈ ts, t.wf = true) :
    List.rdropWhile isASCIISpace (Y ++ 34 :: (post ++ renderTail ts))
      = Y ++ 34 :: trimmedTail post ts := by
  induction ts generalizing post Y with
  | nil =>
    have e : Y ++ 34 :: (post ++ renderTail []) = (Y ++ [34]) ++ post := by
      simp [renderTail]
    rw [e, rdropWhile_space_append _ _ hpost, rdropWhile_quote]
    simp [trimmedTail]
  | cons t ts ih =>
    have ht := (ListedTag.wf_iff t).mp (hts t (List.mem_cons_self _ _))
    have e : Y ++ 34 :: (post ++ renderTail (t :: ts))
        = (Y ++ 34 :: (post ++ 44 :: (t.pre ++ t.tagInit))) ++ 34 :: (t.post ++ renderTail ts) := by
      simp [renderTail, ListedTag.tag_eq]
    rw [e, ih t.post _ ht.2.2 (fun u hu => hts u (List.mem_cons_of_mem _ hu))]
    simp [trimmedTail, ListedTag.tag_eq]

theorem rtrim_trimmedTail (ts : List ListedTag) (post Y : Bytes) :
    List.rdropWhile isASCIISpace (Y ++ 34 :: trimmedTail post ts)
      = Y ++ 34 :: trimmedTail post ts := by
  induction ts generalizing post Y with
  | nil =>
    simp only [trimmedTail]
    exact rdropWhile_quote Y
  | cons t ts ih =>
    have e : Y ++ 34 :: trimmedTail post (t :: ts)
        = (Y ++ 34 :: (post ++ 44 :: (t.pre ++ t.tagInit))) ++ 34 :: trimmedTail t.post ts := by
      simp [trimmedTail, ListedTag.tag_eq]
    rw [e, ih]

theorem dropWhile_space_tag (ws : Bytes) (t : ListedTag) (W : Bytes)
    (hws : ws.all isASCIISpace = true) :
    (ws ++ (t.tag ++ W)).dropWhile isASCIISpace = t.tag ++ W := by
  rw [List.dropWhile_append_of_pos (by simpa using hws)]
  obtain ⟨c, rest, hc, hcase⟩ := t.tag_cons
  rw [hc, List.cons_append]
  apply List.dropWhile_cons_of_neg
  rcases hcase with h | h <;> subst h <;> decide

/-- The header value as the first iteration of a scan trims it. -/
theorem TrimBytes_renderList (t : ListedTag) (ts : List ListedTag)
    (hts : ∀ u ∈ t :: ts, u.wf = true) :
    TrimBytes (renderList (t :: ts)) = t.tag ++ trimmedTail t.post ts := by
  have ht := (ListedTag.wf_iff t).mp (hts t (List.mem_cons_self _ _))
  rw [TrimBytes_eq, renderList, dropWhile_space_tag _ _ _ ht.2.1, ListedTag.tag_eq,
    List.append_assoc, List.singleton_append,
    rtrim_renderTail ts _ _ ht.2.2 (fun u hu => hts u (List.mem_cons_of_mem _ hu))]
  simp

theorem TrimBytes_tag_trimmedTail (ws : Bytes) (t : ListedTag) (ts : List ListedTag)
    (hws : ws.all isASCIISpace = true) :
    TrimBytes (ws ++ (t.tag ++ trimmedTail t.post ts)) = t.tag ++ trimmedTail t.post ts := by
  rw [TrimBytes_eq, dropWhile_space_tag _ _ _ hws, ListedTag.tag_eq,
    List.append_assoc, List.singleton_append, rtrim_trimmedTail]

theorem TrimBytes_trimmedTail_cons (post : Bytes) (t : ListedTag) (ts : List ListedTag)
    (hpost : post.all isASCIISpace = true) :
    TrimBytes (trimmedTail post (t :: ts)) = 44 :: (t.pre ++ (t.tag ++ trimmedTail t.post ts)) := by
  rw [TrimBytes_eq, trimmedTail, List.dropWhile_append_of_pos (by simpa using hpost),
    List.dropWhile_cons_of_neg (by decide)]
  have e : 44 :: (t.pre ++ (t.tag ++ trimmedTail t.post ts))
      = (44 :: (t.pre ++ t.tagInit)) ++ 34 :: trimmedTail t.post ts := by
    simp [ListedTag.tag_eq]
  rw [e, rtrim_trimmedTail]

/-! ## `scanETag` on a well-formed tag -/

theorem scanETagLoop_body (S W body : Bytes) (i : Nat) (hb : body.all etagChar = true) :
    scanETagLoop S i (body ++ 34 :: W)
      = (S.take (i + body.length + 1), S.drop (i + body.length + 1)) := by
  induction body generalizing i with
  | nil =>
    simp only [List.nil_append, List.length_nil, Nat.add_zero]
    unfold scanETagLoop
    rw [if_neg (by decide), if_pos (by decide)]
  | cons c cs ih =>
    rw [List.all_cons, Bool.and_eq_true] at hb
    have hc : (c == 0x21 || (decide (c ≥ 0x23) && decide (c ≤ 0x7E)) || decide (c ≥ 0x80)) = true :=
      hb.1
    rw [List.cons_append]
    unfold scanETagLoop
    rw [if_pos hc, ih (i + 1) hb.2]
    have e : i + 1 + cs.length + 1 = i + (c :: cs).length + 1 := by
      simp only [List.length_cons]
      omega
    rw [e]

theorem scanETag_tag (b W : Bytes) (t : ListedTag) (hb : t.body.all etagChar = true)
    (htrim : TrimBytes b = t.tag ++ W) : scanETag b = (t.tag, W) := by
  unfold scanETag
  simp only [htrim]
  unfold ListedTag.tag
  cases t.weak
  · have hp : HasPrefix ([] ++ 34 :: (t.body ++ [34]) ++ W) etagPrefix = false := by
      rw [etagPrefix_eq]
      simp [HasPrefix, List.isPrefixOf]
    simp only [Bool.false_eq_true, if_false, hp]
    rw [if_neg (by simp; omega)]
    have e : List.drop (0 + 1) ([] ++ 34 :: (t.body ++ [34]) ++ W) = t.body ++ 34 :: W := by
      simp
    rw [e, scanETagLoop_body _ _ _ _ hb]
    rw [List.take_left' (by simp; omega), List.drop_left' (by simp; omega)]
  · have hp : HasPrefix (etagPrefix ++ 34 :: (t.body ++ [34]) ++ W) etagPrefix = true := by
      rw [etagPrefix_eq]
      simp [HasPrefix, List.isPrefixOf]
    simp only [if_true, hp]
    rw [if_neg (by rw [etagPrefix_eq]; simp; omega)]
    have e : List.drop (2 + 1) (etagPrefix ++ 34 :: (t.body ++ [34]) ++ W) = t.body ++ 34 :: W := by
      rw [etagPrefix_eq]
      simp
    rw [e, scanETagLoop_body _ _ _ _ hb]
    rw [List.take_left' (by rw [etagPrefix_eq]; simp; omega),
      List.drop_left' (by rw [etagPrefix_eq]; simp; omega)]

theorem ListedTag.tag_length_pos (t : ListedTag) : 0 < t.tag.length := by
  obtain ⟨c, rest, hc, _⟩ := t.tag_cons
  rw [hc]
  simp

theorem trimmedTail_length_le (ts : List ListedTag) (post : Bytes) :
    (trimmedTail post ts).length ≤ (post ++ renderTail ts).length := by
  induction ts generalizing post with
  | nil => simp [trimmedTail]
  | cons t ts ih =>
    have := ih t.post
    simp only [trimmedTail, renderTail, List.length_append, List.length_cons] at this ⊢
    omega

/-! ## `checkIfMatch` on a list of entity tags -/

theorem checkIfMatchLoop_comma (current b Z : Bytes) (fuel : Nat)
    (htrim : TrimBytes b = 44 :: Z) :
    checkIfMatchLoop current (fuel + 1) b = checkIfMatchLoop current fuel Z := by
  rw [checkIfMatchLoop]
  simp only [htrim]
  rw [if_neg (by simp), if_pos (by simp)]
  rfl

theorem checkIfMatchLoop_tag (current b W : Bytes) (t : ListedTag) (fuel : Nat)
    (hb : t.body.all etagChar = true) (htrim : TrimBytes b = t.tag ++ W)
    (hfix : TrimBytes (t.tag ++ W) = t.tag ++ W) :
    checkIfMatchLoop current (fuel + 1) b =
      if etagStrongMatch t.tag current = true then Run.ret condTrue
      else checkIfMatchLoop current fuel W := by
  rw [checkIfMatchLoop]
  simp only [htrim, scanETag_tag _ _ _ hb hfix]
  obtain ⟨c, rest, hc, hcase⟩ := t.tag_cons
  have hlen : ¬ (t.tag ++ W).length = 0 := by
    rw [hc]
    simp
  have h44 : ¬ (t.tag ++ W).head? = some 44 := by
    rw [hc]
    rcases hcase with h | h <;> subst h <;> simp
  have h42 : ¬ (t.tag ++ W).head? = some 42 := by
    rw [hc]
    rcases hcase with h | h <;> subst h <;> simp
  have hl : ¬ t.tag.length = 0 := Nat.pos_iff_ne_zero.mp t.tag_length_pos
  rw [if_neg hlen, if_neg h44, if_neg h42, if_neg hl]

theorem checkIfMatchLoop_trimmedTail (current : Bytes) (ts : List ListedTag) (post : Bytes)
    (fuel : Nat) (hts : ∀ t ∈ ts, t.wf = true) (hpost : post.all isASCIISpace = true)
    (hfuel : (trimmedTail post ts).length < fuel) :
    checkIfMatchLoop current fuel (trimmedTail post ts) =
      Run.ret (if ts.any (fun t => etagStrongMatch t.tag current) = true then condTrue
        else condFalse) := by
  induction ts generalizing post fuel with
  | nil =>
    match fuel, hfuel with
    | f + 1, _ => rfl
  | cons t ts ih =>
    have ht := (ListedTag.wf_iff t).mp (hts t (List.mem_cons_self _ _))
    have hpos := t.tag_length_pos
    simp only [trimmedTail, List.length_append, List.length_cons] at hfuel
    match fuel, hfuel with
    | f + 2, hfuel =>
      rw [checkIfMatchLoop_comma _ _ _ _ (TrimBytes_trimmedTail_cons post t ts hpost),
        checkIfMatchLoop_tag _ _ _ t _ ht.1 (TrimBytes_tag_trimmedTail t.pre t ts ht.2.1)
          (TrimBytes_tag_trimmedTail [] t ts rfl)]
      rw [List.any_cons]
      by_cases hm : etagStrongMatch t.tag current = true
      · simp [hm]
      · rw [if_neg hm, ih t.post f (fun u hu => hts u (List.mem_cons_of_mem _ hu)) ht.2.2
          (by omega)]
        simp [hm]

/-- C4: `checkIfMatch` returns Undetermined when the If-Match header is absent
or empty, Satisfied when its value is `*`, and, for every value that is a list
of well-formed ETags separated by commas with optional white space around
them, Satisfied if some listed tag strongly matches the Etag header set on the
response and Failed otherwise. -/
theorem checkIfMatch_spec (r : Request) (w : Response) :
    (r.header.Peek "If-Match" = [] → checkIfMatch r w = Run.ret condNone) ∧
    (r.header.Peek "If-Match" = ascii "*" → checkIfMatch r w = Run.ret condTrue) ∧
    (∀ ts : List ListedTag, ts ≠ [] → (∀ t ∈ ts, t.wf = true) →
      r.header.Peek "If-Match" = renderList ts →
      (checkIfMatch r w = Run.ret condTrue ↔
        ∃ t ∈ ts, etagStrongMatch t.tag (w.header.Peek "Etag") = true) ∧
      (checkIfMatch r w = Run.ret condFalse ↔
        ¬ ∃ t ∈ ts, etagStrongMatch t.tag (w.header.Peek "Etag") = true)) := by
  refine ⟨checkIfMatch_absent r w, fun h => ?_, fun ts hne hts h => ?_⟩
  · unfold checkIfMatch
    rw [h]
    rfl
  · match ts, hne with
    | t :: ts, _ =>
      have ht := (ListedTag.wf_iff t).mp (hts t (List.mem_cons_self _ _))
      have hpos := t.tag_length_pos
      have hlen := trimmedTail_length_le ts t.post
      have key : checkIfMatch r w =
          Run.ret (if (t :: ts).any (fun t => etagStrongMatch t.tag (w.header.Peek "Etag")) = true
            then condTrue else condFalse) := by
        unfold checkIfMatch
        simp only [h]
        have hl : ¬ (renderList (t :: ts)).length = 0 := by
          simp only [renderList, List.length_append]
          omega
        rw [if_neg hl, checkIfMatchLoop_tag _ _ _ t _ ht.1 (TrimBytes_renderList t ts hts)
          (TrimBytes_tag_trimmedTail [] t ts rfl), List.any_cons]
        by_cases hm : etagStrongMatch t.tag (w.header.Peek "Etag") = true
        · simp [hm]
        · rw [if_neg hm, checkIfMatchLoop_trimmedTail _ ts t.post _
            (fun u hu => hts u (List.mem_cons_of_mem _ hu)) ht.2.2
            (by simp only [renderList, List.length_append] at hlen ⊢; omega)]
          simp [hm]
      rw [key]
      by_cases hany : (t :: ts).any (fun t => etagStrongMatch t.tag (w.header.Peek "Etag")) = true
      · have hex : ∃ u ∈ t :: ts, etagStrongMatch u.tag (w.header.Peek "Etag") = true := by
          simpa [List.any_eq_true] using hany
        rw [if_pos hany]
        exact ⟨⟨fun _ => hex, fun _ => rfl⟩, ⟨fun hc => (by cases hc), fun hc => absurd hex hc⟩⟩
      · have hex : ¬ ∃ u ∈ t :: ts, etagStrongMatch u.tag (w.header.Peek "Etag") = true := by
          simpa [List.any_eq_true] using hany
        rw [if_neg hany]
        exact ⟨⟨fun hc => (by cases hc), fun hc => absurd hc hex⟩, ⟨fun _ => hex, fun _ => rfl⟩⟩

/-- C4 at a concrete request: `If-Match: W/"v1" , "v2"` against the response
Etag `"v2"`. -/
theorem checkIfMatch_spec_witness :
    checkIfMatch ⟨ascii "PUT", [("If-Match", ascii "W/\"v1\" , \"v2\"")]⟩
      ⟨[("Etag", ascii "\"v2\"")], 200, false⟩ = Run.ret condTrue :=
  ((checkIfMatch_spec ⟨ascii "PUT", [("If-Match", ascii "W/\"v1\" , \"v2\"")]⟩
      ⟨[("Etag", ascii "\"v2\"")], 200, false⟩).2.2
    [⟨true, ascii "v1", [], ascii " "⟩, ⟨false, ascii "v2", ascii " ", []⟩]
    (by decide) (by decide) (by decide)).1.mpr
    ⟨⟨false, ascii "v2", ascii " ", []⟩, by decide, by decide⟩

/-! ## `checkIfNoneMatch` on a list of entity tags -/

theorem head_space_tag (ws W : Bytes) (t : ListedTag) (hws : ws.all isASCIISpace = true) :
    ∃ c, (ws ++ (t.tag ++ W)).head? = some c ∧ c ≠ 42 ∧ c ≠ 44 := by
  match ws, hws with
  | [], _ =>
    obtain ⟨c, rest, hc, hcase⟩ := t.tag_cons
    refine ⟨c, by rw [hc]; rfl, ?_, ?_⟩ <;> rcases hcase with h | h <;> subst h <;> decide
  | x :: ws, hws =>
    rw [List.all_cons, Bool.and_eq_true] at hws
    refine ⟨x, rfl, ?_, ?_⟩
    · intro hx
      rw [hx] at hws
      exact absurd hws.1 (by decide)
    · intro hx
      rw [hx] at hws
      exact absurd hws.1 (by decide)

theorem checkIfNoneMatchLoop_tag (etag b W : Bytes) (t : ListedTag) (fuel : Nat)
    (hb : t.body.all etagChar = true) (htrim : TrimBytes b = t.tag ++ W)
    (hfix : TrimBytes (t.tag ++ W) = t.tag ++ W) :
    checkIfNoneMatchLoop etag (fuel + 1) b =
      if etagWeakMatch t.tag etag = true then Run.ret condFalse
      else checkIfNoneMatchLoop etag fuel W := by
  obtain ⟨c, hc, h42, h44⟩ := head_space_tag [] W t rfl
  rw [List.nil_append] at hc
  have hlen : ¬ (t.tag ++ W).length = 0 := by
    have := t.tag_length_pos
    rw [List.length_append]
    omega
  have hcomma : ¬ (t.tag ++ W).head? = some 44 := by
    rw [hc]
    simpa using h44
  have hl : ¬ t.tag.length = 0 := Nat.pos_iff_ne_zero.mp t.tag_length_pos
  rw [checkIfNoneMatchLoop]
  simp only [htrim]
  rw [if_neg hlen, if_neg hcomma]
  simp only [hc, if_neg h42, scanETag_tag _ _ _ hb hfix, if_neg hl]

theorem checkIfNoneMatchLoop_comma_tag (etag b ws W : Bytes) (t : ListedTag) (fuel : Nat)
    (hb : t.body.all etagChar = true) (hws : ws.all isASCIISpace = true)
    (htrim : TrimBytes b = 44 :: (ws ++ (t.tag ++ W)))
    (hfix : TrimBytes (ws ++ (t.tag ++ W)) = t.tag ++ W) :
    checkIfNoneMatchLoop etag (fuel + 1) b =
      if etagWeakMatch t.tag etag = true then Run.ret condFalse
      else checkIfNoneMatchLoop etag fuel W := by
  obtain ⟨c, hc, h42, _⟩ := head_space_tag ws W t hws
  have hl : ¬ t.tag.length = 0 := Nat.pos_iff_ne_zero.mp t.tag_length_pos
  have hlen : ¬ (44 :: (ws ++ (t.tag ++ W))).length = 0 := by simp
  have hdrop : List.drop 1 (44 :: (ws ++ (t.tag ++ W))) = ws ++ (t.tag ++ W) := rfl
  have hhead : (44 :: (ws ++ (t.tag ++ W))).head? = some 44 := rfl
  rw [checkIfNoneMatchLoop]
  simp only [htrim]
  rw [if_neg hlen, if_pos hhead, hdrop]
  simp only [hc, if_neg h42, scanETag_tag _ _ _ hb hfix, if_neg hl]

theorem checkIfNoneMatchLoop_trimmedTail (etag : Bytes) (ts : List ListedTag) (post : Bytes)
    (fuel : Nat) (hts : ∀ t ∈ ts, t.wf = true) (hpost : post.all isASCIISpace = true)
    (hfuel : (trimmedTail post ts).length < fuel) :
    checkIfNoneMatchLoop etag fuel (trimmedTail post ts) =
      Run.ret (if ts.any (fun t => etagWeakMatch t.tag etag) = true then condFalse
        else condTrue) := by
  induction ts generalizing post fuel with
  | nil =>
    match fuel, hfuel with
    | f + 1, _ => rfl
  | cons t ts ih =>
    have ht := (ListedTag.wf_iff t).mp (hts t (List.mem_cons_self _ _))
    have hpos := t.tag_length_pos
    simp only [trimmedTail, List.length_append, List.length_cons] at hfuel
    match fuel, hfuel with
    | f + 1, hfuel =>
      rw [checkIfNoneMatchLoop_comma_tag _ _ t.pre _ t _ ht.1 ht.2.1
          (TrimBytes_trimmedTail_cons post t ts hpost)
          (TrimBytes_tag_trimmedTail t.pre t ts ht.2.1)]
      rw [List.any_cons]
      by_cases hm : etagWeakMatch t.tag etag = true
      · simp [hm]
      · rw [if_neg hm, ih t.post f (fun u hu => hts u (List.mem_cons_of_mem _ hu)) ht.2.2
          (by omega)]
        simp [hm]

theorem checkIfNoneMatch_renderList (etag : Bytes) (r : Request) (w : Response)
    (t : ListedTag) (ts : List ListedTag) (hts : ∀ u ∈ t :: ts, u.wf = true)
    (h : r.header.Peek "If-None-Match" = renderList (t :: ts)) :
    checkIfNoneMatch etag r w =
      Run.ret (if (t :: ts).any (fun u => etagWeakMatch u.tag etag) = true then condFalse
        else condTrue) := by
  have ht := (ListedTag.wf_iff t).mp (hts t (List.mem_cons_self _ _))
  have hpos := t.tag_length_pos
  have hlen := trimmedTail_length_le ts t.post
  unfold checkIfNoneMatch
  simp only [h]
  have hl : ¬ (renderList (t :: ts)).length = 0 := by
    simp only [renderList, List.length_append]
    omega
  rw [if_neg hl, checkIfNoneMatchLoop_tag _ _ _ t _ ht.1 (TrimBytes_renderList t ts hts)
    (TrimBytes_tag_trimmedTail [] t ts rfl), List.any_cons]
  by_cases hm : etagWeakMatch t.tag etag = true
  · simp [hm]
  · rw [if_neg hm, checkIfNoneMatchLoop_trimmedTail _ ts t.post _
      (fun u hu => hts u (List.mem_cons_of_mem _ hu)) ht.2.2
      (by simp only [renderList, List.length_append] at hlen ⊢; omega)]
    simp [hm]

/-- C2: `checkIfNoneMatch` returns Undetermined when the If-None-Match header
is absent or empty, Failed when its value is `*`, and, for every value that is
a list of well-formed ETags separated by commas with optional white space
around them, Failed if and only if some listed tag weakly matches the
resource's ETag, and Satisfied otherwise. -/
theorem checkIfNoneMatch_spec (etag : Bytes) (r : Request) (w : Response) :
    (r.header.Peek "If-None-Match" = [] → checkIfNoneMatch etag r w = Run.ret condNone) ∧
    (r.header.Peek "If-None-Match" = ascii "*" →
      checkIfNoneMatch etag r w = Run.ret condFalse) ∧
    (∀ ts : List ListedTag, ts ≠ [] → (∀ t ∈ ts, t.wf = true) →
      r.header.Peek "If-None-Match" = renderList ts →
      (checkIfNoneMatch etag r w = Run.ret condFalse ↔
        ∃ t ∈ ts, etagWeakMatch t.tag etag = true) ∧
      (checkIfNoneMatch etag r w = Run.ret condTrue ↔
        ¬ ∃ t ∈ ts, etagWeakMatch t.tag etag = true)) := by
  refine ⟨checkIfNoneMatch_absent etag r w, fun h => ?_, fun ts hne hts h => ?_⟩
  · unfold checkIfNoneMatch
    rw [h]
    rfl
  · match ts, hne with
    | t :: ts, _ =>
      rw [checkIfNoneMatch_renderList etag r w t ts hts h]
      by_cases hany : (t :: ts).any (fun u => etagWeakMatch u.tag etag) = true
      · have hex : ∃ u ∈ t :: ts, etagWeakMatch u.tag etag = true := by
          simpa [List.any_eq_true] using hany
        rw [if_pos hany]
        exact ⟨⟨fun _ => hex, fun _ => rfl⟩, ⟨fun hc => (by cases hc), fun hc => absurd hex hc⟩⟩
      · have hex : ¬ ∃ u ∈ t :: ts, etagWeakMatch u.tag etag = true := by
          simpa [List.any_eq_true] using hany
        rw [if_neg hany]
        exact ⟨⟨fun hc => (by cases hc), fun hc => absurd hc hex⟩, ⟨fun _ => hex, fun _ => rfl⟩⟩

/-- C2 at a concrete request: `If-None-Match: "v1",W/"v2"` against the
resource ETag `"v2"`. -/
theorem checkIfNoneMatch_spec_witness :
    checkIfNoneMatch (ascii "\"v2\"")
      ⟨ascii "GET", [("If-None-Match", ascii "\"v1\",W/\"v2\"")]⟩
      ⟨[("Etag", ascii "\"v2\"")], 200, false⟩ = Run.ret condFalse :=
  ((checkIfNoneMatch_spec (ascii "\"v2\"")
      ⟨ascii "GET", [("If-None-Match", ascii "\"v1\",W/\"v2\"")]⟩
      ⟨[("Etag", ascii "\"v2\"")], 200, false⟩).2.2
    [⟨false, ascii "v1", [], []⟩, ⟨true, ascii "v2", [], []⟩]
    (by decide) (by decide) (by decide)).1.mpr
    ⟨⟨true, ascii "v2", [], []⟩, by decide, by decide⟩

/-! ## What `scanETag` returns -/

theorem etagChar_ne_quote (c : Nat) (h : etagChar c = true) : c ≠ 34 := by
  intro hc
  rw [hc] at h
  exact absurd h (by decide)

theorem etagChar_of_etagByte (c : Nat) (h : etagByte c = true) : etagChar c = true := by
  simp only [etagByte, etagChar, Bool.or_eq_true, Bool.and_eq_true, beq_iff_eq,
    decide_eq_true_eq] at h ⊢
  omega

theorem etagByte_of_etagChar (c : Nat) (hc : c < 256) (h : etagChar c = true) :
    etagByte c = true := by
  simp only [etagByte, etagChar, Bool.or_eq_true, Bool.and_eq_true, beq_iff_eq,
    decide_eq_true_eq] at h ⊢
  omega

theorem scanETagLoop_nonempty (S cs : Bytes) (i : Nat) (h : scanETagLoop S i cs ≠ ([], [])) :
    ∃ body W, cs = body ++ 34 :: W ∧ body.all etagChar = true := by
  induction cs generalizing i with
  | nil => exact absurd rfl h
  | cons c cs ih =>
    unfold scanETagLoop at h
    by_cases hc : (c == 0x21 || (decide (c ≥ 0x23) && decide (c ≤ 0x7E)) || decide (c ≥ 0x80)) = true
    · rw [if_pos hc] at h
      obtain ⟨body, W, hcs, hb⟩ := ih (i + 1) h
      refine ⟨c :: body, W, by rw [hcs]; rfl, ?_⟩
      rw [List.all_cons, hb, Bool.and_true]
      exact hc
    · rw [if_neg hc] at h
      by_cases hq : (c == 34) = true
      · have hq' : c = 34 := by simpa using hq
        exact ⟨[], cs, by rw [hq']; rfl, rfl⟩
      · rw [if_neg hq] at h
        exact absurd rfl h

/-- A scan that returns anything has found a well-formed tag at the start of
the trimmed input. -/
theorem scanETag_shape (s : Bytes) (h : scanETag s ≠ ([], [])) :
    ∃ (t : ListedTag) (W : Bytes), t.body.all etagChar = true ∧ TrimBytes s = t.tag ++ W := by
  unfold scanETag at h
  simp only [] at h
  by_cases hp : HasPrefix (TrimBytes s) etagPrefix = true
  · obtain ⟨rest, hS⟩ := (HasPrefix_etagPrefix _).mp hp
    rw [if_pos hp] at h
    by_cases hcond : (decide ((List.drop 2 (TrimBytes s)).length < 2)
        || (TrimBytes s).get? 2 != some 34) = true
    · rw [if_pos hcond] at h
      exact absurd rfl h
    · rw [if_neg hcond] at h
      rw [hS] at hcond h
      match rest, hcond, h with
      | [], hcond, _ => simp at hcond
      | q :: rest1, hcond, h =>
        have hq : q = 34 := by
          simp only [Bool.or_eq_true, decide_eq_true_eq, not_or] at hcond
          simpa using hcond.2
        subst hq
        obtain ⟨body, W, hcs, hb⟩ := scanETagLoop_nonempty _ _ _ h
        have hrest : rest1 = body ++ 34 :: W := by simpa using hcs
        refine ⟨⟨true, body, [], []⟩, W, hb, ?_⟩
        rw [hS, hrest, ListedTag.tag, etagPrefix_eq]
        simp
  · rw [if_neg hp] at h
    by_cases hcond : (decide ((List.drop 0 (TrimBytes s)).length < 2)
        || (TrimBytes s).get? 0 != some 34) = true
    · rw [if_pos hcond] at h
      exact absurd rfl h
    · rw [if_neg hcond] at h
      match hS : TrimBytes s, hcond, h with
      | [], hcond, _ => simp at hcond
      | q :: rest1, hcond, h =>
        have hq : q = 34 := by
          simp only [Bool.or_eq_true, decide_eq_true_eq, not_or] at hcond
          simpa using hcond.2
        subst hq
        obtain ⟨body, W, hcs, hb⟩ := scanETagLoop_nonempty _ _ _ h
        have hrest : rest1 = body ++ 34 :: W := by simpa using hcs
        refine ⟨⟨false, body, [], []⟩, W, hb, ?_⟩
        rw [hrest, ListedTag.tag]
        simp

theorem scanETag_eq_nil_of_token_nil (s : Bytes) (h : (scanETag s).1 = []) :
    scanETag s = ([], []) := by
  by_cases hs : scanETag s = ([], [])
  · exact hs
  · obtain ⟨t, W, hb, htrim⟩ := scanETag_shape s hs
    rw [scanETag_tag s W t hb htrim] at h
    have := t.tag_length_pos
    simp only [] at h
    rw [h] at this
    exact absurd this (by simp)

theorem mem_of_mem_TrimBytes (s : Bytes) (c : Nat) (h : c ∈ TrimBytes s) : c ∈ s := by
  rw [TrimBytes_eq] at h
  exact (List.dropWhile_sublist _).subset ((List.rdropWhile_prefix _ _).subset h)

/-- C11: for every input `s`, if `scanETag s` returns a non-empty token `t`
with remainder `r`, then the trimmed input is `t` followed by `r`, and `t` is
an optional `W/`, a double quote, bytes none of which is a double quote, and a
closing double quote. -/
theorem scanETag_token_sound (s : Bytes) (h : (scanETag s).1 ≠ []) :
    TrimBytes s = (scanETag s).1 ++ (scanETag s).2 ∧
    ∃ (weak : Bool) (body : Bytes), (∀ c ∈ body, c ≠ 34) ∧
      (scanETag s).1 = (if weak then ascii "W/" else []) ++ 34 :: (body ++ [34]) := by
  have hs : scanETag s ≠ ([], []) := fun hc => h (by rw [hc])
  obtain ⟨t, W, hb, htrim⟩ := scanETag_shape s hs
  rw [scanETag_tag s W t hb htrim]
  refine ⟨htrim, t.weak, t.body, fun c hc => ?_, rfl⟩
  exact etagChar_ne_quote c (List.all_eq_true.mp hb c hc)

/-- C11 at a concrete input: the first tag of ` W/"ab" , "c"`. -/
theorem scanETag_token_sound_witness :
    TrimBytes (ascii " W/\"ab\" , \"c\"")
      = (scanETag (ascii " W/\"ab\" , \"c\"")).1 ++ (scanETag (ascii " W/\"ab\" , \"c\"")).2 :=
  (scanETag_token_sound (ascii " W/\"ab\" , \"c\"") (by decide)).1

/-- C12: on a byte string, `scanETag` returns a non-empty token if and only if
the trimmed input begins with an optional `W/`, then `"`, then bytes each of
which is 0x21, in 0x23..0x7E or in 0x80..0xFF, then `"`; on every other input
it returns an empty token and an empty remainder, as it does for a missing
opening quote, a space or a control byte before the closing quote, and a
missing closing quote. -/
theorem scanETag_token_iff (s : Bytes) (hbytes : ∀ c ∈ s, c < 256) :
    ((scanETag s).1 ≠ [] ↔
      ∃ (weak : Bool) (body rest : Bytes), body.all etagByte = true ∧
        TrimBytes s = (if weak then ascii "W/" else []) ++ 34 :: (body ++ 34 :: rest)) ∧
    ((¬ ∃ (weak : Bool) (body rest : Bytes), body.all etagByte = true ∧
        TrimBytes s = (if weak then ascii "W/" else []) ++ 34 :: (body ++ 34 :: rest)) →
      scanETag s = ([], [])) ∧
    scanETag (ascii "abc\"") = ([], []) ∧ scanETag (ascii "\"a b\"") = ([], []) ∧
    scanETag [34, 97, 7, 34] = ([], []) ∧ scanETag (ascii "\"abc") = ([], []) := by
  have key : (scanETag s).1 ≠ [] ↔
      ∃ (weak : Bool) (body rest : Bytes), body.all etagByte = true ∧
        TrimBytes s = (if weak then ascii "W/" else []) ++ 34 :: (body ++ 34 :: rest) := by
    constructor
    · intro h
      have hs : scanETag s ≠ ([], []) := fun hc => h (by rw [hc])
      obtain ⟨t, W, hb, htrim⟩ := scanETag_shape s hs
      refine ⟨t.weak, t.body, W, ?_, ?_⟩
      · rw [List.all_eq_true] at hb ⊢
        intro c hc
        apply etagByte_of_etagChar c _ (hb c hc)
        apply hbytes c
        apply mem_of_mem_TrimBytes
        rw [htrim, ListedTag.tag]
        simp [hc]
      · rw [htrim, ListedTag.tag]
        simp [etagPrefix]
    · rintro ⟨weak, body, rest, hb, htrim⟩
      have hb' : (⟨weak, body, [], []⟩ : ListedTag).body.all etagChar = true := by
        rw [List.all_eq_true] at hb ⊢
        exact fun c hc => etagChar_of_etagByte c (hb c hc)
      have htrim' : TrimBytes s = (⟨weak, body, [], []⟩ : ListedTag).tag ++ rest := by
        rw [htrim, ListedTag.tag]
        simp [etagPrefix]
      rw [scanETag_tag s rest _ hb' htrim']
      intro hc
      have hpos := (⟨weak, body, [], []⟩ : ListedTag).tag_length_pos
      simp only [] at hc
      rw [hc] at hpos
      exact absurd hpos (by simp)
  refine ⟨key, fun hn => ?_, by decide, by decide, by decide, by decide⟩
  apply scanETag_eq_nil_of_token_nil
  by_contra hc
  exact hn (key.mp hc)

/-- C12 at a concrete input: a weak tag followed by more of the header. -/
theorem scanETag_token_iff_witness :
    (scanETag (ascii " W/\"ab\" , \"c\"")).1 ≠ [] :=
  (scanETag_token_iff (ascii " W/\"ab\" , \"c\"") (by decide)).1.mpr
    ⟨true, ascii "ab", ascii " , \"c\"", by decide, by decide⟩

/-! ## The cache policy -/

theorem Header.Peek_Set_self (h : Header) (k : String) (v : Bytes) : (h.Set k v).Peek k = v := by
  simp [Header.Set, Header.Peek]

theorem Header.Peek_Set_ne (h : Header) (k k' : String) (v : Bytes) (hne : k ≠ k') :
    (h.Set k v).Peek k' = h.Peek k' := by
  have hk : (k == k') = false := by simpa using hne
  have e : (h.Set k v).Peek k' = (h.Del k).Peek k' := by
    simp [Header.Set, Header.Peek, hk]
  rw [e, Header.Peek_Del_ne h k k' hne]

/-- C13 at its failing input: with `BaseVersion` 1700000000 the version token
`0` parses to an integer below `BaseVersion`, and the non-debug `cacheFiller`
sets both Cache-Control and Expires; the same happens for `-1`. -/
theorem cacheFiller_nonpositive_version :
    ParseInt (ascii "0") = some 0 ∧ (0 : Int) < 1700000000 ∧
    cacheFiller false 1700000000 [] (ascii "0") []
      = [("Expires", ascii "2592000"), ("Cache-Control", ascii "public, max-age=2592000")] ∧
    ParseInt (ascii "-1") = some (-1) ∧
    (cacheFiller false 1700000000 [] (ascii "-1") []).Peek "Cache-Control"
      = ascii "public, max-age=2592000" := by
  decide

theorem cacheFiller_eq_of_accepted (baseVersion : Int) (header : Header) (v d : Bytes)
    (rv : Int) (hv : ParseInt v = some rv) (hacc : ¬ (0 < rv ∧ rv < baseVersion)) :
    cacheFiller false baseVersion header v d =
      (header.Set "Cache-Control" (cacheControlPrefix ++ FormatInt (specDuration d))).Set
        "Expires" (FormatInt (specDuration d)) := by
  have hcond : ¬ ((decide (rv > 0) && decide (rv < baseVersion)) = true) := by
    simpa using hacc
  have hdur : (match ParseInt d with
      | some pushedDuration =>
        if (decide (pushedDuration > 0) && decide (pushedDuration > 2592000)) = true
          then pushedDuration else 2592000
      | none => (2592000 : Int)) = specDuration d := by
    unfold specDuration
    cases ParseInt d with
    | none => rfl
    | some pd =>
      simp only []
      by_cases hpd : pd > 2592000
      · have h0 : pd > 0 := by omega
        simp [hpd, h0]
      · simp [hpd]
  unfold cacheFiller
  simp only [Bool.false_eq_true, if_false, hv]
  rw [if_neg hcond, hdur]

theorem specDuration_ge (d : Bytes) : 2592000 ≤ specDuration d := by
  unfold specDuration
  cases ParseInt d with
  | none => simp
  | some pd =>
    simp only []
    split <;> omega

/-- C14: for every version token the policy accepts and every duration token
`d`, the non-debug `cacheFiller` leaves Cache-Control equal to
`public, max-age=D` and Expires equal to `D` in decimal, where `D` is `d` when
`d` parses to an integer greater than 2,592,000 and 2,592,000 otherwise; `D` is
never below 2,592,000 and no other header changes. A version token equal to
`BaseVersion` with `d=5000000` gives `public, max-age=5000000`. -/
theorem cacheFiller_accepted (baseVersion : Int) (header : Header) (v d : Bytes) (rv : Int)
    (hv : ParseInt v = some rv) (hacc : ¬ (0 < rv ∧ rv < baseVersion)) :
    (cacheFiller false baseVersion header v d).Peek "Cache-Control"
      = ascii "public, max-age=" ++ FormatInt (specDuration d) ∧
    (cacheFiller false baseVersion header v d).Peek "Expires" = FormatInt (specDuration d) ∧
    2592000 ≤ specDuration d ∧
    (∀ k : String, k ≠ "Cache-Control" → k ≠ "Expires" →
      (cacheFiller false baseVersion header v d).Peek k = header.Peek k) ∧
    (rv = baseVersion →
      (cacheFiller false baseVersion header v (ascii "5000000")).Peek "Cache-Control"
        = ascii "public, max-age=5000000") := by
  have hgen : ∀ d' : Bytes, (cacheFiller false baseVersion header v d').Peek "Cache-Control"
      = ascii "public, max-age=" ++ FormatInt (specDuration d') := by
    intro d'
    rw [cacheFiller_eq_of_accepted baseVersion header v d' rv hv hacc,
      Header.Peek_Set_ne _ _ _ _ (by decide), Header.Peek_Set_self]
    rfl
  refine ⟨hgen d, ?_, specDuration_ge d, fun k h1 h2 => ?_, fun _ => ?_⟩
  · rw [cacheFiller_eq_of_accepted baseVersion header v d rv hv hacc, Header.Peek_Set_self]
  · rw [cacheFiller_eq_of_accepted baseVersion header v d rv hv hacc,
      Header.Peek_Set_ne _ _ _ _ (Ne.symm h2), Header.Peek_Set_ne _ _ _ _ (Ne.symm h1)]
  · rw [hgen]
    decide

/-- C14 at a concrete request: `v=1700000000&d=5000000` with `BaseVersion`
1700000000. -/
theorem cacheFiller_accepted_witness :
    (cacheFiller false 1700000000 [("Vary", ascii "Cookie")] (ascii "1700000000")
      (ascii "5000000")).Peek "Cache-Control" = ascii "public, max-age=5000000" :=
  (cacheFiller_accepted 1700000000 [("Vary", ascii "Cookie")] (ascii "1700000000")
    (ascii "5000000") 1700000000 (by decide) (by decide)).2.2.2.2 rfl

/-! ## `resolvFile` -/

theorem codeOf_step (c k : Int) (rest : Int × Bool)
    (h : rest.1 = if rest.2 = true then c else HandledErrorInternalServerError) :
    (if c = k then (k, true) else rest).1
      = if (if c = k then (k, true) else rest).2 = true then c
        else HandledErrorInternalServerError := by
  by_cases hk : c = k
  · simp [hk]
  · simp only [hk, if_false]
    exact h

theorem HandledErrorCodeOf_fst (c : Int) :
    (HandledErrorCodeOf c).1
      = if (HandledErrorCodeOf c).2 = true then c else HandledErrorInternalServerError := by
  unfold HandledErrorCodeOf
  repeat apply codeOf_step
  rfl

/-- C19: `resolvFile` raises NotFound (404) when the resolver returns an error
or a nil file and when the stat reports a directory; when `Stat` fails it
raises the `HandledError` whose status is the classifier's code if
`HandledErrorCodeOf` recognises that code (as it does 403 and 404) and 500
otherwise; in every remaining case it returns the file and its stat. -/
theorem resolvFile_spec (env : Env) (h : staticFileHandler) (pathData : Bytes) :
    (∀ f e, env.fileProvider (strippedPath h pathData) = (f, some e) →
      resolvFile env h pathData = Outcome.raised (PanicObj.handledError 404)) ∧
    (∀ e, env.fileProvider (strippedPath h pathData) = (none, e) →
      resolvFile env h pathData = Outcome.raised (PanicObj.handledError 404)) ∧
    (∀ f, env.fileProvider (strippedPath h pathData) = (some f, none) →
      (∀ e, f.stat = StatResult.err e →
        resolvFile env h pathData = Outcome.raised (PanicObj.handledError
          (if (HandledErrorCodeOf (env.toHTTPError e)).2 = true then env.toHTTPError e
            else 500))) ∧
      (∀ st, f.stat = StatResult.ok st → st.isDir = true →
        resolvFile env h pathData = Outcome.raised (PanicObj.handledError 404)) ∧
      (∀ st, f.stat = StatResult.ok st → st.isDir = false →
        resolvFile env h pathData = Outcome.ok (f, st))) ∧
    HandledErrorCodeOf 403 = (403, true) ∧ HandledErrorCodeOf 404 = (404, true) := by
  refine ⟨fun f e hp => ?_, fun e hp => ?_, fun f hp => ⟨fun e hs => ?_, fun st hs hd => ?_,
    fun st hs hd => ?_⟩, by decide, by decide⟩
  · unfold resolvFile
    rw [hp]
    cases f <;> rfl
  · unfold resolvFile
    rw [hp]
    cases e <;> rfl
  · unfold resolvFile
    rw [hp]
    simp only [hs]
    rw [HandledErrorCodeOf_fst]
    rfl
  · unfold resolvFile
    rw [hp]
    simp only [hs, hd, if_true]
    rfl
  · unfold resolvFile
    rw [hp]
    simp only [hs, hd, Bool.false_eq_true, if_false]

/-- C19 at a concrete resolver: the stat of the file fails with an error the
classifier maps to 403. -/
theorem resolvFile_spec_witness :
    resolvFile ⟨fun _ => (some ⟨ascii "a.txt", StatResult.err 13, [], [], false⟩, none),
        fun e => if e = 13 then 403 else 500, parseIMFFixdate, fun _ => [], fun _ => [],
        fun _ => [], false⟩
      ⟨ascii "/static", 1700000000, false⟩ (ascii "/static/a.txt")
      = Outcome.raised (PanicObj.handledError 403) :=
  ((resolvFile_spec
      ⟨fun _ => (some ⟨ascii "a.txt", StatResult.err 13, [], [], false⟩, none),
        fun e => if e = 13 then 403 else 500, parseIMFFixdate, fun _ => [], fun _ => [],
        fun _ => [], false⟩
      ⟨ascii "/static", 1700000000, false⟩ (ascii "/static/a.txt")).2.2.1
    ⟨ascii "a.txt", StatResult.err 13, [], [], false⟩ rfl).1 13 rfl

/-- C20 at its failing input: for the prefix `/static` and the request path
`/static../secret.txt` the path handed to the resolver is `../secret.txt`,
whose first element is `..`. -/
theorem strippedPath_keeps_dotdot :
    strippedPath ⟨ascii "/static", 1700000000, false⟩ (ascii "/static../secret.txt")
      = ascii "../secret.txt" ∧
    ascii ".." ∈ splitSlash
      (strippedPath ⟨ascii "/static", 1700000000, false⟩ (ascii "/static../secret.txt")) := by
  decide

/-! ## `Handle` -/

theorem Handle_of_resolved (env : Env) (h : staticFileHandler) (ctx : RequestCtx) (f : File)
    (stat : FileInfo) (hres : resolvFile env h ctx.path = Outcome.ok (f, stat)) :
    Handle env h ctx =
      match checkPreconditions env.parseTime ctx.request (prepareResponse env h ctx f stat)
          stat.modTime f.hash with
      | Run.panic => Outcome.raised PanicObj.runtimeError
      | Run.outOfFuel => Outcome.outOfFuel
      | Run.ret (true, w) => Outcome.ok ⟨w, none⟩
      | Run.ret (false, w) => serveBody env ctx f stat w := by
  unfold Handle
  rw [hres]

/-- A GET or HEAD whose `If-None-Match` is the resource's well-formed ETag, and
which has no `If-Match` and no `If-Unmodified-Since`, gets 304. -/
theorem checkPreconditions_echo (parseTime : Bytes → Option Int) (r : Request) (w : Response)
    (modtime : Int) (t : ListedTag) (hbody : t.body.all etagChar = true)
    (hm : r.method = MethodGET ∨ r.method = MethodHEAD)
    (hinm : r.header.Peek "If-None-Match" = t.tag)
    (him : r.header.Peek "If-Match" = [])
    (hius : r.header.Peek "If-Unmodified-Since" = []) :
    checkPreconditions parseTime r w modtime t.tag = Run.ret (true, writeNotModified w) := by
  have hpair : ¬ (checkIfMatch r w = Run.ret condFalse ∨
      (checkIfMatch r w = Run.ret condNone ∧
        checkIfUnmodifiedSince parseTime r modtime = condFalse)) := by
    rw [checkIfMatch_absent r w him, checkIfUnmodifiedSince_absent parseTime r modtime hius]
    simp
  have htag : (⟨t.weak, t.body, [], []⟩ : ListedTag).tag = t.tag := rfl
  have hwf : ∀ u ∈ [(⟨t.weak, t.body, [], []⟩ : ListedTag)], u.wf = true := by
    intro u hu
    rw [List.mem_singleton] at hu
    subst hu
    simp [ListedTag.wf, hbody]
  have hrl : r.header.Peek "If-None-Match" = renderList [(⟨t.weak, t.body, [], []⟩ : ListedTag)] := by
    rw [hinm]
    simp [renderList, renderTail, htag]
  have hw : etagWeakMatch t.tag t.tag = true := by
    unfold etagWeakMatch
    simp [ConstantTimeCompare]
  have hc := checkIfNoneMatch_renderList t.tag r w _ [] hwf hrl
  rw [List.any_cons, htag, hw] at hc
  have key := checkPreconditions_second_pair parseTime r w modtime t.tag condFalse hpair
    (by rw [hc]; rfl)
  simp only [] at key
  rw [key, if_pos hm]

/-- C15, as stated, fails: the non-empty content hash `abc` is emitted verbatim
as the Etag, a GET echoes it in `If-None-Match` without any other condition,
and the evaluator does not intercept; the handler answers 200. -/
theorem Handle_unquoted_hash_counterexample :
    checkPreconditions parseIMFFixdate ⟨ascii "GET", [("If-None-Match", ascii "abc")]⟩
        ⟨[("Etag", ascii "abc")], 200, false⟩ 1704067200000000000 (ascii "abc")
      = Run.ret (false, ⟨[("Etag", ascii "abc")], 200, false⟩) ∧
    servedStatus (Handle
      (sampleEnv ⟨ascii "a.bin", StatResult.ok ⟨3, 1704067200000000000, false⟩, ascii "abc",
        ascii "xyz", false⟩)
      ⟨ascii "/static", 1700000000, false⟩
      ⟨⟨ascii "GET", [("If-None-Match", ascii "abc")]⟩, ascii "/static/a.bin", [], [],
        ⟨[], 200, false⟩⟩) = 200 := by
  decide

/-- C15, amended: for every resource whose content hash is a well-formed entity
tag (an optional `W/`, then a quoted run of the bytes `scanETag` accepts) and
every GET request whose `If-None-Match` equals it and that carries no
`If-Match` and no `If-Unmodified-Since`, the handler answers 304 Not Modified
with the tag as Etag and no body, whatever state `prev` an earlier run left the
response in. -/
theorem Handle_ifNoneMatch_echo (env : Env) (h : staticFileHandler) (ctx : RequestCtx)
    (f : File) (stat : FileInfo) (t : ListedTag)
    (hres : resolvFile env h ctx.path = Outcome.ok (f, stat))
    (hbody : t.body.all etagChar = true) (hhash : f.hash = t.tag)
    (hget : ctx.request.method = MethodGET)
    (hinm : ctx.request.header.Peek "If-None-Match" = f.hash)
    (him : ctx.request.header.Peek "If-Match" = [])
    (hius : ctx.request.header.Peek "If-Unmodified-Since" = []) :
    ∀ prev : Response, ∃ w : Response,
      Handle env h { ctx with response := prev } = Outcome.ok ⟨w, none⟩ ∧
      w.statusCode = 304 ∧ w.SkipBody = true ∧ w.header.Peek "Etag" = f.hash := by
  intro prev
  have hres' : resolvFile env h ({ ctx with response := prev } : RequestCtx).path
      = Outcome.ok (f, stat) := hres
  refine ⟨writeNotModified (prepareResponse env h { ctx with response := prev } f stat),
    ?_, rfl, rfl, ?_⟩
  · rw [Handle_of_resolved env h _ f stat hres', hhash,
      checkPreconditions_echo env.parseTime ctx.request _ stat.modTime t hbody (Or.inl hget)
        (by rw [hinm, hhash]) him hius]
  · rw [(writeNotModified_spec _).2.2.2.1]
    have hlen : f.hash.length > 0 := by
      rw [hhash]
      exact t.tag_length_pos
    unfold prepareResponse
    simp only [hlen, if_true]
    exact Header.Peek_Set_self _ _ _

/-- C15 at a concrete resource: the hash `"h1"` echoed by a GET, starting from
the response an earlier 304 left behind. -/
theorem Handle_ifNoneMatch_echo_witness :
    ∃ w : Response,
      Handle
        (sampleEnv ⟨ascii "a.bin", StatResult.ok ⟨3, 1704067200000000000, false⟩,
          ascii "\"h1\"", ascii "xyz", false⟩)
        ⟨ascii "/static", 1700000000, false⟩
        { (⟨⟨ascii "GET", [("If-None-Match", ascii "\"h1\"")]⟩, ascii "/static/a.bin", [], [],
            ⟨[], 200, false⟩⟩ : RequestCtx) with
          response := ⟨[("Etag", ascii "\"h1\"")], 304, true⟩ }
        = Outcome.ok ⟨w, none⟩ ∧
      w.statusCode = 304 ∧ w.SkipBody = true ∧ w.header.Peek "Etag" = ascii "\"h1\"" :=
  Handle_ifNoneMatch_echo
    (sampleEnv ⟨ascii "a.bin", StatResult.ok ⟨3, 1704067200000000000, false⟩,
      ascii "\"h1\"", ascii "xyz", false⟩)
    ⟨ascii "/static", 1700000000, false⟩
    ⟨⟨ascii "GET", [("If-None-Match", ascii "\"h1\"")]⟩, ascii "/static/a.bin", [], [],
      ⟨[], 200, false⟩⟩
    ⟨ascii "a.bin", StatResult.ok ⟨3, 1704067200000000000, false⟩, ascii "\"h1\"",
      ascii "xyz", false⟩
    ⟨3, 1704067200000000000, false⟩ ⟨false, ascii "h1", [], []⟩
    (by decide) (by decide) (by decide) (by decide) (by decide) (by decide) (by decide)
    ⟨[("Etag", ascii "\"h1\"")], 304, true⟩

theorem Handle_not_intercepted (env : Env) (h : staticFileHandler) (ctx : RequestCtx) (f : File)
    (stat : FileInfo) (w : Response)
    (hres : resolvFile env h ctx.path = Outcome.ok (f, stat))
    (hpre : checkPreconditions env.parseTime ctx.request (prepareResponse env h ctx f stat)
      stat.modTime f.hash = Run.ret (false, w)) :
    Handle env h ctx = serveBody env ctx f stat w := by
  rw [Handle_of_resolved env h ctx f stat hres, hpre]

theorem Handle_intercepted (env : Env) (h : staticFileHandler) (ctx : RequestCtx) (f : File)
    (stat : FileInfo) (w : Response)
    (hres : resolvFile env h ctx.path = Outcome.ok (f, stat))
    (hpre : checkPreconditions env.parseTime ctx.request (prepareResponse env h ctx f stat)
      stat.modTime f.hash = Run.ret (true, w)) :
    Handle env h ctx = Outcome.ok ⟨w, none⟩ := by
  rw [Handle_of_resolved env h ctx f stat hres, hpre]

theorem prepareResponse_lastModified (env : Env) (h : staticFileHandler) (ctx : RequestCtx)
    (f : File) (stat : FileInfo) (hz : isZeroTime stat.modTime = false) :
    (prepareResponse env h ctx f stat).header.Peek "Last-Modified"
      = env.formatHTTPDate stat.modTime := by
  unfold prepareResponse
  simp only [hz, Bool.not_false, if_true]
  by_cases hlen : f.hash.length > 0
  · rw [if_pos hlen, Header.Peek_Set_ne _ _ _ _ (by decide), Header.Peek_Set_self]
  · rw [if_neg hlen, Header.Peek_Set_self]

/-! ## The sample HTTP date read back

`parseIMFFixdate` reads the date `formatIMFFixdate` writes for an instant of
the years 0 to 9999 back as that instant truncated to whole seconds. -/

theorem cal_yoe (doe : Int) (h0 : 0 ≤ doe) (h1 : doe ≤ 146096) :
    0 ≤ (doe - doe / 1460 + doe / 36524 - doe / 146096) / 365 ∧
    (doe - doe / 1460 + doe / 36524 - doe / 146096) / 365 ≤ 399 := by
  omega

theorem cal_mono_step (a : Int) :
    a - a / 1460 + a / 36524 - a / 146096
      ≤ (a + 1) - (a + 1) / 1460 + (a + 1) / 36524 - (a + 1) / 146096 := by
  omega

theorem cal_mono_add (a : Int) (k : Nat) :
    a - a / 1460 + a / 36524 - a / 146096
      ≤ (a + k) - (a + k) / 1460 + (a + k) / 36524 - (a + k) / 146096 := by
  induction k with
  | zero => simp
  | succ n ih =>
    have h := cal_mono_step (a + n)
    have e : a + ((n + 1 : Nat) : Int) = a + (n : Int) + 1 := by push_cast; ring
    rw [e]
    exact le_trans ih h

theorem cal_mono (a b : Int) (hab : a ≤ b) :
    a - a / 1460 + a / 36524 - a / 146096 ≤ b - b / 1460 + b / 36524 - b / 146096 := by
  obtain ⟨k, hk⟩ := Int.le.dest hab
  rw [← hk]
  exact cal_mono_add a k

set_option maxRecDepth 100000 in
theorem cal_year_ends : ∀ y : Nat, y < 400 →
    (365 * (y : Int) + (y : Int) / 4 - (y : Int) / 100)
      - (365 * (y : Int) + (y : Int) / 4 - (y : Int) / 100) / 1460
      + (365 * (y : Int) + (y : Int) / 4 - (y : Int) / 100) / 36524
      - (365 * (y : Int) + (y : Int) / 4 - (y : Int) / 100) / 146096 ≥ 365 * (y : Int) ∧
    (365 * ((y : Int) + 1) + ((y : Int) + 1) / 4 - ((y : Int) + 1) / 100 - 1)
      - (365 * ((y : Int) + 1) + ((y : Int) + 1) / 4 - ((y : Int) + 1) / 100 - 1) / 1460
      + (365 * ((y : Int) + 1) + ((y : Int) + 1) / 4 - ((y : Int) + 1) / 100 - 1) / 36524
      - (365 * ((y : Int) + 1) + ((y : Int) + 1) / 4 - ((y : Int) + 1) / 100 - 1) / 146096
      ≤ 365 * (y : Int) + 364 := by
  decide!

theorem cal_cycle (doe yoe : Int) (h0 : 0 ≤ doe) (h1 : doe ≤ 146096)
    (hy : (doe - doe / 1460 + doe / 36524 - doe / 146096) / 365 = yoe) :
    0 ≤ yoe ∧ yoe ≤ 399 ∧
    0 ≤ doe - (365 * yoe + yoe / 4 - yoe / 100) ∧
    (doe - (365 * yoe + yoe / 4 - yoe / 100) ≤ 364 ∨
      (doe - (365 * yoe + yoe / 4 - yoe / 100) = 365 ∧ (yoe + 1) % 4 = 0 ∧
        ((yoe + 1) % 100 ≠ 0 ∨ (yoe + 1) % 400 = 0))) := by
  have hb := cal_yoe doe h0 h1
  rw [hy] at hb
  obtain ⟨hb0, hb1⟩ := hb
  generalize hG : doe - doe / 1460 + doe / 36524 - doe / 146096 = G at hy
  have hG0 : 365 * yoe ≤ G := by omega
  have hG1 : G ≤ 365 * yoe + 364 := by omega
  have hlo : (365 * yoe + yoe / 4 - yoe / 100) ≤ doe := by
    by_contra hc
    by_cases hz : yoe = 0
    · subst hz
      omega
    · obtain ⟨k, hk⟩ := Int.eq_ofNat_of_zero_le (show 0 ≤ yoe - 1 by omega)
      have hyk : yoe = (k : Int) + 1 := by omega
      subst hyk
      have he := (cal_year_ends k (by omega)).2
      generalize hX : 365 * ((k : Int) + 1) + ((k : Int) + 1) / 4 - ((k : Int) + 1) / 100 - 1
        = X at he
      have hm := cal_mono doe X (by omega)
      rw [hG] at hm
      omega
  refine ⟨hb0, hb1, by omega, ?_⟩
  by_cases h399 : yoe = 399
  · subst h399
    omega
  · have hhi : doe ≤ (365 * (yoe + 1) + (yoe + 1) / 4 - (yoe + 1) / 100) - 1 := by
      by_contra hc
      obtain ⟨k, hk⟩ := Int.eq_ofNat_of_zero_le (show 0 ≤ yoe + 1 by omega)
      have he := (cal_year_ends k (by omega)).1
      rw [← hk] at he
      generalize hX : 365 * (yoe + 1) + (yoe + 1) / 4 - (yoe + 1) / 100 = X at he hc
      have hm := cal_mono X doe (by omega)
      rw [hG] at hm
      omega
    have h4 : ((yoe + 1) / 4 = yoe / 4 ∧ (yoe + 1) % 4 ≠ 0) ∨
        ((yoe + 1) / 4 = yoe / 4 + 1 ∧ (yoe + 1) % 4 = 0) := by omega
    have h100 : ((yoe + 1) / 100 = yoe / 100 ∧ (yoe + 1) % 100 ≠ 0) ∨
        ((yoe + 1) / 100 = yoe / 100 + 1 ∧ (yoe + 1) % 100 = 0) := by omega
    omega

theorem cal_month (doy mp : Int) (h0 : 0 ≤ doy) (h1 : doy ≤ 365)
    (hmp : (5 * doy + 2) / 153 = mp) :
    0 ≤ mp ∧ mp ≤ 11 ∧ 1 ≤ doy - (153 * mp + 2) / 5 + 1 ∧
    doy - (153 * mp + 2) / 5 + 1 ≤ 31 ∧
    ((mp = 1 ∨ mp = 3 ∨ mp = 6 ∨ mp = 8) → doy - (153 * mp + 2) / 5 + 1 ≤ 30) ∧
    (mp = 11 → doy - (153 * mp + 2) / 5 + 1 = doy - 336) ∧
    (306 ≤ doy → 10 ≤ mp) ∧ (doy ≤ 305 → mp ≤ 9) := by
  have hb : 0 ≤ mp ∧ mp ≤ 11 := by omega
  obtain ⟨hb0, hb1⟩ := hb
  interval_cases mp <;> omega

theorem cal_era (z era doe yoe doy : Int) (hz : -60 ≤ z) (hera : z / 146097 = era)
    (hdoe : z - era * 146097 = doe) (hy0 : 0 ≤ yoe) (hy1 : yoe ≤ 399)
    (hdoy : doe - (365 * yoe + yoe / 4 - yoe / 100) = doy) (hdoy0 : 0 ≤ doy)
    (hdoy1 : doy ≤ 365) :
    -1 ≤ era ∧ (era = -1 → yoe = 399 ∧ 306 ≤ doy) ∧
    (z < 3652365 → era ≤ 24 ∧ (era = 24 → yoe = 399 → doy ≤ 305)) := by
  refine ⟨by omega, fun he => ?_, fun hhi => ⟨by omega, fun he hy => ?_⟩⟩
  · have h1 : 146037 ≤ doe := by omega
    have h2 : yoe = 399 := by omega
    subst h2
    exact ⟨rfl, by omega⟩
  · subst hy
    omega

theorem daysIn_bound (y m d : Nat) (hgen : d ≤ 31)
    (h30 : (m = 4 ∨ m = 6 ∨ m = 9 ∨ m = 11) → d ≤ 30)
    (hfeb : m = 2 → d ≤ 28 ∨ (d ≤ 29 ∧ y % 4 = 0 ∧ (y % 100 ≠ 0 ∨ y % 400 = 0))) :
    d ≤ daysIn y m := by
  unfold daysIn
  split_ifs with h1 h2 h3
  · rcases hfeb h1 with h | h <;> omega
  · rcases hfeb h1 with h | h
    · exact h
    · exact absurd h.2 h2
  · exact h30 h3
  · exact hgen

theorem civilFromDays_spec (days : Int) (hlo : -719528 ≤ days) :
    1 ≤ (civilFromDays days).2.1 ∧ (civilFromDays days).2.1 ≤ 12 ∧
    1 ≤ (civilFromDays days).2.2 ∧
    (civilFromDays days).2.2 ≤ daysIn (civilFromDays days).1 (civilFromDays days).2.1 ∧
    daysFromCivil (civilFromDays days).1 (civilFromDays days).2.1 (civilFromDays days).2.2
      = days ∧
    (days < 2932897 → (civilFromDays days).1 < 10000) := by
  unfold civilFromDays
  simp only []
  generalize hz : days + 719468 = z
  generalize hera : z / 146097 = era
  generalize hdoe : z - era * 146097 = doe
  have hd0 : 0 ≤ doe := by omega
  have hd1 : doe ≤ 146096 := by omega
  generalize hyoe : (doe - doe / 1460 + doe / 36524 - doe / 146096) / 365 = yoe
  obtain ⟨hy0, hy1, hdoy0, hdoy1⟩ := cal_cycle doe yoe hd0 hd1 hyoe
  clear hyoe
  generalize hdoy : doe - (365 * yoe + yoe / 4 - yoe / 100) = doy at hdoy0 hdoy1
  have hdoy365 : doy ≤ 365 := by
    rcases hdoy1 with h | h <;> omega
  obtain ⟨he0, heneg, hehi⟩ := cal_era z era doe yoe doy (by omega) hera hdoe hy0 hy1 hdoy
    hdoy0 hdoy365
  generalize hmp : (5 * doy + 2) / 153 = mp
  obtain ⟨hmp0, hmp1, hq1, hq31, hq30, hq11, hq306, hq305⟩ :=
    cal_month doy mp hdoy0 hdoy365 hmp
  clear hmp
  generalize hq : (153 * mp + 2) / 5 = q at hq1 hq31 hq30 hq11
  generalize hN : 365 * yoe + yoe / 4 - yoe / 100 = N at hdoy
  generalize hm : (if mp < 10 then mp + 3 else mp - 9).toNat = m
  have hm' : (mp < 10 ∧ (m : Int) = mp + 3) ∨ (10 ≤ mp ∧ (m : Int) = mp - 9) := by
    clear hera hN hq
    split_ifs at hm <;> omega
  clear hm
  generalize hd : (doy - q + 1).toNat = d
  have hd' : (d : Int) = doy - q + 1 := by
    clear hera hN hq
    omega
  clear hd
  have hyneg : 0 ≤ yoe + era * 400 + (if m ≤ 2 then 1 else 0) := by
    clear hera hN hq
    by_cases he : era = -1
    · obtain ⟨h2, h3⟩ := heneg he
      have hm2 : m ≤ 2 := by
        have := hq306 h3
        omega
      rw [if_pos hm2]
      omega
    · split_ifs <;> omega
  generalize hy : (yoe + era * 400 + (if m ≤ 2 then 1 else 0)).toNat = y
  have hy' : (m ≤ 2 ∧ (y : Int) = yoe + era * 400 + 1) ∨
      (2 < m ∧ (y : Int) = yoe + era * 400) := by
    clear hera hN hq
    split_ifs at hy hyneg <;> omega
  clear hy hyneg
  have hm1 : 1 ≤ m := by clear hera hN hq; omega
  have hm12 : m ≤ 12 := by clear hera hN hq; omega
  refine ⟨hm1, hm12, by clear hera hN hq; omega, ?_, ?_, ?_⟩
  · apply daysIn_bound
    · clear hera hN hq; omega
    · intro h
      have := hq30 (by clear hera hN hq; omega)
      clear hera hN hq; omega
    · intro h
      have hmp11 : mp = 11 := by clear hera hN hq; omega
      have h1 := hq11 hmp11
      have hy1' : (y : Int) = yoe + era * 400 + 1 := by clear hera hN hq; omega
      rcases hdoy1 with h2 | ⟨h2, h3, h4⟩
      · left
        clear hera hN hq; omega
      · right
        clear hera hN hq
        omega
  · unfold daysFromCivil
    simp only []
    have hmp' : (((m + 9) % 12 : Nat) : Int) = mp := by clear hera hN hq; omega
    rw [hmp']
    have hy1' : (if m ≤ 2 then (y : Int) - 1 else (y : Int)) = yoe + era * 400 := by
      clear hera hN hq
      split_ifs <;> omega
    rw [hy1']
    have hera' : (yoe + era * 400) / 400 = era := by clear hera hN hq; omega
    rw [hera']
    have hyoe' : yoe + era * 400 - era * 400 = yoe := by clear hera hN hq; omega
    rw [hyoe', hq]
    have e : yoe * 365 + yoe / 4 - yoe / 100 = N := by rw [← hN]; ring
    rw [e]
    clear hera hN hq e
    omega
  · intro hhi
    obtain ⟨h24, h24'⟩ := hehi (by omega)
    clear hera hN hq
    by_cases he : era = 24
    · by_cases hy399 : yoe = 399
      · have := hq305 (h24' he hy399)
        omega
      · omega
    · omega

theorem digits_twoDigits (n : Nat) (h : n < 100) : digits (twoDigits n) = some n := by
  unfold twoDigits digits
  have h1 : 48 ≤ 48 + n / 10 % 10 ∧ 48 + n / 10 % 10 ≤ 57 := by omega
  have h2 : 48 ≤ 48 + n % 10 ∧ 48 + n % 10 ≤ 57 := by omega
  simp only [List.foldl, Option.bind, h1, h2, if_true, and_self]
  simp only [Option.some.injEq]
  omega

theorem digits_fourDigits (n : Nat) (h : n < 10000) : digits (fourDigits n) = some n := by
  unfold fourDigits digits
  have h1 : 48 ≤ 48 + n / 1000 % 10 ∧ 48 + n / 1000 % 10 ≤ 57 := by omega
  have h2 : 48 ≤ 48 + n / 100 % 10 ∧ 48 + n / 100 % 10 ≤ 57 := by omega
  have h3 : 48 ≤ 48 + n / 10 % 10 ∧ 48 + n / 10 % 10 ≤ 57 := by omega
  have h4 : 48 ≤ 48 + n % 10 ∧ 48 + n % 10 ≤ 57 := by omega
  simp only [List.foldl, Option.bind, h1, h2, h3, h4, if_true, and_self]
  simp only [Option.some.injEq]
  omega

theorem weekdayNames_spec : ∀ wd : Nat, wd < 7 →
    (weekdayNames.getD wd []).length = 3 ∧ isWeekday (weekdayNames.getD wd []) = true := by
  decide

theorem monthNames_spec : ∀ m : Nat, m < 13 → 1 ≤ m →
    (monthNames.getD (m - 1) []).length = 3 ∧
      monthIndex (monthNames.getD (m - 1) []) = some m := by
  decide

theorem ascii_comma_space : ascii ", " = [44, 32] := by decide
theorem ascii_gmt : ascii " GMT" = [32, 71, 77, 84] := by decide

theorem parseIMFFixdate_explicit (w0 w1 w2 d1 d0 m0 m1 m2 y3 y2 y1 y0 h1 h0 i1 i0 s1 s0 : Nat)
    (d m y hh mm ss : Nat)
    (hw : isWeekday [w0, w1, w2] = true)
    (hd : digits [d1, d0] = some d) (hm : monthIndex [m0, m1, m2] = some m)
    (hy : digits [y3, y2, y1, y0] = some y) (hh' : digits [h1, h0] = some hh)
    (hmm : digits [i1, i0] = some mm) (hss : digits [s1, s0] = some ss) :
    parseIMFFixdate [w0, w1, w2, 44, 32, d1, d0, 32, m0, m1, m2, 32, y3, y2, y1, y0, 32,
      h1, h0, 58, i1, i0, 58, s1, s0, 32, 71, 77, 84] =
    if d = 0 ∨ d > daysIn y m ∨ hh ≥ 24 ∨ mm ≥ 60 ∨ ss ≥ 60 then none
    else some ((daysFromCivil y m d * 86400 + hh * 3600 + mm * 60 + ss) * 1000000000) := by
  unfold parseIMFFixdate
  simp [ascii_comma_space, ascii_gmt, hw, hd, hm, hy, hh', hmm, hss]

theorem list_length_three (l : Bytes) (h : l.length = 3) : ∃ a b c, l = [a, b, c] := by
  match l, h with
  | [a, b, c], _ => exact ⟨a, b, c, rfl⟩

theorem parseIMFFixdate_formatIMFFixdate (t : Int) (hlo : -62167219200 * 1000000000 ≤ t)
    (hhi : t < 253402300800 * 1000000000) :
    parseIMFFixdate (formatIMFFixdate t) = some (t - t % Second) := by
  unfold formatIMFFixdate
  simp only []
  generalize hsecs : t / 1000000000 = secs
  generalize hdays : secs / 86400 = days
  have hdlo : -719528 ≤ days := by omega
  have hdhi : days < 2932897 := by omega
  obtain ⟨hm1, hm12, hd1, hdin, hciv, hy⟩ := civilFromDays_spec days hdlo
  have hy' := hy hdhi
  generalize (civilFromDays days).1 = y at hdin hciv hy'
  generalize (civilFromDays days).2.1 = m at hm1 hm12 hdin hciv
  generalize (civilFromDays days).2.2 = d at hd1 hdin hciv
  clear hy
  have hd31 : d < 100 := by
    have : daysIn y m ≤ 31 := by
      unfold daysIn
      split_ifs <;> omega
    omega
  generalize hrem : (secs % 86400).toNat = rem
  have hrem' : (rem : Int) = secs % 86400 := by omega
  have hremlt : rem < 86400 := by omega
  generalize hwd : ((days + 4) % 7).toNat = wd
  have hwdlt : wd < 7 := by omega
  obtain ⟨hwl, hwk⟩ := weekdayNames_spec wd hwdlt
  obtain ⟨w0, w1, w2, hW⟩ := list_length_three _ hwl
  obtain ⟨hml, hmk⟩ := monthNames_spec m (by omega) hm1
  obtain ⟨m0, m1, m2, hM⟩ := list_length_three _ hml
  rw [hW] at hwk
  rw [hM] at hmk
  rw [hW, hM]
  have hyd : yearDigits y = fourDigits y := by
    unfold yearDigits
    rw [if_pos hy']
  rw [hyd, ascii_comma_space, ascii_gmt]
  have e := parseIMFFixdate_explicit w0 w1 w2 (48 + d / 10 % 10) (48 + d % 10) m0 m1 m2
    (48 + y / 1000 % 10) (48 + y / 100 % 10) (48 + y / 10 % 10) (48 + y % 10)
    (48 + rem / 3600 / 10 % 10) (48 + rem / 3600 % 10)
    (48 + rem / 60 % 60 / 10 % 10) (48 + rem / 60 % 60 % 10)
    (48 + rem % 60 / 10 % 10) (48 + rem % 60 % 10)
    d m y (rem / 3600) (rem / 60 % 60) (rem % 60) hwk
    (digits_twoDigits d hd31) hmk (digits_fourDigits y hy')
    (digits_twoDigits _ (by omega)) (digits_twoDigits _ (by omega))
    (digits_twoDigits _ (by omega))
  have hshape : [w0, w1, w2] ++ [44, 32] ++ twoDigits d ++ [32] ++ [m0, m1, m2] ++ [32]
      ++ fourDigits y ++ [32] ++ twoDigits (rem / 3600) ++ [58] ++ twoDigits (rem / 60 % 60)
      ++ [58] ++ twoDigits (rem % 60) ++ [32, 71, 77, 84]
      = [w0, w1, w2, 44, 32, 48 + d / 10 % 10, 48 + d % 10, 32, m0, m1, m2, 32,
        48 + y / 1000 % 10, 48 + y / 100 % 10, 48 + y / 10 % 10, 48 + y % 10, 32,
        48 + rem / 3600 / 10 % 10, 48 + rem / 3600 % 10, 58,
        48 + rem / 60 % 60 / 10 % 10, 48 + rem / 60 % 60 % 10, 58,
        48 + rem % 60 / 10 % 10, 48 + rem % 60 % 10, 32, 71, 77, 84] := rfl
  rw [hshape, e, if_neg (by omega), hciv]
  simp only [Option.some.injEq]
  unfold Second
  omega

theorem formatIMFFixdate_ne_nil (t : Int) (hlo : -62167219200 * 1000000000 ≤ t)
    (hhi : t < 253402300800 * 1000000000) : formatIMFFixdate t ≠ [] := by
  intro h
  have h1 := parseIMFFixdate_formatIMFFixdate t hlo hhi
  have hnil : parseIMFFixdate [] = none := by decide
  rw [h, hnil] at h1
  cases h1

/-- A GET or HEAD request whose `If-Modified-Since` is the Last-Modified value
the handler emits, with no other conditional header, gets 304 Not Modified
whenever `http.ParseTime` reads that value back as the modification time
truncated to whole seconds. -/
theorem Handle_notModified_of_roundtrip (env : Env) (h : staticFileHandler) (ctx : RequestCtx)
    (f : File) (stat : FileInfo)
    (hres : resolvFile env h ctx.path = Outcome.ok (f, stat))
    (hz : isZeroTime stat.modTime = false)
    (hm : ctx.request.method = MethodGET ∨ ctx.request.method = MethodHEAD)
    (hims : ctx.request.header.Peek "If-Modified-Since"
      = (prepareResponse env h ctx f stat).header.Peek "Last-Modified")
    (him : ctx.request.header.Peek "If-Match" = [])
    (hius : ctx.request.header.Peek "If-Unmodified-Since" = [])
    (hinm : ctx.request.header.Peek "If-None-Match" = [])
    (hne : env.formatHTTPDate stat.modTime ≠ [])
    (hrt : env.parseTime (env.formatHTTPDate stat.modTime)
      = some (stat.modTime - stat.modTime % Second)) :
    ∃ w : Response, Handle env h ctx = Outcome.ok ⟨w, none⟩ ∧
      w.statusCode = 304 ∧ w.SkipBody = true := by
  rw [prepareResponse_lastModified env h ctx f stat hz] at hims
  have hpair : ¬ (checkIfMatch ctx.request (prepareResponse env h ctx f stat)
        = Run.ret condFalse ∨
      (checkIfMatch ctx.request (prepareResponse env h ctx f stat) = Run.ret condNone ∧
        checkIfUnmodifiedSince env.parseTime ctx.request stat.modTime = condFalse)) := by
    rw [checkIfMatch_absent _ _ him, checkIfUnmodifiedSince_absent _ _ _ hius]
    simp
  have hcond : checkIfModifiedSince env.parseTime ctx.request stat.modTime = condFalse := by
    rw [checkIfModifiedSince_eq_condFalse_iff]
    have hz' := (isZeroTime_eq_false_iff stat.modTime).mp hz
    refine ⟨hm, by rw [hims]; exact hne, hz'.1, hz'.2,
      stat.modTime - stat.modTime % Second, by rw [hims, hrt], ?_⟩
    have := Int.emod_lt_of_pos stat.modTime (show (0 : Int) < Second by decide)
    omega
  have key := checkPreconditions_second_pair env.parseTime ctx.request
    (prepareResponse env h ctx f stat) stat.modTime f.hash condNone hpair
    (checkIfNoneMatch_absent _ _ _ hinm)
  simp only [] at key
  rw [if_pos hcond] at key
  exact ⟨_, Handle_intercepted env h ctx f stat _ hres key, rfl, rfl⟩

/-- C16, as stated, fails: for a resource modified at 10000-01-01T00:00:00Z the
handler emits a Last-Modified date with a five-digit year, the parser does not
read that date, and a GET that echoes it in `If-Modified-Since` is served with
200, not 304. -/
theorem Handle_ifModifiedSince_year10000_counterexample :
    isZeroTime (253402300800 * 1000000000) = false ∧
    formatIMFFixdate (253402300800 * 1000000000) = ascii "Sat, 01 Jan 10000 00:00:00 GMT" ∧
    parseIMFFixdate (ascii "Sat, 01 Jan 10000 00:00:00 GMT") = none ∧
    Handle
      (sampleEnv ⟨ascii "a.bin", StatResult.ok ⟨3, 253402300800 * 1000000000, false⟩, [],
        ascii "xyz", false⟩)
      ⟨ascii "/static", 1700000000, true⟩
      ⟨⟨ascii "GET", [("If-Modified-Since", ascii "Sat, 01 Jan 10000 00:00:00 GMT")]⟩,
        ascii "/static/a.bin", [], [], ⟨[], 200, false⟩⟩
      = Outcome.ok ⟨⟨[("Last-Modified", ascii "Sat, 01 Jan 10000 00:00:00 GMT"),
          ("Vary", ascii "User-Agent")], 200, false⟩, some 3⟩ := by
  decide

/-- C16: for every modification time `m` of the years 0 to 9999 that is
neither the zero time nor the Unix epoch, with any sub-second part, where the
date is written and read in the layout `Mon, 02 Jan 2006 15:04:05 GMT`: a GET
or HEAD request whose `If-Modified-Since` is the Last-Modified value the
handler emits for `m`, with no other conditional header, gets 304 Not
Modified; that value is read back as `m` truncated to whole seconds. -/
theorem Handle_ifModifiedSince_echo (env : Env) (h : staticFileHandler) (ctx : RequestCtx)
    (f : File) (stat : FileInfo)
    (hres : resolvFile env h ctx.path = Outcome.ok (f, stat))
    (hz : isZeroTime stat.modTime = false)
    (hlo : -62167219200 * 1000000000 ≤ stat.modTime)
    (hhi : stat.modTime < 253402300800 * 1000000000)
    (hfmt : env.formatHTTPDate stat.modTime = formatIMFFixdate stat.modTime)
    (hparse : env.parseTime (formatIMFFixdate stat.modTime)
      = parseIMFFixdate (formatIMFFixdate stat.modTime))
    (hm : ctx.request.method = MethodGET ∨ ctx.request.method = MethodHEAD)
    (hims : ctx.request.header.Peek "If-Modified-Since"
      = (prepareResponse env h ctx f stat).header.Peek "Last-Modified")
    (him : ctx.request.header.Peek "If-Match" = [])
    (hius : ctx.request.header.Peek "If-Unmodified-Since" = [])
    (hinm : ctx.request.header.Peek "If-None-Match" = []) :
    ctx.request.header.Peek "If-Modified-Since" = formatIMFFixdate stat.modTime ∧
    parseIMFFixdate (formatIMFFixdate stat.modTime)
      = some (stat.modTime - stat.modTime % Second) ∧
    ∃ w : Response, Handle env h ctx = Outcome.ok ⟨w, none⟩ ∧
      w.statusCode = 304 ∧ w.SkipBody = true := by
  have hrt := parseIMFFixdate_formatIMFFixdate stat.modTime hlo hhi
  refine ⟨?_, hrt, ?_⟩
  · rw [hims, prepareResponse_lastModified env h ctx f stat hz, hfmt]
  · exact Handle_notModified_of_roundtrip env h ctx f stat hres hz hm hims him hius hinm
      (by rw [hfmt]; exact formatIMFFixdate_ne_nil stat.modTime hlo hhi)
      (by rw [hfmt, hparse, hrt])

/-- C16 at a concrete resource: modified half a second after
2024-01-01T00:00:00Z, requested with the date the handler emits for it. -/
theorem Handle_ifModifiedSince_echo_witness :
    ∃ w : Response,
      Handle
        (sampleEnv ⟨ascii "a.bin", StatResult.ok ⟨3, 1704067200500000000, false⟩, [],
          ascii "xyz", false⟩)
        ⟨ascii "/static", 1700000000, false⟩
        ⟨⟨ascii "HEAD", [("If-Modified-Since", ascii "Mon, 01 Jan 2024 00:00:00 GMT")]⟩,
          ascii "/static/a.bin", [], [], ⟨[], 200, false⟩⟩
        = Outcome.ok ⟨w, none⟩ ∧
      w.statusCode = 304 ∧ w.SkipBody = true :=
  (Handle_ifModifiedSince_echo
    (sampleEnv ⟨ascii "a.bin", StatResult.ok ⟨3, 1704067200500000000, false⟩, [],
      ascii "xyz", false⟩)
    ⟨ascii "/static", 1700000000, false⟩
    ⟨⟨ascii "HEAD", [("If-Modified-Since", ascii "Mon, 01 Jan 2024 00:00:00 GMT")]⟩,
      ascii "/static/a.bin", [], [], ⟨[], 200, false⟩⟩
    ⟨ascii "a.bin", StatResult.ok ⟨3, 1704067200500000000, false⟩, [], ascii "xyz", false⟩
    ⟨3, 1704067200500000000, false⟩
    (by decide) (by decide) (by decide) (by decide) rfl rfl (Or.inr (by decide)) (by decide)
    (by decide) (by decide) (by decide)).2.2

/-- C17, as stated, fails: for a resource of size 0 with the hash `"h"`, a GET
that echoes the hash in `If-None-Match` gets 304 and a PUT whose `If-Match`
names another tag gets 412, not 204. -/
theorem Handle_empty_file_counterexample :
    servedStatus (Handle
      (sampleEnv ⟨ascii "a.bin", StatResult.ok ⟨0, 1704067200000000000, false⟩, ascii "\"h\"",
        [], false⟩)
      ⟨ascii "/static", 1700000000, false⟩
      ⟨⟨ascii "GET", [("If-None-Match", ascii "\"h\"")]⟩, ascii "/static/a.bin", [], [],
        ⟨[], 200, false⟩⟩) = 304 ∧
    servedStatus (Handle
      (sampleEnv ⟨ascii "a.bin", StatResult.ok ⟨0, 1704067200000000000, false⟩, ascii "\"h\"",
        [], false⟩)
      ⟨ascii "/static", 1700000000, false⟩
      ⟨⟨ascii "PUT", [("If-Match", ascii "\"other\"")]⟩, ascii "/static/a.bin", [], [],
        ⟨[], 200, false⟩⟩) = 412 := by
  decide

/-- C17, amended: for every resolvable non-directory resource of size 0 and
every request, the handler responds 204 No Content with no body when
`checkPreconditions` does not intercept and the content type is resolved
without a panic; when `checkPreconditions` intercepts, the response is its 304
or 412, also without a body stream. -/
theorem Handle_empty_file (env : Env) (h : staticFileHandler) (ctx : RequestCtx) (f : File)
    (stat : FileInfo) (hres : resolvFile env h ctx.path = Outcome.ok (f, stat))
    (hsize : stat.size = 0) :
    (∀ (w : Response) (hdr : Header),
      checkPreconditions env.parseTime ctx.request (prepareResponse env h ctx f stat)
        stat.modTime f.hash = Run.ret (false, w) →
      resolvContentType env f.name w.header f = Outcome.ok hdr →
      Handle env h ctx = Outcome.ok ⟨⟨hdr, 204, true⟩, none⟩) ∧
    (∀ w : Response,
      checkPreconditions env.parseTime ctx.request (prepareResponse env h ctx f stat)
        stat.modTime f.hash = Run.ret (true, w) →
      Handle env h ctx = Outcome.ok ⟨w, none⟩ ∧ (w.statusCode = 304 ∨ w.statusCode = 412)) := by
  refine ⟨fun w hdr hpre hct => ?_, fun w hpre => ⟨Handle_intercepted env h ctx f stat w hres hpre, ?_⟩⟩
  · rw [Handle_not_intercepted env h ctx f stat w hres hpre]
    unfold serveBody
    rw [hct]
    simp only [hsize, le_refl, if_true]
    rfl
  · rcases checkPreconditions_cases env.parseTime ctx.request (prepareResponse env h ctx f stat)
      stat.modTime f.hash with hc | hc | hc | hc | hc
    · rw [hc] at hpre
      cases hpre
    · rw [hc] at hpre
      cases hpre
    · rw [hc] at hpre
      simp only [Run.ret.injEq, Prod.mk.injEq, true_and] at hpre
      rw [← hpre]
      exact Or.inr rfl
    · rw [hc] at hpre
      simp only [Run.ret.injEq, Prod.mk.injEq, true_and] at hpre
      rw [← hpre]
      exact Or.inl rfl
    · rw [hc] at hpre
      simp at hpre

/-- C17 at a concrete resource: an empty file requested without conditions. -/
theorem Handle_empty_file_witness :
    Handle
      (sampleEnv ⟨ascii "a.bin", StatResult.ok ⟨0, 0, false⟩, [], [], false⟩)
      ⟨ascii "/static", 1700000000, true⟩
      ⟨⟨ascii "GET", []⟩, ascii "/static/a.bin", [], [], ⟨[], 200, false⟩⟩
      = Outcome.ok ⟨⟨[("Vary", ascii "User-Agent")], 204, true⟩, none⟩ :=
  (Handle_empty_file
    (sampleEnv ⟨ascii "a.bin", StatResult.ok ⟨0, 0, false⟩, [], [], false⟩)
    ⟨ascii "/static", 1700000000, true⟩
    ⟨⟨ascii "GET", []⟩, ascii "/static/a.bin", [], [], ⟨[], 200, false⟩⟩
    ⟨ascii "a.bin", StatResult.ok ⟨0, 0, false⟩, [], [], false⟩ ⟨0, 0, false⟩
    (by decide) (by decide)).1
    ⟨[("Vary", ascii "User-Agent")], 200, false⟩
    [("Vary", ascii "User-Agent")]
    (by decide) (by decide)

/-- C18: when the preconditions do not intercept the response (and the content
type is resolved), the handler ends as follows: a size of 0 or less gives 204
No Content with no body, whatever the method; a positive size with the method
HEAD gives 200 OK with no body; a positive size with any other method gives
200 OK with a body stream of exactly `size` bytes. -/
theorem Handle_final_step (env : Env) (h : staticFileHandler) (ctx : RequestCtx) (f : File)
    (stat : FileInfo) (w : Response) (hdr : Header)
    (hres : resolvFile env h ctx.path = Outcome.ok (f, stat))
    (hpre : checkPreconditions env.parseTime ctx.request (prepareResponse env h ctx f stat)
      stat.modTime f.hash = Run.ret (false, w))
    (hct : resolvContentType env f.name w.header f = Outcome.ok hdr) :
    (stat.size ≤ 0 → Handle env h ctx = Outcome.ok ⟨⟨hdr, 204, true⟩, none⟩) ∧
    (0 < stat.size → ctx.request.method = MethodHEAD →
      Handle env h ctx = Outcome.ok ⟨⟨hdr, 200, true⟩, none⟩) ∧
    (0 < stat.size → ctx.request.method ≠ MethodHEAD →
      Handle env h ctx = Outcome.ok ⟨⟨hdr, 200, w.SkipBody⟩, some stat.size⟩) := by
  rw [Handle_not_intercepted env h ctx f stat w hres hpre]
  unfold serveBody
  rw [hct]
  refine ⟨fun hs => ?_, fun hs hm => ?_, fun hs hm => ?_⟩
  · simp only [hs, if_true]
    rfl
  · have hs' : ¬ stat.size ≤ 0 := not_le.mpr hs
    simp only [hs', if_false, hm, ConstantTimeCompare, if_true, beq_self_eq_true]
    rfl
  · have hs' : ¬ stat.size ≤ 0 := not_le.mpr hs
    have hc : ConstantTimeCompare ctx.request.method MethodHEAD = 0 := by
      unfold ConstantTimeCompare
      rw [if_neg hm]
    simp only [hs', if_false, hc]
    rfl

/-- C18 at a concrete resource: a GET of a three-byte file streams three
bytes. -/
theorem Handle_final_step_witness :
    Handle
      (sampleEnv ⟨ascii "a.bin", StatResult.ok ⟨3, 0, false⟩, [], ascii "xyz", false⟩)
      ⟨ascii "/static", 1700000000, true⟩
      ⟨⟨ascii "GET", []⟩, ascii "/static/a.bin", [], [], ⟨[], 200, false⟩⟩
      = Outcome.ok ⟨⟨[("Vary", ascii "User-Agent")], 200, false⟩, some 3⟩ :=
  (Handle_final_step
    (sampleEnv ⟨ascii "a.bin", StatResult.ok ⟨3, 0, false⟩, [], ascii "xyz", false⟩)
    ⟨ascii "/static", 1700000000, true⟩
    ⟨⟨ascii "GET", []⟩, ascii "/static/a.bin", [], [], ⟨[], 200, false⟩⟩
    ⟨ascii "a.bin", StatResult.ok ⟨3, 0, false⟩, [], ascii "xyz", false⟩ ⟨3, 0, false⟩
    ⟨[("Vary", ascii "User-Agent")], 200, false⟩
    [("Vary", ascii "User-Agent")]
    (by decide) (by decide) (by decide)).2.2 (by decide) (by decide)

/-! ## Handled errors -/

theorem ofStep (h k : Int) (rest : Int × Bool) (l : List Int)
    (hrest : rest = if h ∈ l then (h, true) else (HandledErrorInternalServerError, false)) :
    (if h = k then (k, true) else rest)
      = if h ∈ k :: l then (h, true) else (HandledErrorInternalServerError, false) := by
  by_cases hk : h = k
  · simp [hk]
  · rw [if_neg hk, hrest]
    simp [hk]

theorem mem_predefinedHandledErrors (h : Int) :
    h ∈ predefinedHandledErrors ↔
      h ∈ [HandledErrorBadRequest, HandledErrorUnauthorized, HandledErrorForbidden,
        HandledErrorNotFound, HandledErrorMethodNotAllowed, HandledErrorNotAcceptable,
        HandledErrorRequestTimeout, HandledErrorGone, HandledErrorTooManyRequests,
        HandledErrorNotImplemented, HandledErrorBadGateway, HandledErrorServiceUnavailable,
        HandledErrorGatewayTimeout, HandledErrorInternalServerError] := by
  simp only [predefinedHandledErrors, List.mem_cons, List.mem_singleton, List.not_mem_nil,
    or_false]
  tauto

theorem HandledErrorOf_handledError (h : Int) :
    HandledErrorOf (PanicObj.handledError h)
      = if h ∈ predefinedHandledErrors then (h, true)
        else (HandledErrorInternalServerError, false) := by
  have key : HandledErrorOf (PanicObj.handledError h)
      = if h ∈ [HandledErrorBadRequest, HandledErrorUnauthorized, HandledErrorForbidden,
        HandledErrorNotFound, HandledErrorMethodNotAllowed, HandledErrorNotAcceptable,
        HandledErrorRequestTimeout, HandledErrorGone, HandledErrorTooManyRequests,
        HandledErrorNotImplemented, HandledErrorBadGateway, HandledErrorServiceUnavailable,
        HandledErrorGatewayTimeout, HandledErrorInternalServerError] then (h, true)
        else (HandledErrorInternalServerError, false) := by
    unfold HandledErrorOf
    simp only []
    repeat apply ofStep
    simp
  rw [key]
  by_cases hm : h ∈ predefinedHandledErrors
  · rw [if_pos hm, if_pos ((mem_predefinedHandledErrors h).mp hm)]
  · rw [if_neg hm, if_neg (fun hc => hm ((mem_predefinedHandledErrors h).mpr hc))]

/-- C26 at its failing inputs: `HandledErrorCodeOf` does not recognise the
status codes of `HandledErrorRequestTimeout` (408) and
`HandledErrorTooManyRequests` (429), which `HandledErrorOf` recognises; the
other twelve constants are inverted. -/
theorem HandledErrorCodeOf_misses_408_429 :
    HandledErrorCodeOf (StatusCode HandledErrorRequestTimeout)
      = (HandledErrorInternalServerError, false) ∧
    HandledErrorOf (PanicObj.handledError HandledErrorRequestTimeout)
      = (HandledErrorRequestTimeout, true) ∧
    HandledErrorCodeOf (StatusCode HandledErrorTooManyRequests)
      = (HandledErrorInternalServerError, false) ∧
    HandledErrorOf (PanicObj.handledError HandledErrorTooManyRequests)
      = (HandledErrorTooManyRequests, true) ∧
    predefinedHandledErrors.filter
      (fun h => HandledErrorCodeOf (StatusCode h) != (h, true)) = [408, 429] ∧
    predefinedHandledErrors.filter
      (fun h => HandledErrorOf (PanicObj.handledError h) != (h, true)) = [] := by
  decide

/-- C27: `WrapHandledError` classifies every panic value: a predefined
`HandledError` `h` gives `(h, nil)`, any other error value `e` gives
`(HandledErrorInternalServerError, e)`, and a value that is not an error gives
`(HandledErrorInternalServerError, nil)`; the handler returned is always one
of the predefined `HandledError`s, and it is 500 for every value that is not a
predefined `HandledError`. -/
theorem WrapHandledError_spec (p : PanicObj) :
    (∀ h ∈ predefinedHandledErrors, p = PanicObj.handledError h →
      WrapHandledError p = (h, none)) ∧
    (p.isError = true → (¬ ∃ h ∈ predefinedHandledErrors, p = PanicObj.handledError h) →
      WrapHandledError p = (HandledErrorInternalServerError, some p)) ∧
    (p.isError = false → WrapHandledError p = (HandledErrorInternalServerError, none)) ∧
    (WrapHandledError p).1 ∈ predefinedHandledErrors ∧
    ((¬ ∃ h ∈ predefinedHandledErrors, p = PanicObj.handledError h) →
      StatusCode (WrapHandledError p).1 = 500) := by
  have hpre : ∀ h ∈ predefinedHandledErrors,
      WrapHandledError (PanicObj.handledError h) = (h, none) := by
    intro h hm
    unfold WrapHandledError
    simp only [PanicObj.isError, if_true, HandledErrorOf_handledError, if_pos hm]
  have hother : p.isError = true →
      (¬ ∃ h ∈ predefinedHandledErrors, p = PanicObj.handledError h) →
      WrapHandledError p = (HandledErrorInternalServerError, some p) := by
    intro he hn
    unfold WrapHandledError
    rw [if_pos he]
    cases p with
    | handledError h =>
      have hm : h ∉ predefinedHandledErrors := fun hm => hn ⟨h, hm, rfl⟩
      simp only [HandledErrorOf_handledError, if_neg hm]
      rfl
    | runtimeError => rfl
    | otherError e => rfl
    | intValue v => cases he
    | stringValue s => cases he
  have hnon : p.isError = false → WrapHandledError p = (HandledErrorInternalServerError, none) := by
    intro he
    unfold WrapHandledError
    rw [he]
    rfl
  have h500 : HandledErrorInternalServerError ∈ predefinedHandledErrors := by decide
  refine ⟨fun h hm hp => by rw [hp]; exact hpre h hm, hother, hnon, ?_, fun hn => ?_⟩
  · by_cases hex : ∃ h ∈ predefinedHandledErrors, p = PanicObj.handledError h
    · obtain ⟨h, hm, hp⟩ := hex
      rw [hp, hpre h hm]
      exact hm
    · by_cases he : p.isError = true
      · rw [hother he hex]
        exact h500
      · rw [hnon (by simpa using he)]
        exact h500
  · by_cases he : p.isError = true
    · rw [hother he hn]
      rfl
    · rw [hnon (by simpa using he)]
      rfl

/-- C27 at concrete panic values: `HandledErrorNotFound`, and a run-time
error. -/
theorem WrapHandledError_spec_witness :
    WrapHandledError (PanicObj.handledError 404) = (404, none) ∧
    WrapHandledError PanicObj.runtimeError
      = (HandledErrorInternalServerError, some PanicObj.runtimeError) :=
  ⟨(WrapHandledError_spec (PanicObj.handledError 404)).1 404 (by decide) rfl,
   (WrapHandledError_spec PanicObj.runtimeError).2.1 rfl (by simp)⟩

theorem Header.ContentType_eq_nil (header : Header) (hct : header.Peek "Content-Type" = []) :
    header.ContentType true = [] := by
  unfold Header.ContentType
  simp [hct]

/-- With fasthttp's default content type, `ContentType()` is never empty and
`resolvContentType` returns at its first test. -/
theorem resolvContentType_default (env : Env) (name : Bytes) (header : Header) (file : File)
    (hnd : env.noDefaultContentType = false) :
    resolvContentType env name header file = Outcome.ok header := by
  unfold resolvContentType Header.ContentType
  rw [hnd]
  by_cases hs : (header.Peek "Content-Type").length = 0
  · have h0 : header.Peek "Content-Type" = [] := List.length_eq_zero.mp hs
    simp only [h0]
    rfl
  · have hpos : (header.Peek "Content-Type").length > 0 := Nat.pos_of_ne_zero hs
    simp [hs, hpos]

/-- C22: when `resolvContentType` gets as far as sniffing (the response header
runs without fasthttp's default content type, no Content-Type is stored and
the extension gives none), the sniffing `Read` delivers at least one byte and
the `Seek` back to the start fails, then `resolvContentType` panics with the
value 500 and sets no Content-Type; `Handle` passes that panic on when the
preconditions did not intercept; `WrapHandledError` maps the value to
`HandledErrorInternalServerError` with a nil error, whose status code is 500;
and `handlePanic` leaves the response with the status 500 and, for an API
request, with the content type `application/json`. -/
theorem resolvContentType_seek_failure (env : Env) (name : Bytes) (header : Header)
    (file : File)
    (hnd : env.noDefaultContentType = true)
    (hct : header.Peek "Content-Type" = []) (hext : env.typeByExtension name = [])
    (hread : file.readBytes.length > 0) (hseek : file.seekFails = true) :
    resolvContentType env name header file = Outcome.raised (PanicObj.intValue 500) ∧
    WrapHandledError (PanicObj.intValue 500) = (HandledErrorInternalServerError, none) ∧
    StatusCode (WrapHandledError (PanicObj.intValue 500)).1 = 500 ∧
    (∀ (h : staticFileHandler) (ctx : RequestCtx) (stat : FileInfo) (w : Response),
      resolvFile env h ctx.path = Outcome.ok (file, stat) →
      checkPreconditions env.parseTime ctx.request (prepareResponse env h ctx file stat)
        stat.modTime file.hash = Run.ret (false, w) →
      w.header = header → file.name = name →
      Handle env h ctx = Outcome.raised (PanicObj.intValue 500)) ∧
    (∀ (apiUrlPrefix requestURI : Bytes) (templateRenderer : Response → Response)
        (w : Response),
      (handlePanic env.noDefaultContentType apiUrlPrefix requestURI templateRenderer
        (some (PanicObj.intValue 500)) w).statusCode = 500) ∧
    (∀ (apiUrlPrefix requestURI : Bytes) (templateRenderer : Response → Response)
        (w : Response), w.header = header → HasPrefix requestURI apiUrlPrefix = true →
      (handlePanic env.noDefaultContentType apiUrlPrefix requestURI templateRenderer
        (some (PanicObj.intValue 500)) w).header = header.Set "Content-Type" JsonContentType) := by
  have key : resolvContentType env name header file
      = Outcome.raised (PanicObj.intValue 500) := by
    unfold resolvContentType
    rw [hnd, Header.ContentType_eq_nil header hct]
    simp only [hext, List.length_nil, gt_iff_lt, lt_self_iff_false, if_false, hread,
      hseek, if_true]
  refine ⟨key, rfl, rfl, fun h ctx stat w hres hpre hw hn => ?_, ?_, ?_⟩
  · rw [Handle_not_intercepted env h ctx file stat w hres hpre]
    unfold serveBody
    rw [hw, hn, key]
  · intro apiUrlPrefix requestURI templateRenderer w
    unfold handlePanic
    simp only []
    split <;> rfl
  · intro apiUrlPrefix requestURI templateRenderer w hw hapi
    unfold handlePanic
    simp only [hapi, if_true]
    unfold RenderAPI
    rw [hnd, hw, Header.ContentType_eq_nil header hct]
    rfl

/-- C22 at a concrete file of a server that runs with `NoDefaultContentType`:
three bytes are read and the stream cannot seek; the panic handler answers
500. -/
theorem resolvContentType_seek_failure_witness :
    resolvContentType
      (sampleEnvNoDefault ⟨ascii "a", StatResult.ok ⟨3, 0, false⟩, [], ascii "xyz", true⟩)
      (ascii "a") [("Vary", ascii "User-Agent")]
      ⟨ascii "a", StatResult.ok ⟨3, 0, false⟩, [], ascii "xyz", true⟩
      = Outcome.raised (PanicObj.intValue 500) ∧
    Handle
      (sampleEnvNoDefault ⟨ascii "a", StatResult.ok ⟨3, 0, false⟩, [], ascii "xyz", true⟩)
      ⟨ascii "/static", 1700000000, true⟩
      ⟨⟨ascii "GET", []⟩, ascii "/static/a", [], [], ⟨[], 200, false⟩⟩
      = Outcome.raised (PanicObj.intValue 500) ∧
    handlePanic true (ascii "/api") (ascii "/static/a") (fun w => w)
      (some (PanicObj.intValue 500)) ⟨[("Vary", ascii "User-Agent")], 200, false⟩
      = ⟨[("Content-Type", ascii "text/html; charset=utf-8"), ("Vary", ascii "User-Agent")],
          500, false⟩ :=
  ⟨(resolvContentType_seek_failure
      (sampleEnvNoDefault ⟨ascii "a", StatResult.ok ⟨3, 0, false⟩, [], ascii "xyz", true⟩)
      (ascii "a") [("Vary", ascii "User-Agent")]
      ⟨ascii "a", StatResult.ok ⟨3, 0, false⟩, [], ascii "xyz", true⟩
      (by decide) (by decide) (by decide) (by decide) (by decide)).1,
   by decide, by decide⟩

/-! ## `ApplyMiddlware` -/

theorem applyMiddlewareLoop_eq {α : Type} (middlewares : List (α → α)) (k : Nat)
    (hk : k ≤ middlewares.length) (handler : α) :
    applyMiddlewareLoop middlewares k handler
      = (middlewares.take k).foldr (fun m acc => m acc) handler := by
  induction k generalizing handler with
  | zero => rfl
  | succ i ih =>
    have hi : i < middlewares.length := hk
    have hget : middlewares.get? i = some (middlewares.get ⟨i, hi⟩) := List.get?_eq_get hi
    have hget' : middlewares[i]? = some (middlewares.get ⟨i, hi⟩) := by
      rw [← List.get?_eq_getElem?]
      exact hget
    rw [applyMiddlewareLoop, hget]
    simp only []
    rw [ih (Nat.le_of_lt hi), List.take_succ, hget', Option.toList, List.foldr_append]
    rfl

/-- C30: `ApplyMiddlware(h, m1, ..., mn)` is `m1(m2(...(mn(h))...))`, the
right fold of application over the list, so the first middleware listed is the
outermost; with an empty list the result is `h` itself. -/
theorem ApplyMiddlware_eq_foldr {α : Type} (h : α) (middlewares : List (α → α)) :
    ApplyMiddlware h middlewares = middlewares.foldr (fun m acc => m acc) h ∧
    ApplyMiddlware h [] = h ∧
    (∀ m1 m2 m3 : α → α, ApplyMiddlware h [m1, m2, m3] = m1 (m2 (m3 h))) ∧
    (∀ (m1 : α → α) (rest : List (α → α)),
      ApplyMiddlware h (m1 :: rest) = m1 (ApplyMiddlware h rest)) := by
  have key : ∀ ms : List (α → α), ApplyMiddlware h ms = ms.foldr (fun m acc => m acc) h := by
    intro ms
    unfold ApplyMiddlware
    rw [applyMiddlewareLoop_eq ms ms.length (Nat.le_refl _), List.take_length]
  refine ⟨key middlewares, rfl, fun m1 m2 m3 => rfl, fun m1 rest => ?_⟩
  rw [key, key, List.foldr_cons]

/-! ## The CSRF token -/

theorem zipWith_xor_cancel (data key : Bytes) (hlen : data.length = key.length) :
    List.zipWith (fun d k => d ^^^ k) (List.zipWith (fun d k => d ^^^ k) data key) key
      = data := by
  induction data generalizing key with
  | nil => rfl
  | cons d ds ih =>
    match key, hlen with
    | k :: ks, hlen =>
      simp only [List.length_cons, Nat.add_right_cancel_iff] at hlen
      simp only [List.zipWith_cons_cons, Nat.xor_cancel_right, ih ks hlen]

/-- C28: for all byte slices `data` and `key` of equal length, `csrfOneTimePad`
replaces each `data[i]` by `data[i] XOR key[i]`, and applying it again with the
same key restores `data`; it panics if and only if the two lengths differ. -/
theorem csrfOneTimePad_spec (data key : Bytes) :
    (data.length = key.length →
      ∃ masked, csrfOneTimePad data key = Run.ret masked ∧
        masked.length = data.length ∧
        (∀ i d k, data.get? i = some d → key.get? i = some k →
          masked.get? i = some (d ^^^ k)) ∧
        csrfOneTimePad masked key = Run.ret data) ∧
    (csrfOneTimePad data key = Run.panic ↔ data.length ≠ key.length) := by
  constructor
  · intro hlen
    have h1 : csrfOneTimePad data key
        = Run.ret (List.zipWith (fun d k => d ^^^ k) data key) := by
      unfold csrfOneTimePad
      rw [if_neg (not_not.mpr hlen)]
    have hl : (List.zipWith (fun d k => d ^^^ k) data key).length = data.length := by
      rw [List.length_zipWith, hlen, Nat.min_self]
    refine ⟨_, h1, hl, fun i d k hd hk => ?_, ?_⟩
    · rw [List.get?_eq_getElem?] at hd hk ⊢
      rw [List.getElem?_zipWith, hd, hk]
    · unfold csrfOneTimePad
      rw [if_neg (not_not.mpr (hl.trans hlen)), zipWith_xor_cancel data key hlen]
  · unfold csrfOneTimePad
    by_cases hlen : data.length = key.length
    · rw [if_neg (not_not.mpr hlen)]
      constructor
      · intro hc
        cases hc
      · intro hc
        exact absurd hlen hc
    · rw [if_pos hlen]
      exact ⟨fun _ => hlen, fun _ => rfl⟩

/-- C28 at concrete slices: masking `[1, 2, 3]` with `[7, 7, 7]`. -/
theorem csrfOneTimePad_spec_witness :
    ∃ masked, csrfOneTimePad [1, 2, 3] [7, 7, 7] = Run.ret masked ∧
      masked.length = [1, 2, 3].length ∧
      (∀ i d k, [1, 2, 3].get? i = some d → [7, 7, 7].get? i = some k →
        masked.get? i = some (d ^^^ k)) ∧
      csrfOneTimePad masked [7, 7, 7] = Run.ret [1, 2, 3] :=
  (csrfOneTimePad_spec [1, 2, 3] [7, 7, 7]).1 (by decide)

theorem tokenDeserializer_eq_nil (data : Bytes) (unmask : Bool) :
    tokenDeserializer data unmask = Run.ret [] := by
  unfold tokenDeserializer
  have h : DecodedLen data.length ≠ csrfTokenLength * 2 := by
    unfold DecodedLen csrfTokenLength
    omega
  simp only []
  rw [if_pos h]

/-- C23 at its failing input: the token of 32 bytes 7, masked with the pad
`0, 1, ..., 31`, is serialized to 88 base64 characters, whose `DecodedLen` is
66 and not 64, so `tokenDeserializer` returns nothing instead of the token. -/
theorem tokenDeserializer_rejects_serialized :
    ∃ s, tokenSerializer (List.range 32) (List.replicate 32 7) true = Run.ret s ∧
      s.length = 88 ∧ DecodedLen s.length = 66 ∧
      Decode s = some (List.range 32 ++ List.zipWith (fun d k => d ^^^ k)
        (List.replicate 32 7) (List.range 32)) ∧
      tokenDeserializer s true = Run.ret [] ∧
      tokenDeserializer s true ≠ Run.ret (List.replicate 32 7) :=
  ⟨EncodeToString (List.range 32 ++ List.zipWith (fun d k => d ^^^ k)
      (List.replicate 32 7) (List.range 32)),
    by decide, by decide, by decide, by decide, by decide, by decide⟩

/-! ## The reverse router -/

/-- C24 at its failing input: the registry holds the route `api.users`; `AddGr`
of the URL name `users` in the group `api` has the same route name, yet it
returns no error and replaces the registered fragment, because `addInternal`
looks the bare URL name `users` up. -/
theorem AddGr_overwrites_registered :
    joinWith (ascii ".") ([ascii "api"] ++ [ascii "users"]) = ascii "api.users" ∧
    reverseRouter.lookup [(ascii "api.users", ⟨ascii "/api/users", []⟩)] (ascii "api.users")
      = some ⟨ascii "/api/users", []⟩ ∧
    (AddGr [(ascii "api.users", ⟨ascii "/api/users", []⟩)] (ascii "users") (ascii "/v2/users")
      [ascii "api"] [ascii "/api"] []).2 = (ascii "/api/v2/users", none) ∧
    reverseRouter.lookup
      (AddGr [(ascii "api.users", ⟨ascii "/api/users", []⟩)] (ascii "users") (ascii "/v2/users")
        [ascii "api"] [ascii "/api"] []).1 (ascii "api.users")
      = some ⟨ascii "/api/v2/users", []⟩ := by
  decide

/-- C25 at its failing input: in the empty registry the URL name `missing` is
not registered, and with the empty parameter list `ReverseWithParams` and
`Reverse` return the empty URL without an error, and `Get`, `MustReverse` and
`MustReverseWithParams` return it without a panic; with one parameter they
fail. -/
theorem Get_unregistered_no_params :
    reverseRouter.lookup [] (ascii "missing") = none ∧
    ReverseWithParams [] (ascii "missing") [] = ([], none) ∧
    Reverse [] (ascii "missing") [] = ([], none) ∧
    Get [] (ascii "missing") [] = Run.ret [] ∧
    MustReverse [] (ascii "missing") [] = Run.ret [] ∧
    MustReverseWithParams [] (ascii "missing") [] = Run.ret [] ∧
    Get [] (ascii "missing") [ascii "1"] = Run.panic ∧
    (ReverseWithParams [] (ascii "missing") [ascii "1"]).2 ≠ none := by
  decide

/-! ## The file during `Handle` -/

theorem resolvFileT_fst (env : Env) (h : staticFileHandler) (pathData : Bytes) :
    (resolvFileT env h pathData).1 = resolvFile env h pathData := by
  unfold resolvFileT resolvFile
  split
  · split
    · rfl
    · split <;> rfl
  · rfl

theorem resolvFileT_ops (env : Env) (h : staticFileHandler) (pathData : Bytes) :
    FileOp.close ∉ (resolvFileT env h pathData).2 := by
  unfold resolvFileT
  split
  · split
    · simp
    · split <;> simp
  · simp

theorem resolvContentTypeT_fst (env : Env) (name : Bytes) (header : Header) (file : File) :
    (resolvContentTypeT env name header file).1 = resolvContentType env name header file := by
  unfold resolvContentTypeT resolvContentType
  simp only []
  repeat' split
  all_goals rfl

theorem resolvContentTypeT_ops (env : Env) (name : Bytes) (header : Header) (file : File) :
    FileOp.close ∉ (resolvContentTypeT env name header file).2 := by
  unfold resolvContentTypeT
  simp only []
  repeat' split
  all_goals simp

theorem HandleT_fst (env : Env) (h : staticFileHandler) (ctx : RequestCtx) :
    (HandleT env h ctx).1 = Handle env h ctx := by
  have h1 := resolvFileT_fst env h ctx.path
  unfold HandleT Handle
  rcases hr : resolvFileT env h ctx.path with ⟨o, ops⟩
  rw [hr] at h1
  simp only [] at h1
  rw [← h1]
  cases o with
  | raised p => rfl
  | outOfFuel => rfl
  | ok fs =>
    obtain ⟨f, stat⟩ := fs
    simp only []
    cases hc : checkPreconditions env.parseTime ctx.request (prepareResponse env h ctx f stat)
        stat.modTime f.hash with
    | panic => rfl
    | outOfFuel => rfl
    | ret dw =>
      obtain ⟨d, w⟩ := dw
      cases d with
      | true => rfl
      | false =>
        simp only []
        have h2 := resolvContentTypeT_fst env f.name w.header f
        unfold serveBody
        rcases hct : resolvContentTypeT env f.name w.header f with ⟨o2, ops2⟩
        rw [hct] at h2
        simp only [] at h2
        rw [← h2]
        cases o2 with
        | raised p => rfl
        | outOfFuel => rfl
        | ok hdr =>
          simp only []
          split
          · rfl
          · split <;> rfl

theorem HandleT_ops (env : Env) (h : staticFileHandler) (ctx : RequestCtx) :
    FileOp.close ∉ (HandleT env h ctx).2 := by
  have h1 := resolvFileT_ops env h ctx.path
  unfold HandleT
  rcases hr : resolvFileT env h ctx.path with ⟨o, ops⟩
  rw [hr] at h1
  simp only [] at h1
  cases o with
  | raised p => exact h1
  | outOfFuel => exact h1
  | ok fs =>
    obtain ⟨f, stat⟩ := fs
    have hops : FileOp.close ∉ ops ++ [FileOp.name, FileOp.hash] := by
      simp [h1]
    simp only []
    cases hc : checkPreconditions env.parseTime ctx.request (prepareResponse env h ctx f stat)
        stat.modTime f.hash with
    | panic => exact hops
    | outOfFuel => exact hops
    | ret dw =>
      obtain ⟨d, w⟩ := dw
      cases d with
      | true => exact hops
      | false =>
        simp only []
        have h2 := resolvContentTypeT_ops env f.name w.header f
        rcases hct : resolvContentTypeT env f.name w.header f with ⟨o2, ops2⟩
        rw [hct] at h2
        simp only [] at h2
        have hall : FileOp.close ∉ (ops ++ [FileOp.name, FileOp.hash]) ++ ops2 := by
          simp [h1, h2]
        cases o2 with
        | raised p => exact hall
        | outOfFuel => exact hall
        | ok hdr =>
          simp only []
          split
          · exact hall
          · split
            · exact hall
            · simp [h1, h2]

/-- C21, as stated, fails: on the 304 path for a file with the hash `"h"` the
handler calls `Stat`, `Name` and `Hash` on the file the resolver returned and
never `Close`. -/
theorem Handle_does_not_close_counterexample :
    HandleT
      (sampleEnv ⟨ascii "a.bin", StatResult.ok ⟨3, 1704067200000000000, false⟩, ascii "\"h\"",
        ascii "xyz", false⟩)
      ⟨ascii "/static", 1700000000, false⟩
      ⟨⟨ascii "GET", [("If-None-Match", ascii "\"h\"")]⟩, ascii "/static/a.bin", [], [],
        ⟨[], 200, false⟩⟩
      = (Outcome.ok ⟨⟨[("Etag", ascii "\"h\""), ("Vary", ascii "User-Agent")], 304, true⟩,
          none⟩,
        [FileOp.stat, FileOp.name, FileOp.hash]) ∧
    FileOp.close ∉ [FileOp.stat, FileOp.name, FileOp.hash] := by
  decide

/-- C21, amended: on no exit path does `Handle` close the stream of the
resource the resolver returned; the calls it makes on the file are among
`Stat`, `Name`, `Hash`, `Read` and `Seek`, and when it serves a body it hands
the open stream to the response with `SetBodyStream`. -/
theorem Handle_never_closes (env : Env) (h : staticFileHandler) (ctx : RequestCtx) :
    (HandleT env h ctx).1 = Handle env h ctx ∧
    FileOp.close ∉ (HandleT env h ctx).2 ∧
    (∀ w size, Handle env h ctx = Outcome.ok ⟨w, some size⟩ →
      FileOp.bodyStream ∈ (HandleT env h ctx).2) := by
  refine ⟨HandleT_fst env h ctx, HandleT_ops env h ctx, fun w size hh => ?_⟩
  rw [← HandleT_fst] at hh
  unfold HandleT at hh ⊢
  rcases hr : resolvFileT env h ctx.path with ⟨o, ops⟩
  rw [hr] at hh
  cases o with
  | raised p => simp at hh
  | outOfFuel => simp at hh
  | ok fs =>
    obtain ⟨f, stat⟩ := fs
    simp only [] at hh ⊢
    cases hc : checkPreconditions env.parseTime ctx.request (prepareResponse env h ctx f stat)
        stat.modTime f.hash with
    | panic =>
      rw [hc] at hh
      simp at hh
    | outOfFuel =>
      rw [hc] at hh
      simp at hh
    | ret dw =>
      obtain ⟨d, w'⟩ := dw
      rw [hc] at hh
      cases d with
      | true => simp at hh
      | false =>
        simp only [] at hh ⊢
        rcases hct : resolvContentTypeT env f.name w'.header f with ⟨o2, ops2⟩
        rw [hct] at hh
        cases o2 with
        | raised p => simp at hh
        | outOfFuel => simp at hh
        | ok hdr =>
          simp only [] at hh ⊢
          by_cases hs : stat.size ≤ 0
          · rw [if_pos hs] at hh
            simp at hh
          · rw [if_neg hs] at hh ⊢
            by_cases hm : (ConstantTimeCompare ctx.request.method MethodHEAD == 1) = true
            · rw [if_pos hm] at hh
              simp at hh
            · rw [if_neg hm]
              simp

/-! ## The cookie domain -/

theorem labels_cons_dot (cs : Bytes) : labels (46 :: cs) = [] :: labels cs := by
  rw [labels]
  split
  · rename_i h
    rw [h]
    exact absurd h (by
      cases cs with
      | nil => simp [labels]
      | cons c cs =>
        rw [labels]
        split <;> (try split) <;> simp)
  · rename_i l ls h
    rw [h]
    simp

theorem labels_ne_nil (d : Bytes) : labels d ≠ [] := by
  cases d with
  | nil => simp [labels]
  | cons c cs =>
    rw [labels]
    split <;> (try split) <;> simp

theorem labels_cons_ne (c : Nat) (cs : Bytes) (hc : c ≠ 46) :
    labels (c :: cs) = (c :: (labels cs).headD []) :: (labels cs).tail := by
  rw [labels]
  split
  · rename_i h
    exact absurd h (labels_ne_nil cs)
  · rename_i l ls h
    rw [h, if_neg hc]
    rfl

theorem getLastD_cons (c last : Nat) (cs : Bytes) :
    (c :: cs).getLast?.getD last = cs.getLast?.getD c := by
  rw [List.getLast?_cons]
  rfl

theorem isLetter_ne (c : Nat) (h : isLetter c = true) : c ≠ 45 ∧ c ≠ 46 := by
  simp only [isLetter, Bool.or_eq_true, Bool.and_eq_true, decide_eq_true_eq] at h
  omega

theorem isDigit_ne (c : Nat) (h : isDigit c = true) : c ≠ 45 ∧ c ≠ 46 := by
  simp only [isDigit, Bool.and_eq_true, decide_eq_true_eq] at h
  omega

/-- A byte other than `-` and `.` that the loop accepts: the loop goes on with
`partlen + 1`. -/
theorem domainLoop_step_plain (c : Nat) (cs : Bytes) (last p : Nat) (valid valid2 : Bool)
    (h45 : c ≠ 45) (h46 : c ≠ 46)
    (hok : isLetter c = true ∨ isDigit c = true)
    (hloop : domainLoop (c :: cs) last p valid = domainLoop cs c (p + 1) valid2)
    (ih : (∃ l q v', domainLoop cs c (p + 1) valid2 = some (l, q, v') ∧ l ≠ 45 ∧ q ≤ 63) ↔
      (∀ x ∈ cs, isLetter x = true ∨ isDigit x = true ∨ x = 45 ∨ x = 46) ∧
      List.Chain goodPair c cs ∧ cs.getLast?.getD c ≠ 45 ∧
      p + 1 + ((labels cs).headD []).length ≤ 63 ∧ ∀ l ∈ (labels cs).tail, l.length ≤ 63) :
    (∃ l q v', domainLoop (c :: cs) last p valid = some (l, q, v') ∧ l ≠ 45 ∧ q ≤ 63) ↔
      (∀ x ∈ c :: cs, isLetter x = true ∨ isDigit x = true ∨ x = 45 ∨ x = 46) ∧
      List.Chain goodPair last (c :: cs) ∧ (c :: cs).getLast?.getD last ≠ 45 ∧
      p + ((labels (c :: cs)).headD []).length ≤ 63 ∧
      ∀ l ∈ (labels (c :: cs)).tail, l.length ≤ 63 := by
  have hgood : goodPair last c := by
    unfold goodPair
    exact ⟨fun h => h45 h.2, fun h => h46 h.2⟩
  have hc : isLetter c = true ∨ isDigit c = true ∨ c = 45 ∨ c = 46 := by
    rcases hok with h | h
    · exact Or.inl h
    · exact Or.inr (Or.inl h)
  rw [hloop, ih, List.forall_mem_cons, List.chain_cons, getLastD_cons, labels_cons_ne c cs h46]
  simp only [List.headD_cons, List.tail_cons, List.length_cons]
  constructor
  · rintro ⟨h1, h2, h3, h4, h5⟩
    exact ⟨⟨hc, h1⟩, ⟨hgood, h2⟩, h3, by omega, h5⟩
  · rintro ⟨⟨_, h1⟩, ⟨_, h2⟩, h3, h4, h5⟩
    exact ⟨h1, h2, h3, by omega, h5⟩

theorem domainLoop_passes_iff (d : Bytes) (last p : Nat) (valid : Bool)
    (hinv : p = 0 → last = 46) :
    (∃ l q v', domainLoop d last p valid = some (l, q, v') ∧ l ≠ 45 ∧ q ≤ 63) ↔
      (∀ c ∈ d, isLetter c = true ∨ isDigit c = true ∨ c = 45 ∨ c = 46) ∧
      List.Chain goodPair last d ∧ d.getLast?.getD last ≠ 45 ∧
      p + ((labels d).headD []).length ≤ 63 ∧ ∀ l ∈ (labels d).tail, l.length ≤ 63 := by
  induction d generalizing last p valid with
  | nil =>
    simp only [domainLoop, Option.some.injEq, Prod.mk.injEq, List.not_mem_nil, false_implies,
      implies_true, List.Chain.nil, List.getLast?_nil, Option.getD_none, labels, List.headD_cons,
      List.length_nil, Nat.add_zero, List.tail_cons, true_and, and_true]
    constructor
    · rintro ⟨l, q, v', ⟨rfl, rfl, rfl⟩, h1, h2⟩
      exact ⟨h1, h2⟩
    · rintro ⟨h1, h2⟩
      exact ⟨last, p, valid, ⟨rfl, rfl, rfl⟩, h1, h2⟩
  | cons c cs ih =>
    by_cases hL : isLetter c = true
    · have hne := isLetter_ne c hL
      apply domainLoop_step_plain c cs last p valid true hne.1 hne.2 (Or.inl hL)
      · rw [domainLoop, if_pos hL]
      · exact ih c (p + 1) true (fun h => absurd h (Nat.succ_ne_zero p))
    · by_cases hD : isDigit c = true
      · have hne := isDigit_ne c hD
        apply domainLoop_step_plain c cs last p valid valid hne.1 hne.2 (Or.inr hD)
        · rw [domainLoop, if_neg hL, if_pos hD]
        · exact ih c (p + 1) valid (fun h => absurd h (Nat.succ_ne_zero p))
      · by_cases h45 : c = 45
        · subst h45
          by_cases hl : last = 46
          · have hloop : domainLoop (45 :: cs) last p valid = none := by
              rw [domainLoop, if_neg hL, if_neg hD, if_pos rfl, if_pos hl]
            rw [hloop, List.chain_cons]
            constructor
            · rintro ⟨l, q, v', h, _⟩
              cases h
            · rintro ⟨_, ⟨hg, _⟩, _⟩
              exact absurd ⟨hl, rfl⟩ hg.1
          · have hloop : domainLoop (45 :: cs) last p valid = domainLoop cs 45 (p + 1) valid := by
              rw [domainLoop, if_neg hL, if_neg hD, if_pos rfl, if_neg hl]
            have hgood : goodPair last 45 := by
              unfold goodPair
              exact ⟨fun h => hl h.1, fun h => absurd h.2 (by decide)⟩
            rw [hloop, ih 45 (p + 1) valid (fun h => absurd h (Nat.succ_ne_zero p)),
              List.forall_mem_cons, List.chain_cons, getLastD_cons,
              labels_cons_ne 45 cs (by decide)]
            simp only [List.headD_cons, List.tail_cons, List.length_cons]
            constructor
            · rintro ⟨h1, h2, h3, h4, h5⟩
              exact ⟨⟨Or.inr (Or.inr (Or.inl trivial)), h1⟩, ⟨hgood, h2⟩, h3, by omega, h5⟩
            · rintro ⟨⟨_, h1⟩, ⟨_, h2⟩, h3, h4, h5⟩
              exact ⟨h1, h2, h3, by omega, h5⟩
        · by_cases h46 : c = 46
          · subst h46
            by_cases hl : last = 46 ∨ last = 45
            · have hloop : domainLoop (46 :: cs) last p valid = none := by
                rw [domainLoop, if_neg hL, if_neg hD, if_neg h45, if_pos rfl, if_pos hl]
              rw [hloop, List.chain_cons]
              constructor
              · rintro ⟨l, q, v', h, _⟩
                cases h
              · rintro ⟨_, ⟨hg, _⟩, _⟩
                exact absurd ⟨hl, rfl⟩ hg.2
            · have hp0 : p ≠ 0 := fun h0 => hl (Or.inl (hinv h0))
              have hgood : goodPair last 46 := by
                unfold goodPair
                exact ⟨fun h => absurd h.2 (by decide), fun h => hl h.1⟩
              by_cases hp : p > 63
              · have hloop : domainLoop (46 :: cs) last p valid = none := by
                  rw [domainLoop, if_neg hL, if_neg hD, if_neg h45, if_pos rfl, if_neg hl,
                    if_pos (Or.inl hp)]
                rw [hloop, labels_cons_dot]
                simp only [List.headD_cons, List.length_nil, Nat.add_zero]
                constructor
                · rintro ⟨l, q, v', h, _⟩
                  cases h
                · rintro ⟨_, _, _, h4, _⟩
                  omega
              · have hno : ¬ (p > 63 ∨ p = 0) := fun h => h.elim hp hp0
                have hloop : domainLoop (46 :: cs) last p valid = domainLoop cs 46 0 valid := by
                  rw [domainLoop, if_neg hL, if_neg hD, if_neg h45, if_pos rfl, if_neg hl,
                    if_neg hno]
                rw [hloop, ih 46 0 valid (fun _ => rfl), List.forall_mem_cons, List.chain_cons,
                  getLastD_cons, labels_cons_dot]
                simp only [List.headD_cons, List.tail_cons, List.length_nil, Nat.add_zero,
                  Nat.zero_add]
                have hlab : ((labels cs).headD []).length ≤ 63 ∧
                    (∀ l ∈ (labels cs).tail, l.length ≤ 63) ↔ ∀ l ∈ labels cs, l.length ≤ 63 := by
                  rcases hlc : labels cs with _ | ⟨l0, ls⟩
                  · exact absurd hlc (labels_ne_nil cs)
                  · simp
                constructor
                · rintro ⟨h1, h2, h3, h4, h5⟩
                  exact ⟨⟨Or.inr (Or.inr (Or.inr trivial)), h1⟩, ⟨hgood, h2⟩, h3, by omega,
                    hlab.mp ⟨h4, h5⟩⟩
                · rintro ⟨⟨_, h1⟩, ⟨_, h2⟩, h3, _, h5⟩
                  exact ⟨h1, h2, h3, (hlab.mpr h5).1, (hlab.mpr h5).2⟩
          · have hloop : domainLoop (c :: cs) last p valid = none := by
              rw [domainLoop, if_neg hL, if_neg hD, if_neg h45, if_neg h46]
            rw [hloop, List.forall_mem_cons]
            constructor
            · rintro ⟨l, q, v', h, _⟩
              cases h
            · rintro ⟨⟨hc, _⟩, _⟩
              rcases hc with h | h | h | h
              · exact absurd h hL
              · exact absurd h hD
              · exact absurd h h45
              · exact absurd h h46

theorem domainLoop_valid (d : Bytes) (last p : Nat) (valid : Bool) (l q : Nat) (v' : Bool)
    (h : domainLoop d last p valid = some (l, q, v')) :
    v' = (valid || d.any isLetter) := by
  induction d generalizing last p valid with
  | nil =>
    simp only [domainLoop, Option.some.injEq, Prod.mk.injEq] at h
    simp [h.2.2]
  | cons c cs ih =>
    rw [domainLoop] at h
    by_cases hL : isLetter c = true
    · rw [if_pos hL] at h
      rw [ih c (p + 1) true h]
      simp [hL]
    · have hL' : isLetter c = false := by simpa using hL
      rw [if_neg hL] at h
      rw [List.any_cons, hL', Bool.false_or]
      by_cases hD : isDigit c = true
      · rw [if_pos hD] at h
        exact ih c (p + 1) valid h
      · rw [if_neg hD] at h
        by_cases h45 : c = 45
        · rw [if_pos h45] at h
          by_cases hl : last = 46
          · rw [if_pos hl] at h
            cases h
          · rw [if_neg hl] at h
            exact ih c (p + 1) valid h
        · rw [if_neg h45] at h
          by_cases h46 : c = 46
          · rw [if_pos h46] at h
            by_cases hl : last = 46 ∨ last = 45
            · rw [if_pos hl] at h
              cases h
            · rw [if_neg hl] at h
              by_cases hp : p > 63 ∨ p = 0
              · rw [if_pos hp] at h
                cases h
              · rw [if_neg hp] at h
                exact ih c 0 valid h
          · rw [if_neg h46] at h
            cases h

theorem domainSpec_iff (d : Bytes) :
    ((∀ c ∈ d, isLetter c = true ∨ isDigit c = true ∨ c = 45 ∨ c = 46) ∧
      List.Chain goodPair 46 d ∧ d.getLast?.getD 46 ≠ 45 ∧
      0 + ((labels d).headD []).length ≤ 63 ∧ ∀ l ∈ (labels d).tail, l.length ≤ 63) ↔
    ((∀ c ∈ d, isLetter c = true ∨ isDigit c = true ∨ c = 45 ∨ c = 46) ∧
      d.head? ≠ some 45 ∧ d.head? ≠ some 46 ∧ List.Chain' goodPair d ∧
      d.getLast? ≠ some 45 ∧ ∀ l ∈ labels d, l.length ≤ 63) := by
  have hlab : (0 + ((labels d).headD []).length ≤ 63 ∧
      (∀ l ∈ (labels d).tail, l.length ≤ 63)) ↔ ∀ l ∈ labels d, l.length ≤ 63 := by
    rcases hlc : labels d with _ | ⟨l0, ls⟩
    · exact absurd hlc (labels_ne_nil d)
    · simp
  have hlast : d.getLast?.getD 46 ≠ 45 ↔ d.getLast? ≠ some 45 := by
    cases d.getLast? with
    | none => simp
    | some x => simp
  have hchain : List.Chain goodPair 46 d ↔
      (d.head? ≠ some 45 ∧ d.head? ≠ some 46 ∧ List.Chain' goodPair d) := by
    cases d with
    | nil => simp [List.Chain']
    | cons c cs =>
      rw [List.chain_cons]
      simp only [List.head?_cons, ne_eq, Option.some.injEq, List.Chain']
      unfold goodPair
      constructor
      · rintro ⟨⟨h1, h2⟩, h3⟩
        exact ⟨fun h => h1 ⟨rfl, h⟩, fun h => h2 ⟨Or.inl rfl, h⟩, h3⟩
      · rintro ⟨h1, h2, h3⟩
        exact ⟨⟨fun h => h1 h.2, fun h => h2 h.2⟩, h3⟩
  rw [hchain, hlast]
  constructor
  · rintro ⟨h1, ⟨h2, h3, h4⟩, h5, h6, h7⟩
    exact ⟨h1, h2, h3, h4, h5, hlab.mp ⟨h6, h7⟩⟩
  · rintro ⟨h1, h2, h3, h4, h5, h6⟩
    exact ⟨h1, ⟨h2, h3, h4⟩, h5, (hlab.mpr h6).1, (hlab.mpr h6).2⟩

theorem domainBody_any_isLetter (v : Bytes) (hletter : ∃ c ∈ v, isLetter c = true) :
    (domainBody v).any isLetter = true := by
  obtain ⟨c, hc, hL⟩ := hletter
  rw [List.any_eq_true]
  refine ⟨c, ?_, hL⟩
  unfold domainBody
  by_cases hh : v.head? = some 46
  · rw [if_pos hh]
    match v, hh, hc with
    | x :: rest, hh, hc =>
      simp only [List.head?_cons, Option.some.injEq] at hh
      subst hh
      rcases List.mem_cons.mp hc with h | h
      · rw [h] at hL
        exact absurd hL (by decide)
      · simpa using h
  · rw [if_neg hh]
    exact hc

/-- C29: for every domain that contains at least one ASCII letter,
`validateCookieDomain` returns true if and only if the domain is 1 to 255 bytes
long and, after one optional leading dot is dropped, consists only of letters,
digits, `-` and `.`, no `-` comes first or directly after a `.`, no `.` comes
first or directly after a `.` or a `-`, the last byte is not `-`, and every
label is at most 63 bytes long. -/
theorem validateCookieDomain_iff (isValidIp : Bytes → Bool) (v : Bytes)
    (hletter : ∃ c ∈ v, isLetter c = true) :
    validateCookieDomain isValidIp v = true ↔ specCookieDomain v := by
  unfold specCookieDomain
  rw [← domainSpec_iff (domainBody v),
    ← domainLoop_passes_iff (domainBody v) 46 0 false (fun _ => rfl)]
  unfold validateCookieDomain
  by_cases h0 : v.length = 0
  · rw [if_pos h0]
    constructor
    · intro h
      cases h
    · rintro ⟨h1, _⟩
      omega
  · rw [if_neg h0]
    by_cases h255 : v.length > 255
    · rw [if_pos h255]
      constructor
      · intro h
        cases h
      · rintro ⟨_, h2, _⟩
        omega
    · rw [if_neg h255]
      have hlen : 1 ≤ v.length ∧ v.length ≤ 255 := by omega
      show (match domainLoop (domainBody v) 46 0 false with
        | none => false
        | some (last, partlen, valid) =>
          if last = 45 ∨ partlen > 63 then false
          else if valid = true then true
          else isValidIp (domainBody v)) = true ↔ _
      cases hloop : domainLoop (domainBody v) 46 0 false with
      | none =>
        simp only []
        constructor
        · intro h
          cases h
        · rintro ⟨_, _, l, q, v', h, _⟩
          cases h
      | some r =>
        obtain ⟨l, q, v'⟩ := r
        have hv : v' = true := by
          rw [domainLoop_valid _ _ _ _ _ _ _ hloop, domainBody_any_isLetter v hletter]
          rfl
        subst hv
        simp only [if_true]
        by_cases hbad : l = 45 ∨ q > 63
        · rw [if_pos hbad]
          constructor
          · intro h
            cases h
          · rintro ⟨_, _, l', q', v'', h, h1, h2⟩
            simp only [Option.some.injEq, Prod.mk.injEq] at h
            rcases hbad with hb | hb
            · exact absurd (h.1 ▸ hb) h1
            · have : q = q' := h.2.1
              omega
        · rw [if_neg hbad]
          simp only [true_iff]
          refine ⟨hlen.1, hlen.2, l, q, true, rfl, fun h => hbad (Or.inl h), ?_⟩
          by_contra hq
          exact hbad (Or.inr (by omega))

/-- C29 at a concrete domain: `.example.com` is accepted, so it has the shape
the specification describes. -/
theorem validateCookieDomain_iff_witness : specCookieDomain (ascii ".example.com") :=
  (validateCookieDomain_iff (fun _ => false) (ascii ".example.com")
    ⟨101, by decide, by decide⟩).mp (by decide)

/-- C21 at a concrete request: a GET of a three-byte file is answered with the
file as body stream, not closed. -/
theorem Handle_never_closes_witness :
    FileOp.bodyStream ∈ (HandleT
      (sampleEnv ⟨ascii "a.bin", StatResult.ok ⟨3, 0, false⟩, [], ascii "xyz", false⟩)
      ⟨ascii "/static", 1700000000, true⟩
      ⟨⟨ascii "GET", []⟩, ascii "/static/a.bin", [], [], ⟨[], 200, false⟩⟩).2 :=
  (Handle_never_closes
    (sampleEnv ⟨ascii "a.bin", StatResult.ok ⟨3, 0, false⟩, [], ascii "xyz", false⟩)
    ⟨ascii "/static", 1700000000, true⟩
    ⟨⟨ascii "GET", []⟩, ascii "/static/a.bin", [], [], ⟨[], 200, false⟩⟩).2.2
    ⟨[("Vary", ascii "User-Agent")], 200, false⟩ 3 (by decide)

/-! ## The comma in `checkIfNoneMatch` -/

/-- C31 at its failing inputs: with the resource tag `"b"`, the If-None-Match
values `,` and `"a",` make `checkIfNoneMatch` index an empty buffer, and
`checkPreconditions` panics with it; `checkIfMatch`, which goes back to the top
of its loop after a comma, returns on the same values. -/
theorem checkIfNoneMatch_comma_panics :
    checkIfNoneMatch (ascii "\"b\"") ⟨ascii "GET", [("If-None-Match", ascii ",")]⟩ ⟨[], 200, false⟩
      = Run.panic ∧
    checkIfNoneMatch (ascii "\"b\"") ⟨ascii "GET", [("If-None-Match", ascii "\"a\",")]⟩
      ⟨[], 200, false⟩ = Run.panic ∧
    checkPreconditions parseIMFFixdate ⟨ascii "GET", [("If-None-Match", ascii "\"a\",")]⟩
      ⟨[], 200, false⟩ 0 (ascii "\"b\"") = Run.panic ∧
    checkIfMatch ⟨ascii "GET", [("If-Match", ascii ",")]⟩ ⟨[("Etag", ascii "\"b\"")], 200, false⟩
      = Run.ret condFalse ∧
    checkIfMatch ⟨ascii "GET", [("If-Match", ascii "\"a\",")]⟩
      ⟨[("Etag", ascii "\"b\"")], 200, false⟩ = Run.ret condFalse := by
  decide

/-! ## The order of the preconditions -/

/-- C32: when the first pair of preconditions has not failed and If-None-Match
evaluates to Satisfied, the header is present and `checkPreconditions` returns
`false` with the response as it found it, for every If-Modified-Since value
of the request and every modification time. -/
theorem checkPreconditions_ifNoneMatch_satisfied (parseTime : Bytes → Option Int) (r : Request)
    (w : Response) (modtime : Int) (etag : Bytes)
    (hpair : ¬ (checkIfMatch r w = Run.ret condFalse ∨
      (checkIfMatch r w = Run.ret condNone ∧
        checkIfUnmodifiedSince parseTime r modtime = condFalse)))
    (hinm : checkIfNoneMatch etag r w = Run.ret condTrue) :
    r.header.Peek "If-None-Match" ≠ [] ∧
    checkPreconditions parseTime r w modtime etag = Run.ret (false, w) := by
  refine ⟨?_, ?_⟩
  · intro hnil
    unfold checkIfNoneMatch at hinm
    simp only [hnil, List.length_nil, if_true] at hinm
    cases hinm
  · rw [checkPreconditions_second_pair parseTime r w modtime etag condTrue hpair hinm]

/-- C32 at a concrete request: the tag `"x"` does not match `"y"`, the
If-Modified-Since date equals the modification time (which alone would give
304), and the representation is served. -/
theorem checkPreconditions_ifNoneMatch_satisfied_witness :
    checkIfModifiedSince parseIMFFixdate
      ⟨ascii "GET", [("If-None-Match", ascii "\"x\""),
        ("If-Modified-Since", ascii "Thu, 01 Jan 2015 00:00:00 GMT")]⟩
      (1420070400 * Second) = condFalse ∧
    checkPreconditions parseIMFFixdate
      ⟨ascii "GET", [("If-None-Match", ascii "\"x\""),
        ("If-Modified-Since", ascii "Thu, 01 Jan 2015 00:00:00 GMT")]⟩
      ⟨[], 200, false⟩ (1420070400 * Second) (ascii "\"y\"") = Run.ret (false, ⟨[], 200, false⟩) :=
  ⟨by decide,
   (checkPreconditions_ifNoneMatch_satisfied parseIMFFixdate
      ⟨ascii "GET", [("If-None-Match", ascii "\"x\""),
        ("If-Modified-Since", ascii "Thu, 01 Jan 2015 00:00:00 GMT")]⟩
      ⟨[], 200, false⟩ (1420070400 * Second) (ascii "\"y\"") (by decide) (by decide)).2⟩
/-- C33: when If-Match evaluates to Satisfied, If-Unmodified-Since is not
evaluated: `checkPreconditions` goes on to If-None-Match, and what it returns is
determined by that header, the method and If-Modified-Since alone. It then
answers 412 only when If-None-Match has failed for a method other than GET and
HEAD. -/
theorem checkPreconditions_ifMatch_satisfied (parseTime : Bytes → Option Int) (r : Request)
    (w : Response) (modtime : Int) (etag : Bytes)
    (him : checkIfMatch r w = Run.ret condTrue) :
    checkPreconditions parseTime r w modtime etag =
      (match checkIfNoneMatch etag r w with
      | Run.panic => Run.panic
      | Run.outOfFuel => Run.outOfFuel
      | Run.ret condFalse =>
        if r.method = MethodGET ∨ r.method = MethodHEAD then Run.ret (true, writeNotModified w)
        else Run.ret (true, w.SetStatusCode StatusPreconditionFailed)
      | Run.ret condNone =>
        if checkIfModifiedSince parseTime r modtime = condFalse then
          Run.ret (true, writeNotModified w)
        else Run.ret (false, w)
      | Run.ret condTrue => Run.ret (false, w)) ∧
    (∀ w' : Response, checkPreconditions parseTime r w modtime etag = Run.ret (true, w') →
      w'.statusCode = StatusPreconditionFailed →
        checkIfNoneMatch etag r w = Run.ret condFalse ∧
        ¬ (r.method = MethodGET ∨ r.method = MethodHEAD)) := by
  have hmain : checkPreconditions parseTime r w modtime etag =
      (match checkIfNoneMatch etag r w with
      | Run.panic => Run.panic
      | Run.outOfFuel => Run.outOfFuel
      | Run.ret condFalse =>
        if r.method = MethodGET ∨ r.method = MethodHEAD then Run.ret (true, writeNotModified w)
        else Run.ret (true, w.SetStatusCode StatusPreconditionFailed)
      | Run.ret condNone =>
        if checkIfModifiedSince parseTime r modtime = condFalse then
          Run.ret (true, writeNotModified w)
        else Run.ret (false, w)
      | Run.ret condTrue => Run.ret (false, w)) := by
    unfold checkPreconditions
    rw [him]
    simp only [reduceCtorEq, if_false]
    cases hinm : checkIfNoneMatch etag r w with
    | panic => rfl
    | outOfFuel => rfl
    | ret c =>
      cases c with
      | condNone => rfl
      | condTrue => rfl
      | condFalse =>
        simp only []
        by_cases hm : r.method = MethodGET ∨ r.method = MethodHEAD
        · rw [if_pos ((isGetOrHead_iff r.method).mpr hm), if_pos hm]
        · rw [if_neg (fun h => hm ((isGetOrHead_iff r.method).mp h)), if_neg hm]
  refine ⟨hmain, ?_⟩
  intro w' hres hst
  rw [hmain] at hres
  have h304 : (writeNotModified w).statusCode ≠ StatusPreconditionFailed := by
    rw [(writeNotModified_spec w).1]
    decide
  cases hinm : checkIfNoneMatch etag r w with
  | panic => rw [hinm] at hres; cases hres
  | outOfFuel => rw [hinm] at hres; cases hres
  | ret c =>
    rw [hinm] at hres
    cases c with
    | condTrue =>
      simp only [Run.ret.injEq, Prod.mk.injEq] at hres
      exact absurd hres.1 (by decide)
    | condNone =>
      simp only [] at hres
      split at hres
      · simp only [Run.ret.injEq, Prod.mk.injEq, true_and] at hres
        rw [← hres] at hst
        exact absurd hst h304
      · simp only [Run.ret.injEq, Prod.mk.injEq] at hres
        exact absurd hres.1 (by decide)
    | condFalse =>
      simp only [] at hres
      by_cases hm : r.method = MethodGET ∨ r.method = MethodHEAD
      · rw [if_pos hm] at hres
        simp only [Run.ret.injEq, Prod.mk.injEq, true_and] at hres
        rw [← hres] at hst
        exact absurd hst h304
      · exact ⟨rfl, hm⟩

/-- C33 at a concrete request: If-Match `*` is satisfied, the resource was
modified after the If-Unmodified-Since date (which alone would give 412), and
the representation is served. -/
theorem checkPreconditions_ifMatch_satisfied_witness :
    checkIfUnmodifiedSince parseIMFFixdate
      ⟨ascii "PUT", [("If-Match", ascii "*"),
        ("If-Unmodified-Since", ascii "Thu, 01 Jan 2015 00:00:00 GMT")]⟩
      (1420070500 * Second) = condFalse ∧
    checkPreconditions parseIMFFixdate
      ⟨ascii "PUT", [("If-Match", ascii "*"),
        ("If-Unmodified-Since", ascii "Thu, 01 Jan 2015 00:00:00 GMT")]⟩
      ⟨[], 200, false⟩ (1420070500 * Second) (ascii "\"y\"") = Run.ret (false, ⟨[], 200, false⟩) :=
  ⟨by decide,
   (checkPreconditions_ifMatch_satisfied parseIMFFixdate
      ⟨ascii "PUT", [("If-Match", ascii "*"),
        ("If-Unmodified-Since", ascii "Thu, 01 Jan 2015 00:00:00 GMT")]⟩
      ⟨[], 200, false⟩ (1420070500 * Second) (ascii "\"y\"") (by decide)).1.trans (by decide)⟩

/-- C36: when `checkPreconditions` returns `true` it has either set the status
to 412 and nothing else, or written the 304 response; when it returns `false`
the response is as it found it. For a response that was neither 304 nor 412
before, it returns `true` exactly when the status is 304 or 412 afterwards. -/
theorem checkPreconditions_frame (parseTime : Bytes → Option Int) (r : Request) (w w' : Response)
    (modtime : Int) (etag : Bytes) (done : Bool)
    (h : checkPreconditions parseTime r w modtime etag = Run.ret (done, w')) :
    (done = true → w'.statusCode = 304 ∨ w'.statusCode = 412) ∧
    (done = false → w' = w) ∧
    (done = true → w'.statusCode = 412 →
      w'.header = w.header ∧ w'.SkipBody = w.SkipBody ∧ w' = w.SetStatusCode 412) ∧
    (done = true → w'.statusCode = 304 → w' = writeNotModified w) ∧
    (w.statusCode ≠ 304 → w.statusCode ≠ 412 →
      (done = true ↔ (w'.statusCode = 304 ∨ w'.statusCode = 412))) := by
  have h304 : (writeNotModified w).statusCode = 304 := (writeNotModified_spec w).1
  have h412 : (w.SetStatusCode StatusPreconditionFailed).statusCode = 412 := rfl
  rcases checkPreconditions_cases parseTime r w modtime etag with hc | hc | hc | hc | hc
  · rw [hc] at h; cases h
  · rw [hc] at h; cases h
  · rw [hc] at h
    simp only [Run.ret.injEq, Prod.mk.injEq] at h
    obtain ⟨hd, hw⟩ := h
    subst hd; subst hw
    refine ⟨fun _ => Or.inr h412, fun hf => absurd hf (by decide), fun _ _ => ⟨rfl, rfl, rfl⟩,
      fun _ hst => ?_, fun _ _ => ⟨fun _ => Or.inr h412, fun _ => rfl⟩⟩
    rw [h412] at hst
    cases hst
  · rw [hc] at h
    simp only [Run.ret.injEq, Prod.mk.injEq] at h
    obtain ⟨hd, hw⟩ := h
    subst hd; subst hw
    refine ⟨fun _ => Or.inl h304, fun hf => absurd hf (by decide), fun _ hst => ?_,
      fun _ _ => rfl, fun _ _ => ⟨fun _ => Or.inl h304, fun _ => rfl⟩⟩
    rw [h304] at hst
    cases hst
  · rw [hc] at h
    simp only [Run.ret.injEq, Prod.mk.injEq] at h
    obtain ⟨hd, hw⟩ := h
    subst hd; subst hw
    refine ⟨fun hf => absurd hf (by decide), fun _ => rfl, fun hf => absurd hf (by decide),
      fun hf => absurd hf (by decide), fun n304 n412 => ⟨fun hf => absurd hf (by decide), fun hst => ?_⟩⟩
    rcases hst with hst | hst
    · exact absurd hst n304
    · exact absurd hst n412

/-- C36 at a concrete request: a PUT whose If-None-Match lists the current tag
is answered 412 with the headers and the body flag untouched. -/
theorem checkPreconditions_frame_witness :
    checkPreconditions parseIMFFixdate ⟨ascii "PUT", [("If-None-Match", ascii "\"y\"")]⟩
      ⟨[("Content-Type", ascii "text/css")], 200, false⟩ 0 (ascii "\"y\"")
      = Run.ret (true, ⟨[("Content-Type", ascii "text/css")], 412, false⟩) ∧
    (⟨[("Content-Type", ascii "text/css")], 412, false⟩ : Response)
      = Response.SetStatusCode ⟨[("Content-Type", ascii "text/css")], 200, false⟩ 412 :=
  ⟨by decide,
   ((checkPreconditions_frame parseIMFFixdate
      ⟨ascii "PUT", [("If-None-Match", ascii "\"y\"")]⟩
      ⟨[("Content-Type", ascii "text/css")], 200, false⟩
      ⟨[("Content-Type", ascii "text/css")], 412, false⟩ 0 (ascii "\"y\"") true
      (by decide)).2.2.1 rfl rfl).2.2⟩
/-! ## The token check of the CSRF middleware -/

/-- C35: for every byte string `x` and either value of the flag,
`tokenDeserializer` returns an empty result: the padded-base64 decoded length
of `x` is a multiple of 3 and so differs from 64. Hence `verifyToken` fails on
what `tokenDeserializer x true` returns, for every real token. -/
theorem tokenDeserializer_always_empty (x realToken : Bytes) (unmask : Bool) :
    tokenDeserializer x unmask = Run.ret [] ∧
    DecodedLen x.length % 3 = 0 ∧
    DecodedLen x.length ≠ csrfTokenLength * 2 ∧
    csrfTokenLength * 2 = 64 ∧
    (∃ sent : Bytes, tokenDeserializer x true = Run.ret sent ∧
      verifyToken realToken sent = false) := by
  have hlen : DecodedLen x.length % 3 = 0 := by
    unfold DecodedLen
    omega
  refine ⟨tokenDeserializer_eq_nil x unmask, hlen, ?_, rfl, [], tokenDeserializer_eq_nil x true, ?_⟩
  · intro h
    rw [h] at hlen
    revert hlen
    decide
  · unfold verifyToken
    rw [if_neg]
    intro hc
    exact absurd hc.2 (by decide)

/-! ## Strong and weak comparison -/

/-- C38: a strong match implies a weak match, and the two tags are then equal
byte for byte, also without a leading `W/`. The converse fails for weak tags:
`W/"x"` matches `"x"` and itself weakly, and neither strongly. -/
theorem etagStrongMatch_imp_weak (a b : Bytes) (h : etagStrongMatch a b = true) :
    etagWeakMatch a b = true ∧ a = b ∧ stripWeak a = stripWeak b ∧
    (etagWeakMatch (ascii "W/\"x\"") (ascii "\"x\"") = true ∧
      etagStrongMatch (ascii "W/\"x\"") (ascii "\"x\"") = false ∧
      etagWeakMatch (ascii "W/\"x\"") (ascii "W/\"x\"") = true ∧
      etagStrongMatch (ascii "W/\"x\"") (ascii "W/\"x\"") = false) := by
  have hab : a = b := by
    unfold etagStrongMatch at h
    simp only [Bool.and_eq_true, beq_iff_eq] at h
    exact (ConstantTimeCompare_eq_one a b).mp h.1.1
  refine ⟨?_, hab, by rw [hab], by decide⟩
  unfold etagWeakMatch
  rw [hab]
  simp only [beq_iff_eq]
  exact (ConstantTimeCompare_eq_one _ _).mpr rfl

/-- C38 at a concrete pair: `"x"` matches itself strongly, hence weakly. -/
theorem etagStrongMatch_imp_weak_witness :
    etagWeakMatch (ascii "\"x\"") (ascii "\"x\"") = true :=
  (etagStrongMatch_imp_weak (ascii "\"x\"") (ascii "\"x\"") (by decide)).1
/-! ## The two cache policies -/

theorem Header.Has_Set_self (h : Header) (k : String) (v : Bytes) : (h.Set k v).Has k = true := by
  simp [Header.Set, Header.Has]

theorem Header.Has_Set_ne (h : Header) (k k' : String) (v : Bytes) (hne : k ≠ k') :
    (h.Set k v).Has k' = h.Has k' := by
  have hk : (k == k') = false := by simpa using hne
  have e : (h.Set k v).Has k' = (h.Del k).Has k' := by
    simp [Header.Set, Header.Has, hk]
  rw [e, Header.Has_Del_ne h k k' hne]

theorem cacheFiller_eq_of_rejected (baseVersion : Int) (header : Header) (v d : Bytes)
    (hrej : ∀ rv, ParseInt v = some rv → 0 < rv ∧ rv < baseVersion) :
    cacheFiller false baseVersion header v d = header := by
  unfold cacheFiller
  simp only [Bool.false_eq_true, if_false]
  cases hv : ParseInt v with
  | none => rfl
  | some rv =>
    have hcond : (decide (rv > 0) && decide (rv < baseVersion)) = true := by
      simpa using hrej rv hv
    simp only []
    rw [if_pos hcond]

/-- C34: the non-debug `cacheFiller` sets Cache-Control and Expires when the
version token parses to an integer `v` with `v <= 0` or `v >= BaseVersion`, and
returns the header store as it found it in every other case; for a store that
lacks one of the two headers, both are present afterwards exactly in the first
case. -/
theorem cacheFiller_sets_iff (baseVersion : Int) (header : Header) (v d : Bytes) :
    ((∃ rv, ParseInt v = some rv ∧ (rv ≤ 0 ∨ rv ≥ baseVersion)) →
      cacheFiller false baseVersion header v d =
        (header.Set "Cache-Control" (cacheControlPrefix ++ FormatInt (specDuration d))).Set
          "Expires" (FormatInt (specDuration d)) ∧
      (cacheFiller false baseVersion header v d).Has "Cache-Control" = true ∧
      (cacheFiller false baseVersion header v d).Has "Expires" = true) ∧
    (¬ (∃ rv, ParseInt v = some rv ∧ (rv ≤ 0 ∨ rv ≥ baseVersion)) →
      cacheFiller false baseVersion header v d = header) ∧
    (header.Has "Cache-Control" = false ∨ header.Has "Expires" = false →
      (((cacheFiller false baseVersion header v d).Has "Cache-Control" = true ∧
        (cacheFiller false baseVersion header v d).Has "Expires" = true) ↔
        ∃ rv, ParseInt v = some rv ∧ (rv ≤ 0 ∨ rv ≥ baseVersion))) := by
  have hacc : (∃ rv, ParseInt v = some rv ∧ (rv ≤ 0 ∨ rv ≥ baseVersion)) →
      cacheFiller false baseVersion header v d =
        (header.Set "Cache-Control" (cacheControlPrefix ++ FormatInt (specDuration d))).Set
          "Expires" (FormatInt (specDuration d)) ∧
      (cacheFiller false baseVersion header v d).Has "Cache-Control" = true ∧
      (cacheFiller false baseVersion header v d).Has "Expires" = true := by
    rintro ⟨rv, hv, hr⟩
    have e := cacheFiller_eq_of_accepted baseVersion header v d rv hv (by omega)
    refine ⟨e, ?_, ?_⟩
    · rw [e, Header.Has_Set_ne _ _ _ _ (by decide), Header.Has_Set_self]
    · rw [e, Header.Has_Set_self]
  have hrej : ¬ (∃ rv, ParseInt v = some rv ∧ (rv ≤ 0 ∨ rv ≥ baseVersion)) →
      cacheFiller false baseVersion header v d = header := by
    intro hn
    apply cacheFiller_eq_of_rejected
    intro rv hv
    by_contra hc
    exact hn ⟨rv, hv, by omega⟩
  refine ⟨hacc, hrej, ?_⟩
  intro hlack
  constructor
  · intro hboth
    by_contra hn
    rw [hrej hn] at hboth
    rcases hlack with hl | hl
    · rw [hl] at hboth
      exact absurd hboth.1 (by decide)
    · rw [hl] at hboth
      exact absurd hboth.2 (by decide)
  · intro hex
    exact (hacc hex).2

/-- C34 at concrete requests with `BaseVersion` 1700000000: the token
`1700000001` has both headers set, the token `1600000000` and the token `abc`
leave the store as it was. -/
theorem cacheFiller_sets_iff_witness :
    (cacheFiller false 1700000000 [("Vary", ascii "Cookie")] (ascii "1700000001") []).Has
      "Expires" = true ∧
    cacheFiller false 1700000000 [("Vary", ascii "Cookie")] (ascii "1600000000") []
      = [("Vary", ascii "Cookie")] ∧
    cacheFiller false 1700000000 [("Vary", ascii "Cookie")] (ascii "abc") []
      = [("Vary", ascii "Cookie")] :=
  ⟨((cacheFiller_sets_iff 1700000000 [("Vary", ascii "Cookie")] (ascii "1700000001") []).1
      ⟨1700000001, by decide, Or.inr (by decide)⟩).2.2,
   (cacheFiller_sets_iff 1700000000 [("Vary", ascii "Cookie")] (ascii "1600000000") []).2.1
      (by
        rintro ⟨rv, hv, hr⟩
        have h1 : ParseInt (ascii "1600000000") = some 1600000000 := by decide
        rw [h1] at hv
        cases hv
        omega),
   (cacheFiller_sets_iff 1700000000 [("Vary", ascii "Cookie")] (ascii "abc") []).2.1
      (by
        rintro ⟨rv, hv, _⟩
        have h1 : ParseInt (ascii "abc") = none := by decide
        rw [h1] at hv
        cases hv)⟩

/-- C37: for a version token that parses to a positive integer, the non-debug
`cacheFiller` and the non-debug `CacheControlFunc`, both starting from empty
headers, emit under the same condition, `v >= BaseVersion`, and then the same
Cache-Control and Expires values; under every header name other than Vary,
which `CacheControlFunc` always adds, the two stores hold the same. -/
theorem cacheFiller_agrees_CacheControlFunc (baseVersion : Int) (v d : Bytes) (rv : Int)
    (hv : ParseInt v = some rv) (hpos : 0 < rv) :
    (baseVersion ≤ rv →
      cacheFiller false baseVersion [] v d =
        [("Expires", FormatInt (specDuration d)),
          ("Cache-Control", ascii "public, max-age=" ++ FormatInt (specDuration d))] ∧
      CacheControlFunc false baseVersion [] v d =
        [("Cache-Control", ascii "public, max-age=" ++ FormatInt (specDuration d)),
          ("Expires", FormatInt (specDuration d)), ("Vary", ascii "User-Agent")]) ∧
    (rv < baseVersion →
      cacheFiller false baseVersion [] v d = [] ∧
      CacheControlFunc false baseVersion [] v d = [("Vary", ascii "User-Agent")]) ∧
    (∀ k : String, k ≠ "Vary" →
      (cacheFiller false baseVersion [] v d).Peek k
        = (CacheControlFunc false baseVersion [] v d).Peek k ∧
      (cacheFiller false baseVersion [] v d).Has k
        = (CacheControlFunc false baseVersion [] v d).Has k) := by
  have hge : baseVersion ≤ rv →
      cacheFiller false baseVersion [] v d =
        [("Expires", FormatInt (specDuration d)),
          ("Cache-Control", ascii "public, max-age=" ++ FormatInt (specDuration d))] ∧
      CacheControlFunc false baseVersion [] v d =
        [("Cache-Control", ascii "public, max-age=" ++ FormatInt (specDuration d)),
          ("Expires", FormatInt (specDuration d)), ("Vary", ascii "User-Agent")] := by
    intro hb
    constructor
    · rw [cacheFiller_eq_of_accepted baseVersion [] v d rv hv (by omega)]
      rfl
    · unfold CacheControlFunc
      simp only [Bool.false_eq_true, if_false, hv]
      rw [if_pos (show rv ≥ baseVersion from hb)]
      rfl
  have hlt : rv < baseVersion →
      cacheFiller false baseVersion [] v d = [] ∧
      CacheControlFunc false baseVersion [] v d = [("Vary", ascii "User-Agent")] := by
    intro hb
    constructor
    · apply cacheFiller_eq_of_rejected
      intro rv' hv'
      rw [hv] at hv'
      cases hv'
      exact ⟨hpos, hb⟩
    · unfold CacheControlFunc
      simp only [Bool.false_eq_true, if_false, hv]
      rw [if_neg (show ¬ rv ≥ baseVersion by omega)]
      rfl
  refine ⟨hge, hlt, ?_⟩
  intro k hk
  have hvary : ("Vary" == k) = false := by simpa using Ne.symm hk
  by_cases hb : baseVersion ≤ rv
  · rw [(hge hb).1, (hge hb).2]
    by_cases h1 : k = "Cache-Control"
    · subst h1
      constructor <;> simp [Header.Peek, Header.Has]
    · by_cases h2 : k = "Expires"
      · subst h2
        constructor <;> simp [Header.Peek, Header.Has]
      · have e1 : ("Cache-Control" == k) = false := by simpa using Ne.symm h1
        have e2 : ("Expires" == k) = false := by simpa using Ne.symm h2
        constructor <;> simp [Header.Peek, Header.Has, List.find?, e1, e2, hvary]
  · rw [(hlt (by omega)).1, (hlt (by omega)).2]
    constructor <;> simp [Header.Peek, Header.Has, List.find?, hvary]

/-- C37 at a concrete request: `v=1700000000&d=5000000` with `BaseVersion`
1700000000 gives `public, max-age=5000000` from both. -/
theorem cacheFiller_agrees_CacheControlFunc_witness :
    (cacheFiller false 1700000000 [] (ascii "1700000000") (ascii "5000000")).Peek "Cache-Control"
      = (CacheControlFunc false 1700000000 [] (ascii "1700000000") (ascii "5000000")).Peek
        "Cache-Control" ∧
    (CacheControlFunc false 1700000000 [] (ascii "1700000000") (ascii "5000000")).Peek
      "Cache-Control" = ascii "public, max-age=5000000" :=
  ⟨((cacheFiller_agrees_CacheControlFunc 1700000000 (ascii "1700000000") (ascii "5000000")
      1700000000 (by decide) (by decide)).2.2 "Cache-Control" (by decide)).1, by decide⟩

end Eighty
